import Mathlib

/-!
# Verification of the matrw MAT-file v7 library

Shallow embedding of the matrw Rust library (MAT-file version 7 reader/writer)
and proofs about its data model, nested-literal constructor, indexing surface,
binary codec conversions and the save/load round trip.

Modelling conventions:
* Rust `f64`/`f32` buffers are modelled as lists of rationals (`Rat`).  The
  write-time downcast only inspects values through `fract`, ordering and exact
  integer casts, all of which are exact on the rationals involved.
* Rust `u8/u16/u32/u64` are `Nat`, `i8/i16/i32/i64` are `Int`; wrapping `as`
  casts are written with explicit `% 2^w`.
* A Rust function that can panic is modelled in the `PRes` monad
  (`ok` / `panicked`); a function returning `Result` that can additionally
  panic is modelled in the `RRes` monad (`ok` / `err` / `panicked`).
* Error payload strings produced by `format!` are abstracted to their static
  template text (the interpolated values are dropped); theorems only inspect
  the error constructor.
-/

namespace Matrw

/-- Outcome of a Rust computation that returns a plain value but may panic. -/
inductive PRes (α : Type) where
  | ok (a : α)
  | panicked
deriving Repr, DecidableEq

instance : Monad PRes where
  pure := PRes.ok
  bind x f := match x with
    | .ok a => f a
    | .panicked => .panicked

@[simp] theorem PRes.bind_okP {α β : Type} (a : α) (f : α → PRes β) :
    (PRes.ok a >>= f) = f a := rfl

@[simp] theorem PRes.bind_panickedP {α β : Type} (f : α → PRes β) :
    (PRes.panicked >>= f) = PRes.panicked := rfl

@[simp] theorem PRes.pure_eqP {α : Type} (a : α) : (pure a : PRes α) = PRes.ok a := rfl

/-- Error kinds of the library (`MatrwError` in `interface/error.rs`).
Payload strings keep only the static message template. -/
inductive MatrwError where
  | IoError
  | BinrwError
  | MatFile73Error
  | AccessError (msg : String)
  | SerdeError (msg : String)
  | TypeConstruction (msg : String)
deriving Repr, DecidableEq

/-- Outcome of a Rust computation returning `Result` that may also panic. -/
inductive RRes (α : Type) where
  | ok (a : α)
  | err (e : MatrwError)
  | panicked
deriving Repr, DecidableEq

instance : Monad RRes where
  pure := RRes.ok
  bind x f := match x with
    | .ok a => f a
    | .err e => .err e
    | .panicked => .panicked

@[simp] theorem RRes.bind_ok {α β : Type} (a : α) (f : α → RRes β) :
    (RRes.ok a >>= f) = f a := rfl

@[simp] theorem RRes.bind_err {α β : Type} (e : MatrwError) (f : α → RRes β) :
    (RRes.err e >>= f) = RRes.err e := rfl

@[simp] theorem RRes.bind_panicked {α β : Type} (f : α → RRes β) :
    (RRes.panicked >>= f) = RRes.panicked := rfl

@[simp] theorem RRes.pure_eq {α : Type} (a : α) : (pure a : RRes α) = RRes.ok a := rfl

/-- Lift a panics-only computation into the `Result`-with-panic monad. -/
def PRes.lift {α : Type} : PRes α → RRes α
  | .ok a => .ok a
  | .panicked => .panicked

@[simp] theorem PRes.lift_ok {α : Type} (a : α) : (PRes.ok a).lift = RRes.ok a := rfl

@[simp] theorem PRes.lift_panicked {α : Type} : (PRes.panicked : PRes α).lift = RRes.panicked := rfl

/-- Rust `Option::unwrap`: panics on `None`. -/
def unwrapO {α : Type} : Option α → PRes α
  | some a => .ok a
  | none => .panicked

@[simp] theorem unwrapO_some {α : Type} (a : α) : unwrapO (some a) = PRes.ok a := rfl

@[simp] theorem unwrapO_none {α : Type} : unwrapO (none : Option α) = PRes.panicked := rfl

/-- `e : MatrwError` is a construction error (any message). -/
def isTypeConstruction : MatrwError → Prop
  | .TypeConstruction _ => True
  | _ => False

instance (e : MatrwError) : Decidable (isTypeConstruction e) := by
  cases e <;> simp [isTypeConstruction] <;> infer_instance

/-! ## Rational helpers mirroring the `f64` operations used by the codec -/

/-- Rust `f64::trunc` (round toward zero) on the rational model. -/
def ratTrunc (q : Rat) : Int :=
  if 0 ≤ q then ⌊q⌋ else ⌈q⌉

/-- Rust `f64::fract` (`self - self.trunc()`). -/
def ratFract (q : Rat) : Rat := q - (ratTrunc q : Int)

/-- Rust saturating float-to-unsigned cast `x as uN` (fraction dropped toward
zero, clamped into `[0, hi]`). -/
def ratAsNat (q : Rat) (hi : Nat) : Nat :=
  if q ≤ 0 then 0 else min hi (ratTrunc q).toNat

/-- Rust saturating float-to-signed cast `x as iN` (fraction dropped toward
zero, clamped into `[lo, hi]`). -/
def ratAsInt (q : Rat) (lo hi : Int) : Int :=
  max lo (min hi (ratTrunc q))

theorem ratTrunc_intCast (n : Int) : ratTrunc (n : Rat) = n := by
  unfold ratTrunc
  rcases le_or_lt 0 (n : Rat) with h | h
  · simp [h]
  · rw [if_neg (not_le.mpr h)]
    simp

theorem ratFract_intCast (n : Int) : ratFract (n : Rat) = 0 := by
  simp [ratFract, ratTrunc_intCast]

/-- A rational with zero fractional part is an integer cast. -/
theorem ratFract_eq_zero_iff (q : Rat) : ratFract q = 0 ↔ (⌊q⌋ : Rat) = q := by
  constructor
  · intro h
    unfold ratFract ratTrunc at h
    rcases le_or_lt 0 q with h0 | h0
    · rw [if_pos h0] at h
      have : (⌊q⌋ : Rat) = q := by linarith [sub_eq_zero.mp h]
      exact this
    · rw [if_neg (not_le.mpr h0)] at h
      have hq : q = (⌈q⌉ : Int) := by linarith [sub_eq_zero.mp h]
      rw [hq]
      norm_cast
  · intro h
    unfold ratFract ratTrunc
    rcases le_or_lt 0 q with h0 | h0
    · rw [if_pos h0]
      rw [h]; ring
    · rw [if_neg (not_le.mpr h0)]
      have : q = (⌊q⌋ : Int) := h.symm
      rw [this]
      norm_cast
      rw [Int.ceil_intCast]
      ring

theorem ratAsNat_exact (n : Nat) (hi : Nat) (h : n ≤ hi) :
    ratAsNat (n : Rat) hi = n := by
  unfold ratAsNat
  rcases Nat.eq_zero_or_pos n with rfl | hn
  · simp
  · rw [if_neg]
    · have : ratTrunc ((n : Int) : Rat) = (n : Int) := ratTrunc_intCast n
      rw [show ((n : Rat)) = (((n : Int) : Rat)) by norm_cast, this]
      simp [h]
    · push_neg
      exact_mod_cast hn

theorem ratAsInt_exact (n lo hi : Int) (h1 : lo ≤ n) (h2 : n ≤ hi) :
    ratAsInt (n : Rat) lo hi = n := by
  unfold ratAsInt
  rw [ratTrunc_intCast]
  omega

end Matrw

namespace Matrw

/-! ## Element buffers (`MatlabType` in `interface/types/matlab_types.rs`) -/

/-- The twelve element kinds (plus the UTF16 read-side variant). -/
inductive MKind where
  | u8 | i8 | u16 | i16 | u32 | i32 | u64 | i64 | f32 | f64 | utf8 | utf16 | booln
deriving Repr, DecidableEq

/-- Homogeneous typed element buffer; unsigned integers are `Nat`, signed are
`Int`, floats are `Rat`, chars are `Char`, logicals are `Bool`. -/
inductive MatlabType where
  | U8 (v : List Nat)
  | I8 (v : List Int)
  | U16 (v : List Nat)
  | I16 (v : List Int)
  | U32 (v : List Nat)
  | I32 (v : List Int)
  | U64 (v : List Nat)
  | I64 (v : List Int)
  | F32 (v : List Rat)
  | F64 (v : List Rat)
  | UTF8 (v : List Char)
  | UTF16 (v : List Char)
  | BOOL (v : List Bool)
deriving Repr, DecidableEq

/-- `MatlabType::new()` -/
def MatlabType.mkNew : MatlabType := .F64 []

/-- Discriminant of the buffer (Rust `std::mem::discriminant`). -/
def MatlabType.kind : MatlabType → MKind
  | .U8 _ => .u8
  | .I8 _ => .i8
  | .U16 _ => .u16
  | .I16 _ => .i16
  | .U32 _ => .u32
  | .I32 _ => .i32
  | .U64 _ => .u64
  | .I64 _ => .i64
  | .F32 _ => .f32
  | .F64 _ => .f64
  | .UTF8 _ => .utf8
  | .UTF16 _ => .utf16
  | .BOOL _ => .booln

/-- `MatlabType::len` -/
def MatlabType.len : MatlabType → Nat
  | .U8 v => v.length
  | .I8 v => v.length
  | .U16 v => v.length
  | .I16 v => v.length
  | .U32 v => v.length
  | .I32 v => v.length
  | .U64 v => v.length
  | .I64 v => v.length
  | .F32 v => v.length
  | .F64 v => v.length
  | .UTF8 v => v.length
  | .UTF16 v => v.length
  | .BOOL v => v.length

/-- `MatlabType::is_empty` -/
def MatlabType.is_empty (m : MatlabType) : Bool := m.len == 0

/-- A single element value, boxing the per-kind Rust scalar types. -/
inductive ElemVal where
  | n (x : Nat)
  | i (x : Int)
  | q (x : Rat)
  | c (x : Char)
  | b (x : Bool)
deriving Repr, DecidableEq

/-- Element at a position, boxed (the underlying `Vec::get`). -/
def MatlabType.elemAt : MatlabType → Nat → Option ElemVal
  | .U8 v, j => (v.get? j).map .n
  | .I8 v, j => (v.get? j).map .i
  | .U16 v, j => (v.get? j).map .n
  | .I16 v, j => (v.get? j).map .i
  | .U32 v, j => (v.get? j).map .n
  | .I32 v, j => (v.get? j).map .i
  | .U64 v, j => (v.get? j).map .n
  | .I64 v, j => (v.get? j).map .i
  | .F32 v, j => (v.get? j).map .q
  | .F64 v, j => (v.get? j).map .q
  | .UTF8 v, j => (v.get? j).map .c
  | .UTF16 v, j => (v.get? j).map .c
  | .BOOL v, j => (v.get? j).map .b

/-- `MatlabType::get::<T>(index)`: `T::inner_ref(self).unwrap().get(index)`.
The kind selected by `T` must match the buffer's kind, otherwise the
`unwrap` panics; in-range lookup then yields the element. -/
def MatlabType.getK (k : MKind) (m : MatlabType) (j : Nat) : PRes (Option ElemVal) :=
  if m.kind = k then .ok (m.elemAt j) else .panicked

/-- Rust `vec![items[index]]` (panics when out of range). -/
def listCloneAt {α : Type} (l : List α) (j : Nat) : PRes (List α) :=
  match l.get? j with
  | some x => .ok [x]
  | none => .panicked

/-- `MatlabType::clone_at_index`. -/
def MatlabType.clone_at_index : MatlabType → Nat → PRes MatlabType
  | .U8 v, j => MatlabType.U8 <$> listCloneAt v j
  | .I8 v, j => MatlabType.I8 <$> listCloneAt v j
  | .U16 v, j => MatlabType.U16 <$> listCloneAt v j
  | .I16 v, j => MatlabType.I16 <$> listCloneAt v j
  | .U32 v, j => MatlabType.U32 <$> listCloneAt v j
  | .I32 v, j => MatlabType.I32 <$> listCloneAt v j
  | .U64 v, j => MatlabType.U64 <$> listCloneAt v j
  | .I64 v, j => MatlabType.I64 <$> listCloneAt v j
  | .F32 v, j => MatlabType.F32 <$> listCloneAt v j
  | .F64 v, j => MatlabType.F64 <$> listCloneAt v j
  | .UTF8 v, j => MatlabType.UTF8 <$> listCloneAt v j
  | .UTF16 v, j => MatlabType.UTF16 <$> listCloneAt v j
  | .BOOL v, j => MatlabType.BOOL <$> listCloneAt v j

/-- `MatlabType::extend`: appends matching kinds, panics on a kind mismatch. -/
def MatlabType.extend : MatlabType → MatlabType → PRes MatlabType
  | .U8 v, .U8 w => .ok (.U8 (v ++ w))
  | .I8 v, .I8 w => .ok (.I8 (v ++ w))
  | .U16 v, .U16 w => .ok (.U16 (v ++ w))
  | .I16 v, .I16 w => .ok (.I16 (v ++ w))
  | .U32 v, .U32 w => .ok (.U32 (v ++ w))
  | .I32 v, .I32 w => .ok (.I32 (v ++ w))
  | .U64 v, .U64 w => .ok (.U64 (v ++ w))
  | .I64 v, .I64 w => .ok (.I64 (v ++ w))
  | .F32 v, .F32 w => .ok (.F32 (v ++ w))
  | .F64 v, .F64 w => .ok (.F64 (v ++ w))
  | .UTF8 v, .UTF8 w => .ok (.UTF8 (v ++ w))
  | .UTF16 v, .UTF16 w => .ok (.UTF16 (v ++ w))
  | .BOOL v, .BOOL w => .ok (.BOOL (v ++ w))
  | _, _ => .panicked

/-- Empty buffer of the kind of the given buffer (the `match vec.first()`
initialisation inside `MatlabType::join`). -/
def MatlabType.emptyLike : MatlabType → MatlabType
  | .U8 _ => .U8 []
  | .I8 _ => .I8 []
  | .U16 _ => .U16 []
  | .I16 _ => .I16 []
  | .U32 _ => .U32 []
  | .I32 _ => .I32 []
  | .U64 _ => .U64 []
  | .I64 _ => .I64 []
  | .F32 _ => .F32 []
  | .F64 _ => .F64 []
  | .UTF8 _ => .UTF8 []
  | .UTF16 _ => .UTF16 []
  | .BOOL _ => .BOOL []

/-- `MatlabType::join`: `vec.first().unwrap()` (panics on an empty list), then
folds `extend` over the list.  The Rust function returns `Option` but always
`Some` on success. -/
def MatlabType.join (vec : List MatlabType) : PRes MatlabType :=
  match vec.head? with
  | none => .panicked
  | some h => vec.foldlM MatlabType.extend h.emptyLike

/-! ### Row-major to column-major reshape -/

/-- Iteration order of the nested loops in `row_vec_to_colmaj_interal`:
`r` over `0..n_rows` outer, `c` over `0..n_cols` inner. -/
def rvcPairs (nRows nCols : Nat) : List (Nat × Nat) :=
  (List.range nRows).flatMap (fun r => (List.range nCols).map (fun c => (r, c)))

/-- Loop body `v[c * n_rows + r] = value[r * n_cols + c]` (panics when either
index is out of range). -/
def rvcStep {α : Type} (value : List α) (nRows nCols : Nat)
    (v : List α) (rc : Nat × Nat) : PRes (List α) :=
  match value.get? (rc.1 * nCols + rc.2) with
  | none => .panicked
  | some x =>
    if rc.2 * nRows + rc.1 < v.length then .ok (v.set (rc.2 * nRows + rc.1) x)
    else .panicked

/-- `MatlabType::row_vec_to_colmaj_interal`: copy the buffer, then run the
nested loops. -/
def rowVecToColmajInternal {α : Type} (value : List α) (nRows nCols : Nat) :
    PRes (List α) :=
  (rvcPairs nRows nCols).foldlM (rvcStep value nRows nCols) value

/-- `MatlabType::row_vec_to_colmaj` (kind dispatch). -/
def MatlabType.row_vec_to_colmaj (value : MatlabType) (nRows nCols : Nat) :
    PRes MatlabType :=
  match value with
  | .U8 v => MatlabType.U8 <$> rowVecToColmajInternal v nRows nCols
  | .I8 v => MatlabType.I8 <$> rowVecToColmajInternal v nRows nCols
  | .U16 v => MatlabType.U16 <$> rowVecToColmajInternal v nRows nCols
  | .I16 v => MatlabType.I16 <$> rowVecToColmajInternal v nRows nCols
  | .U32 v => MatlabType.U32 <$> rowVecToColmajInternal v nRows nCols
  | .I32 v => MatlabType.I32 <$> rowVecToColmajInternal v nRows nCols
  | .U64 v => MatlabType.U64 <$> rowVecToColmajInternal v nRows nCols
  | .I64 v => MatlabType.I64 <$> rowVecToColmajInternal v nRows nCols
  | .F32 v => MatlabType.F32 <$> rowVecToColmajInternal v nRows nCols
  | .F64 v => MatlabType.F64 <$> rowVecToColmajInternal v nRows nCols
  | .UTF8 v => MatlabType.UTF8 <$> rowVecToColmajInternal v nRows nCols
  | .UTF16 v => MatlabType.UTF16 <$> rowVecToColmajInternal v nRows nCols
  | .BOOL v => MatlabType.BOOL <$> rowVecToColmajInternal v nRows nCols

end Matrw

namespace Matrw

/-- Rust `Result::unwrap` / `.expect(...)`: panics on `Err`. -/
def RRes.unwrapR {α : Type} : RRes α → PRes α
  | .ok a => .ok a
  | .err _ => .panicked
  | .panicked => .panicked

@[simp] theorem RRes.unwrapR_ok {α : Type} (a : α) : (RRes.ok a).unwrapR = PRes.ok a := rfl

/-! ## The variable tree (`interface/variable.rs` and `interface/types/*`) -/

/-- Dense numeric array (`interface/types/numeric_array.rs`). -/
structure NumericArray where
  dim : List Nat
  value : MatlabType
  value_cmp : Option MatlabType
deriving Repr, DecidableEq

/-- `NumericArray::new`: checks a nonempty dimension hint against the element
count, then normalises empty / 1-D hints to `[1, len]`. -/
def NumericArray.new (dim : List Nat) (value : MatlabType)
    (value_cmp : Option MatlabType) : RRes NumericArray :=
  if dim ≠ [] ∧ dim.prod ≠ value.len then
    .err (.TypeConstruction "Specified dimension does not match number of elements.")
  else
    let dim' := if dim = [] ∨ dim.length = 1 then [1, value.len] else dim
    .ok ⟨dim', value, value_cmp⟩

/-- `NumericArray::is_scalar` -/
def NumericArray.is_scalar (a : NumericArray) : Bool := a.dim.prod == 1

/-- `NumericArray::is_complex` -/
def NumericArray.is_complex (a : NumericArray) : Bool := a.value_cmp.isSome

/-- Sparse matrix (`interface/types/sparse_array.rs`).  The stored
`null_type` is the `Box<MatVariable>` of the source, which is always a
1x1 `NumericArray` zero of the value kind. -/
structure SparseArray where
  dim : List Nat
  ir : List Nat
  jc : List Nat
  is_comp : Bool
  null_type : NumericArray
  value : MatlabType
  value_cmp : Option MatlabType
deriving Repr, DecidableEq

/-- The `null_type` computed inside `SparseArray::new` (panics for kinds other
than `BOOL`/`F64`). -/
def sparseNullType (value : MatlabType) (is_comp : Bool) : PRes NumericArray :=
  match value, is_comp with
  | .BOOL _, false => (NumericArray.new [1, 1] (.BOOL [false]) none).unwrapR
  | .BOOL _, true =>
    (NumericArray.new [1, 1] (.BOOL [false]) (some (.BOOL [false]))).unwrapR
  | .F64 _, false => (NumericArray.new [1, 1] (.F64 [0]) none).unwrapR
  | .F64 _, true => (NumericArray.new [1, 1] (.F64 [0]) (some (.F64 [0]))).unwrapR
  | _, _ => .panicked

/-- `SparseArray::new`. -/
def SparseArray.new (dim ir jc : List Nat) (is_comp : Bool) (value : MatlabType)
    (value_cmp : Option MatlabType) : RRes SparseArray :=
  if dim ≠ [] ∧ ir.length ≠ value.len then
    .err (.TypeConstruction "Specified dimension does not match number of elements.")
  else
    match sparseNullType value is_comp with
    | .panicked => .panicked
    | .ok nt => .ok ⟨dim, ir, jc, is_comp, nt, value, value_cmp⟩

/-- `SparseArray::is_complex` -/
def SparseArray.is_complex (s : SparseArray) : Bool := s.value_cmp.isSome

/-- The recursive tagged variable (`MatVariable` in `interface/variable.rs`).
`Structure` is the insertion-ordered field map; `StructureArray` stores its
cells (`Vec<MatVariable>`, each a `Structure`); `Compressed` owns its inner
variable. -/
inductive MatVariable where
  | NumericArray (a : NumericArray)
  | SparseArray (a : SparseArray)
  | StructureArray (dim : List Nat) (fieldnames : List String)
      (value : List MatVariable)
  | CellArray (dim : List Nat) (value : List MatVariable)
  | Structure (value : List (String × MatVariable))
  | Null
  | Compressed (value : MatVariable)
  | Unsupported
deriving Repr

/-- `MatVariable::dim` (`unimplemented!()` for the remaining variants). -/
def MatVariable.dim : MatVariable → PRes (List Nat)
  | .NumericArray a => .ok a.dim
  | .CellArray d _ => .ok d
  | .Structure _ => .ok [1, 1]
  | .StructureArray d _ _ => .ok d
  | .SparseArray s => .ok s.dim
  | _ => .panicked

/-- `MatVariable::numeric_type` -/
def MatVariable.numeric_type : MatVariable → Option MatlabType
  | .NumericArray a => some a.value
  | .SparseArray s => some s.value
  | _ => none

/-- `MatVariable::is_complex` -/
def MatVariable.is_complex : MatVariable → Option Bool
  | .NumericArray a => some a.is_complex
  | .SparseArray s => some s.is_complex
  | _ => none

/-- `Structure::fieldnames` (keys of the insertion-ordered map). -/
def structFieldnames (value : List (String × MatVariable)) : List String :=
  value.map Prod.fst

/-- `MatVariable::fieldnames` -/
def MatVariable.fieldnames : MatVariable → Option (List String)
  | .Structure v => some (structFieldnames v)
  | .StructureArray _ f _ => some f
  | _ => none

/-- `Structure::get` (`IndexMap::get`). -/
def structGet (value : List (String × MatVariable)) (field : String) :
    Option MatVariable :=
  (value.find? (fun p => p.1 == field)).map Prod.snd

end Matrw

namespace Matrw

/-! ## Indexing (`interface/types/array.rs`, `interface/index.rs`) -/

/-- `ArrayType::column_index` (default implementation): multi-dimensional to
column-major scalar index, `None` on arity or range mismatch. -/
def columnIndexDims (dims idx : List Nat) : Option Nat :=
  if dims.length ≠ idx.length then none
  else if (idx.zip dims).any (fun p => p.2 ≤ p.1) then none
  else some ((idx.zip dims).foldl
    (fun (acc : Nat × Nat) p => (acc.1 + p.1 * acc.2, acc.2 * p.2)) (0, 1)).1

/-- `NumericArray::get_clone_colmaj`: clones the element (and its imaginary
companion) into a fresh 1x1 array; `NumericArray::new(..).ok()?` turns a
construction error into `None`. -/
def NumericArray.get_clone_colmaj (a : NumericArray) (index : Nat) :
    PRes (Option MatVariable) :=
  if a.is_complex then do
    let v ← a.value.clone_at_index index
    let c ← match a.value_cmp with
            | some m => (fun x => some x) <$> m.clone_at_index index
            | none => pure none
    match NumericArray.new [1, 1] v c with
    | .ok arr => pure (some (.NumericArray arr))
    | .err _ => pure none
    | .panicked => .panicked
  else do
    let v ← a.value.clone_at_index index
    match NumericArray.new [1, 1] v none with
    | .ok arr => pure (some (.NumericArray arr))
    | .err _ => pure none
    | .panicked => .panicked

/-- `ArrayType::get_clone_multidim` default, as inherited by `NumericArray`. -/
def NumericArray.get_clone_multidim (a : NumericArray) (idx : List Nat) :
    PRes (Option MatVariable) :=
  match columnIndexDims a.dim idx with
  | none => .ok none
  | some ci => a.get_clone_colmaj ci

/-- `SparseArray::get_clone_colmaj` (indexes into the stored-entry buffers;
`NumericArray::new(..).unwrap()` panics on a construction error). -/
def SparseArray.get_clone_colmaj (s : SparseArray) (index : Nat) :
    PRes (Option MatVariable) :=
  if s.is_complex then do
    let v ← s.value.clone_at_index index
    let c ← match s.value_cmp with
            | some m => (fun x => some x) <$> m.clone_at_index index
            | none => pure none
    let arr ← (NumericArray.new [1, 1] v c).unwrapR
    pure (some (.NumericArray arr))
  else do
    let v ← s.value.clone_at_index index
    let arr ← (NumericArray.new [1, 1] v none).unwrapR
    pure (some (.NumericArray arr))

/-- The `(jc..jc+nc).find(|&f| self.ir[f] == idx[0])` search of
`SparseArray::column_index` (panics when `ir[f]` is out of range). -/
def sparseFindAux (ir : List Nat) (target : Nat) : Nat → Nat → PRes (Option Nat)
  | _, 0 => .ok none
  | f, k + 1 =>
    match ir.get? f with
    | none => .panicked
    | some r => if r = target then .ok (some f) else sparseFindAux ir target (f + 1) k

/-- `SparseArray::column_index` (overridden): looks the index pair up in the
compressed-sparse-column structure.  `jc[idx[1]]`, `jc[idx[1]+1]` and `ir[f]`
are panicking indexings; the `nc` subtraction is the Rust `usize` difference
(non-negative for well-formed `jc`). -/
def SparseArray.column_index (s : SparseArray) (idx : List Nat) :
    PRes (Option Nat) := do
  let i1 ← unwrapO (idx.get? 1)
  let jcv ← unwrapO (s.jc.get? i1)
  let jc1 ← unwrapO (s.jc.get? (i1 + 1))
  let i0 ← unwrapO (idx.get? 0)
  sparseFindAux s.ir i0 jcv (jc1 - jcv)

/-- `SparseArray::get_clone_multidim` (overridden): explicit bounds checks
return `None`; a structurally absent entry clones the stored zero
`null_type`. -/
def SparseArray.get_clone_multidim (s : SparseArray) (idx : List Nat) :
    PRes (Option MatVariable) := do
  let i0 ← unwrapO (idx.get? 0)
  let d0 ← unwrapO (s.dim.get? 0)
  if d0 ≤ i0 then pure none
  else do
    let i1 ← unwrapO (idx.get? 1)
    let d1 ← unwrapO (s.dim.get? 1)
    if d1 ≤ i1 then pure none
    else do
      let ci ← s.column_index idx
      match ci with
      | some v => s.get_clone_colmaj v
      | none => pure (some (.NumericArray s.null_type))

/-- `impl Index for usize::index_into_clone`. -/
def indexIntoCloneNat (i : Nat) : MatVariable → PRes (Option MatVariable)
  | .NumericArray a => a.get_clone_colmaj i
  | .SparseArray s => s.get_clone_colmaj i
  | _ => .ok none

/-- `impl Index for usize::index_into_ref`. -/
def indexIntoRefNat (i : Nat) : MatVariable → Option MatVariable
  | .CellArray _ vs => vs.get? i
  | .StructureArray _ _ vs => vs.get? i
  | _ => none

/-- `impl Index for [usize; N] / &[usize]::index_into_clone`. -/
def indexIntoCloneMulti (idx : List Nat) : MatVariable → PRes (Option MatVariable)
  | .NumericArray a => a.get_clone_multidim idx
  | .SparseArray s => s.get_clone_multidim idx
  | _ => .ok none

/-- `impl Index for [usize; N] / &[usize]::index_into_ref` (the default
`get_ref_multidim` over the `impl_Array_for` `get_ref_colmaj`). -/
def indexIntoRefMulti (idx : List Nat) : MatVariable → Option MatVariable
  | .CellArray d vs =>
    match columnIndexDims d idx with
    | some ci => vs.get? ci
    | none => none
  | .StructureArray d _ vs =>
    match columnIndexDims d idx with
    | some ci => vs.get? ci
    | none => none
  | _ => none

/-- `impl Index for &str::index_into_clone` is `todo!()`: it panics
unconditionally. -/
def indexIntoCloneStr (_field : String) (_v : MatVariable) :
    PRes (Option MatVariable) := .panicked

/-- `impl Index for &str::index_into_ref`. -/
def indexIntoRefStr (field : String) : MatVariable → Option MatVariable
  | .Structure m => structGet m field
  | _ => none

/-- `OwnedIndex::elem` with a scalar index:
`index.index_into_clone(self).unwrap_or(NULL.clone())`. -/
def MatVariable.elemNat (v : MatVariable) (i : Nat) : PRes MatVariable := do
  let o ← indexIntoCloneNat i v
  pure (o.getD .Null)

/-- `OwnedIndex::elem` with a multi-dimensional index. -/
def MatVariable.elemMulti (v : MatVariable) (idx : List Nat) : PRes MatVariable := do
  let o ← indexIntoCloneMulti idx v
  pure (o.getD .Null)

/-- `OwnedIndex::elem` with a field name. -/
def MatVariable.elemStr (v : MatVariable) (field : String) : PRes MatVariable := do
  let o ← indexIntoCloneStr field v
  pure (o.getD .Null)

/-- `ops::Index` (borrow path) with a scalar index:
`index.index_into_ref(self).unwrap_or(&NULL)`. -/
def MatVariable.refNat (v : MatVariable) (i : Nat) : MatVariable :=
  (indexIntoRefNat i v).getD .Null

/-- `ops::Index` (borrow path) with a multi-dimensional index. -/
def MatVariable.refMulti (v : MatVariable) (idx : List Nat) : MatVariable :=
  (indexIntoRefMulti idx v).getD .Null

/-- `ops::Index` (borrow path) with a field name. -/
def MatVariable.refStr (v : MatVariable) (field : String) : MatVariable :=
  (indexIntoRefStr field v).getD .Null

end Matrw

namespace Matrw

/-! ## Nested-literal constructor (`NumericArray::from_nested_matvar`) -/

/-- Short-circuiting `iter().all` in the panic monad. -/
def pallM {α : Type} (p : α → PRes Bool) : List α → PRes Bool
  | [] => .ok true
  | x :: xs => do
    let b ← p x
    if b then pallM p xs else pure false

/-- `discriminant(x.numeric_type().unwrap())` for one child. -/
def MatVariable.numericKind (v : MatVariable) : PRes MKind := do
  let t ← unwrapO v.numeric_type
  pure t.kind

/-- Extract `x.value` from a child, `panic!()` on a non-numeric child. -/
def childRealBuf : MatVariable → PRes MatlabType
  | .NumericArray x => .ok x.value
  | _ => .panicked

/-- Extract `x.value_cmp.as_ref().unwrap()` from a child (panics when the
child is real or non-numeric). -/
def childCmpBuf : MatVariable → PRes MatlabType
  | .NumericArray x => unwrapO x.value_cmp
  | _ => .panicked

/-- The per-row validation loop shared by the three vector branches: rejects a
dimension or complex-status mismatch with a construction error (both use the
message of the dimension arm in the source). -/
def checkChildrenSame (rows : List MatVariable) (dim : List Nat) (isc : Bool) :
    RRes Unit :=
  rows.foldlM (fun _ row => do
    let d ← (row.dim).lift
    if d ≠ dim then
      RRes.err (.TypeConstruction "All row vectors must have the same dimensions.")
    else do
      let c ← (unwrapO row.is_complex).lift
      if c ≠ isc then
        RRes.err (.TypeConstruction "All row vectors must have the same dimensions.")
      else pure ()) ()

/-- `nested_row_vecs_to_colmaj_array`: join in child order (row-major) then
reshape to column-major; the imaginary buffer is treated the same way. -/
def nested_row_vecs_to_colmaj_array (rows : List MatVariable) :
    RRes (List Nat × MatlabType × Option MatlabType) := do
  let h ← (unwrapO rows.head?).lift
  let dim ← (h.dim).lift
  let isc ← (unwrapO h.is_complex).lift
  checkChildrenSame rows dim isc
  let nCols := dim.prod
  let nRows := rows.length
  let rowsVec ← (rows.mapM childRealBuf).lift
  let value ← (MatlabType.join rowsVec).lift
  let value ← (value.row_vec_to_colmaj nRows nCols).lift
  let value_cmp ←
    if isc then do
      let cmpVec ← (rows.mapM childCmpBuf).lift
      let c ← (MatlabType.join cmpVec).lift
      let c ← (c.row_vec_to_colmaj nRows nCols).lift
      pure (some c)
    else pure none
  pure ([nRows, nCols], value, value_cmp)

/-- `nested_col_vecs_to_colmaj_array`: the real buffer is the plain
concatenation, but the imaginary buffer is additionally passed through
`row_vec_to_colmaj` in the source. -/
def nested_col_vecs_to_colmaj_array (cols : List MatVariable) :
    RRes (List Nat × MatlabType × Option MatlabType) := do
  let h ← (unwrapO cols.head?).lift
  let dim ← (h.dim).lift
  let isc ← (unwrapO h.is_complex).lift
  checkChildrenSame cols dim isc
  let nRows := dim.prod
  let nCols := cols.length
  let colsVec ← (cols.mapM childRealBuf).lift
  let value ← (MatlabType.join colsVec).lift
  let value_cmp ←
    if isc then do
      let cmpVec ← (cols.mapM childCmpBuf).lift
      let c ← (MatlabType.join cmpVec).lift
      let c ← (c.row_vec_to_colmaj nRows nCols).lift
      pure (some c)
    else pure none
  pure ([nRows, nCols], value, value_cmp)

/-- `flatten_higher_dim_nested_array`: concatenation of the children's
column-major buffers, dimension `first.dim() ++ [n_children]`. -/
def flatten_higher_dim_nested_array (value : List MatVariable) :
    RRes (List Nat × MatlabType × Option MatlabType) := do
  let h ← (unwrapO value.head?).lift
  let dim ← (h.dim).lift
  let isc ← (unwrapO h.is_complex).lift
  checkChildrenSame value dim isc
  let newDim := dim ++ [value.length]
  let newVals ← (value.mapM childRealBuf).lift
  let newValue ← (MatlabType.join newVals).lift
  let newCmp ←
    if isc then do
      let cmpVec ← (value.mapM childCmpBuf).lift
      let c ← (MatlabType.join cmpVec).lift
      pure (some c)
    else pure none
  pure (newDim, newValue, newCmp)

/-- `NumericArray::from_nested_matvar`. -/
def NumericArray.from_nested_matvar (dim : List Nat) (value : List MatVariable) :
    RRes NumericArray := do
  if value.isEmpty then NumericArray.new dim MatlabType.mkNew none
  else do
    let h ← (unwrapO value.head?).lift
    let firstDim ← (h.dim).lift
    if firstDim = [1, 1] then do
      let first ← (h.numericKind).lift
      let same ← (pallM (fun x => do
        let k ← x.numericKind
        pure (k == first)) value).lift
      if !same then
        RRes.err (.TypeConstruction "All elements must be of same numeric type.")
      else do
        let dim' := if dim = [] ∨ dim.length = 1 then [1, value.length] else dim
        let valueNew ← (value.mapM childRealBuf).lift
        let valueNew ← (MatlabType.join valueNew).lift
        let isc ← (unwrapO h.is_complex).lift
        let valueCmpNew ←
          if isc then do
            let cmpVec ← (value.mapM childCmpBuf).lift
            let c ← (MatlabType.join cmpVec).lift
            pure (some c)
          else pure none
        NumericArray.new dim' valueNew valueCmpNew
    else do
      let d0 ← (unwrapO (firstDim.get? 0)).lift
      let d1 ← (unwrapO (firstDim.get? 1)).lift
      let res ←
        if d0 = 1 then nested_row_vecs_to_colmaj_array value
        else if d1 = 1 then nested_col_vecs_to_colmaj_array value
        else flatten_higher_dim_nested_array value
      NumericArray.new res.1 res.2.1 res.2.2

/-! ## The `matvar!` array dispatch (`interface/macros.rs`) and structure
arrays (`interface/types/structure_array.rs`) -/

/-- `check_same_dim` (`interface/types/numeric_array.rs`). -/
def check_same_dim (vec : List MatVariable) : PRes Bool :=
  match vec.head? with
  | none => .ok false
  | some h => do
    let first ← h.dim
    -- `vec.iter().map(|x| x.dim() == first).all(..)` does not short-circuit
    let ds ← vec.mapM MatVariable.dim
    pure (ds.all (fun d => d == first))

/-- `check_same_type` (`interface/types/numeric_array.rs`): the source tests
`matches!(x.numeric_type(), _first)` where `_first` is a binding pattern, so
the predicate holds for every element; the function is `true` exactly on
nonempty input. -/
def check_same_type (vec : List MatVariable) : Bool :=
  !vec.isEmpty

/-- `check_same_fields` (`interface/types/structure.rs`). -/
def check_same_fields (vec : List MatVariable) : Bool :=
  match vec.head? with
  | none => false
  | some h => vec.all (fun x => x.fieldnames == h.fieldnames)

/-- `StructureArray::from_structures`: takes the first structure's field list
(`val[0].fieldnames().expect(..)`, panicking on an empty list or a
non-structure first element); no homogeneity check of its own. -/
def StructureArray.from_structures (dim : List Nat) (value : List MatVariable) :
    PRes MatVariable := do
  let h ← unwrapO value.head?
  let f ← unwrapO h.fieldnames
  pure (.StructureArray dim f value)

/-- `CellArray::new`. -/
def CellArray.new (dim : List Nat) (value : List MatVariable) :
    RRes MatVariable :=
  if dim ≠ [] ∧ dim.prod ≠ value.length then
    .err (.TypeConstruction "Specified dimension does not match number of elements.")
  else .ok (.CellArray dim value)

/-- The structure-array-or-cell fallback of the `matvar!` array completion:
structure array when all children are structures with identical ordered field
lists, otherwise a `[1, n]` cell array (`CellArray::new(..).unwrap()`). -/
def matvarStructOrCell (v : List MatVariable) : PRes MatVariable :=
  if v.all (fun x => match x with | .Structure _ => true | _ => false) ∧
      check_same_fields v then
    StructureArray.from_structures [1, v.length] v
  else
    (CellArray.new [1, v.length] v).unwrapR

/-- `matvar!` array completion (`matvar_internal (@array [..])`): numeric
when all children are numeric arrays with equal dimensions, structure array
when all children are structures with identical ordered field lists,
otherwise a `[1, n]` cell array.  The `.unwrap()` calls promote construction
errors to panics at this macro boundary. -/
def matvarArrayDispatch (v : List MatVariable) : PRes MatVariable :=
  if v.all (fun x => match x with | .NumericArray _ => true | _ => false) then do
    let csd ← check_same_dim v
    if csd ∧ check_same_type v then do
      let a ← (NumericArray.from_nested_matvar [1, v.length] v).unwrapR
      pure (.NumericArray a)
    else
      matvarStructOrCell v
  else matvarStructOrCell v

/-! ## Scalar accessors (`impl_MatVariable_to` in `interface/variable.rs`) -/

/-- `NumericArray::real_to_scalar::<T>`:
`Some(*self.value.get(0).unwrap())` — panics when the buffer kind does not
match `T` (the `inner_ref` unwrap inside `MatlabType::get`) or when the
buffer is empty (the outer unwrap). -/
def NumericArray.real_to_scalar (k : MKind) (a : NumericArray) :
    PRes (Option ElemVal) := do
  let o ← a.value.getK k 0
  let x ← unwrapO o
  pure (some x)

/-- The macro-generated family `to_u8 .. to_bool`, indexed by the requested
kind `k`: `NumericArray(val) if val.is_scalar() => val.real_to_scalar()`,
every other arm `None`. -/
def MatVariable.toScalarAcc (k : MKind) : MatVariable → PRes (Option ElemVal)
  | .NumericArray a => if a.is_scalar then a.real_to_scalar k else .ok none
  | _ => .ok none

/-- `MatVariable::to_f64`. -/
def MatVariable.to_f64 (v : MatVariable) : PRes (Option ElemVal) :=
  v.toScalarAcc .f64

/-- `MatVariable::to_i32`. -/
def MatVariable.to_i32 (v : MatVariable) : PRes (Option ElemVal) :=
  v.toScalarAcc .i32

/-- `MatVariable::to_bool`. -/
def MatVariable.to_bool (v : MatVariable) : PRes (Option ElemVal) :=
  v.toScalarAcc .booln

end Matrw

namespace Matrw

/-! ## Wire flags (`parser/v7/flags.rs`) -/

/-- MAT-file data types (Table 1-1). -/
inductive MatFileDataTypes where
  | MiINT8 | MiUINT8 | MiINT16 | MiUINT16 | MiINT32 | MiUINT32
  | MiSINGLE | MiDOUBLE | MiINT64 | MiUINT64 | MiMATRIX | MiCOMPRESSED
  | MiUTF8 | MiUTF16 | MiUTF32
deriving Repr, DecidableEq

/-- MATLAB array classes (Table 1-3). -/
inductive MatlabArrayTypes where
  | MxCELLCLASS | MxSTRUCTCLASS | MxOBJECTCLASS | MxCHARCLASS | MxSPARSECLASS
  | MxDOUBLECLASS | MxSINGLECLASS | MxINT8CLASS | MxUINT8CLASS | MxINT16CLASS
  | MxUINT16CLASS | MxINT32CLASS | MxUINT32CLASS | MxINT64CLASS | MxUINT64CLASS
  | MxHANDLECLASS | MxOPAQUECLASS
deriving Repr, DecidableEq

/-! ## Integer `as` casts (wrapping) and UTF-8, modelling the std primitives -/

/-- Rust wrapping cast to an unsigned `w`-bit integer. -/
def wrapU (w : Nat) (x : Int) : Nat := (x % ((2 : Int) ^ w)).toNat

/-- Rust wrapping cast to a signed `w`-bit integer. -/
def wrapI (w : Nat) (x : Int) : Int :=
  (x + 2 ^ (w - 1)) % 2 ^ w - 2 ^ (w - 1)

theorem wrapU_exact (w : Nat) (x : Int) (h0 : 0 ≤ x) (h1 : x < 2 ^ w) :
    (wrapU w x : Int) = x := by
  unfold wrapU
  rw [Int.emod_eq_of_lt h0 (by exact_mod_cast h1)]
  exact Int.toNat_of_nonneg h0

theorem wrapI_exact (w : Nat) (x : Int) (h0 : -(2 ^ (w - 1)) ≤ x)
    (h1 : x < 2 ^ w - 2 ^ (w - 1)) : wrapI w x = x := by
  unfold wrapI
  rw [Int.emod_eq_of_lt (by omega) (by omega)]
  omega

/-- UTF-8 encoding of one scalar value (`char::to_string().into_bytes()`). -/
def utf8EncodeChar (c : Char) : List Nat :=
  let n := c.toNat
  if n < 0x80 then [n]
  else if n < 0x800 then [0xC0 + n / 64, 0x80 + n % 64]
  else if n < 0x10000 then
    [0xE0 + n / 4096, 0x80 + n / 64 % 64, 0x80 + n % 64]
  else
    [0xF0 + n / 262144, 0x80 + n / 4096 % 64, 0x80 + n / 64 % 64, 0x80 + n % 64]

/-- Two-byte UTF-8 continuation step of the decoder model. -/
def utf8DecTwo (dec : List Nat → Option (List Char)) (b : Nat) (rest : List Nat) :
    Option (List Char) :=
  match rest with
  | b1 :: rest1 =>
    if 0x80 ≤ b1 ∧ b1 < 0xC0 then
      (dec rest1).map (fun l => Char.ofNat ((b - 0xC0) * 64 + (b1 - 0x80)) :: l)
    else none
  | [] => none

/-- Three-byte UTF-8 continuation step of the decoder model. -/
def utf8DecThree (dec : List Nat → Option (List Char)) (b : Nat) (rest : List Nat) :
    Option (List Char) :=
  match rest with
  | b1 :: b2 :: rest2 =>
    if (0x80 ≤ b1 ∧ b1 < 0xC0) ∧ (0x80 ≤ b2 ∧ b2 < 0xC0) then
      (dec rest2).map
        (fun l => Char.ofNat ((b - 0xE0) * 4096 + (b1 - 0x80) * 64 + (b2 - 0x80)) :: l)
    else none
  | _ => none

/-- Four-byte UTF-8 continuation step of the decoder model. -/
def utf8DecFour (dec : List Nat → Option (List Char)) (b : Nat) (rest : List Nat) :
    Option (List Char) :=
  match rest with
  | b1 :: b2 :: b3 :: rest3 =>
    if (0x80 ≤ b1 ∧ b1 < 0xC0) ∧ (0x80 ≤ b2 ∧ b2 < 0xC0) ∧ (0x80 ≤ b3 ∧ b3 < 0xC0) then
      (dec rest3).map
        (fun l => Char.ofNat
          ((b - 0xF0) * 262144 + (b1 - 0x80) * 4096 + (b2 - 0x80) * 64 + (b3 - 0x80)) :: l)
    else none
  | _ => none

/-- Fuelled body of the `String::from_utf8` model. -/
def utf8DecodeAux : Nat → List Nat → Option (List Char)
  | _, [] => some []
  | 0, _ :: _ => none
  | fuel + 1, b :: rest =>
    if b < 0x80 then (utf8DecodeAux fuel rest).map (fun l => Char.ofNat b :: l)
    else if b < 0xC0 then none
    else if b < 0xE0 then utf8DecTwo (utf8DecodeAux fuel) b rest
    else if b < 0xF0 then utf8DecThree (utf8DecodeAux fuel) b rest
    else utf8DecFour (utf8DecodeAux fuel) b rest

/-- Model of `String::from_utf8(..)` on a byte list: multi-byte sequences are
reassembled; exact on ASCII input (which is all the writer emits after the
non-ASCII filter), lenient about non-canonical encodings otherwise.  The fuel
equals the byte count, an upper bound on the scalar count. -/
def utf8Decode (bytes : List Nat) : Option (List Char) :=
  utf8DecodeAux bytes.length bytes

/-- Model of `String::from_utf16` on a `u16` list (basic-multilingual-plane
code units only; surrogate pairs rejected — no theorem depends on this arm). -/
def utf16Decode : List Nat → Option (List Char)
  | [] => some []
  | u :: rest =>
    if 0xD800 ≤ u ∧ u < 0xE000 then none
    else (utf16Decode rest).map (fun l => Char.ofNat u :: l)

theorem utf8EncodeChar_ascii (c : Char) (hc : c.toNat < 0x80) :
    utf8EncodeChar c = [c.toNat] := by
  unfold utf8EncodeChar
  rw [if_pos hc]

theorem utf8DecodeAux_cons_ascii (fuel b : Nat) (rest : List Nat) (hb : b < 0x80) :
    utf8DecodeAux (fuel + 1) (b :: rest) =
      (utf8DecodeAux fuel rest).map (fun l => Char.ofNat b :: l) := by
  rw [utf8DecodeAux]
  rw [if_pos hb]

theorem utf8DecodeAux_ascii (l : List Char) (h : ∀ c ∈ l, c.toNat < 0x80)
    (fuel : Nat) (hf : l.length ≤ fuel) :
    utf8DecodeAux fuel (l.flatMap utf8EncodeChar) = some l := by
  induction l generalizing fuel with
  | nil => cases fuel <;> rfl
  | cons c cs ih =>
    have hc : c.toNat < 0x80 := h c (List.mem_cons_self c cs)
    have hlen : cs.length + 1 ≤ fuel := by simpa using hf
    obtain ⟨fuel2, rfl⟩ : ∃ k, fuel = k + 1 := ⟨fuel - 1, by omega⟩
    simp only [List.flatMap_cons]
    rw [utf8EncodeChar_ascii c hc]
    simp only [List.cons_append, List.nil_append]
    rw [utf8DecodeAux_cons_ascii fuel2 c.toNat _ hc]
    rw [ih (fun x hx => h x (List.mem_cons_of_mem c hx)) fuel2 (by omega)]
    simp [Char.ofNat_toNat]

theorem flatMap_encode_length_ascii (l : List Char) (h : ∀ c ∈ l, c.toNat < 0x80) :
    (l.flatMap utf8EncodeChar).length = l.length := by
  induction l with
  | nil => rfl
  | cons c cs ih =>
    simp only [List.flatMap_cons, List.length_append]
    rw [utf8EncodeChar_ascii c (h c (List.mem_cons_self c cs))]
    rw [ih (fun x hx => h x (List.mem_cons_of_mem c hx))]
    simp [Nat.add_comm]

theorem utf8Decode_encode_ascii (l : List Char) (h : ∀ c ∈ l, c.toNat < 0x80) :
    utf8Decode (l.flatMap utf8EncodeChar) = some l := by
  unfold utf8Decode
  apply utf8DecodeAux_ascii l h
  rw [flatMap_encode_length_ascii l h]

end Matrw

namespace Matrw

/-! ## Value sub-element payloads
(`parser/v7/types/subelements/array_numeric_data/array_data_value.rs`) -/

/-- Parsed (class-typed) payload `ArrayDataValueVar`. -/
inductive ArrayDataValueVar where
  | U8 (v : List Nat)
  | I8 (v : List Int)
  | U16 (v : List Nat)
  | I16 (v : List Int)
  | U32 (v : List Nat)
  | I32 (v : List Int)
  | U64 (v : List Nat)
  | I64 (v : List Int)
  | F32 (v : List Rat)
  | F64 (v : List Rat)
  | UTF8 (v : List Char)
  | UTF16 (v : List Char)
  | BOOL (v : List Bool)
deriving Repr, DecidableEq

/-- Raw (wire-typed) payload `ArrayDataValueVarRaw`; `UTF8` carries bytes and
`UTF16` carries 16-bit code units. -/
inductive ArrayDataValueVarRaw where
  | U8 (v : List Nat)
  | I8 (v : List Int)
  | U16 (v : List Nat)
  | I16 (v : List Int)
  | U32 (v : List Nat)
  | I32 (v : List Int)
  | U64 (v : List Nat)
  | I64 (v : List Int)
  | F32 (v : List Rat)
  | F64 (v : List Rat)
  | UTF8 (v : List Nat)
  | UTF16 (v : List Nat)
deriving Repr, DecidableEq

/-- `write_array_data` (`parse_write.rs`): lower the parsed payload to its
raw wire form.  Chars are UTF-8 encoded; in the `UTF16` arm the source takes
the UTF-8 **bytes** and widens each byte to a `u16`; bools become `0`/`1`
bytes. -/
def write_array_data : ArrayDataValueVar → ArrayDataValueVarRaw
  | .U8 v => .U8 v
  | .I8 v => .I8 v
  | .U16 v => .U16 v
  | .I16 v => .I16 v
  | .U32 v => .U32 v
  | .I32 v => .I32 v
  | .U64 v => .U64 v
  | .I64 v => .I64 v
  | .F32 v => .F32 v
  | .F64 v => .F64 v
  | .UTF8 v => .U8 (v.flatMap utf8EncodeChar)
  | .UTF16 v => .U16 (v.flatMap utf8EncodeChar)
  | .BOOL v => .U8 (v.map (fun b => if b then 1 else 0))

/-- On read, the raw payload variant is selected by the block's data-type tag
(the `pre_assert` dispatch of `ArrayDataValueVarRaw`): the same bytes written
as `u8` under a `MiUTF8` tag come back as the `UTF8` raw variant, and `u16`
units under `MiUTF16` as the `UTF16` raw variant.  Combinations that a
constructor-built block never produces desynchronise the byte stream and are
mapped to the binrw error. -/
def rawRetag (dt : MatFileDataTypes) (raw : ArrayDataValueVarRaw) :
    RRes ArrayDataValueVarRaw :=
  match dt, raw with
  | .MiUINT8, .U8 v => .ok (.U8 v)
  | .MiINT8, .I8 v => .ok (.I8 v)
  | .MiUINT16, .U16 v => .ok (.U16 v)
  | .MiINT16, .I16 v => .ok (.I16 v)
  | .MiUINT32, .U32 v => .ok (.U32 v)
  | .MiINT32, .I32 v => .ok (.I32 v)
  | .MiUINT64, .U64 v => .ok (.U64 v)
  | .MiINT64, .I64 v => .ok (.I64 v)
  | .MiSINGLE, .F32 v => .ok (.F32 v)
  | .MiDOUBLE, .F64 v => .ok (.F64 v)
  | .MiUTF8, .U8 v => .ok (.UTF8 v)
  | .MiUTF16, .U16 v => .ok (.UTF16 v)
  | _, _ => .err .BinrwError

/-- `parse_array_data` (`parse_write.rs`): widen the raw payload to the
declared array class.  Integer `as` casts wrap (`wrapU` / `wrapI`),
float-to-integer casts saturate, integer-to-float and float-width casts are
exact in the rational model.  A `(raw, class)` pair outside the table is the
binrw `NoVariantMatch` error; the `String::from_utf8/utf16` unwraps panic on
invalid data. -/
def parse_array_data (raw : ArrayDataValueVarRaw) (arrType : MatlabArrayTypes)
    (isLogical : Bool) : RRes ArrayDataValueVar :=
  match raw, arrType with
  -- u8 payload
  | .U8 v, .MxUINT8CLASS =>
    if isLogical then .ok (.BOOL (v.map (fun x => x ≠ 0)))
    else .ok (.U8 v)
  | .U8 v, .MxINT8CLASS => .ok (.I8 (v.map (fun x => wrapI 8 (x : Int))))
  | .U8 v, .MxUINT16CLASS => .ok (.U16 (v.map (fun x => wrapU 16 (x : Int))))
  | .U8 v, .MxINT16CLASS => .ok (.I16 (v.map (fun x => wrapI 16 (x : Int))))
  | .U8 v, .MxUINT32CLASS => .ok (.U32 (v.map (fun x => wrapU 32 (x : Int))))
  | .U8 v, .MxINT32CLASS => .ok (.I32 (v.map (fun x => wrapI 32 (x : Int))))
  | .U8 v, .MxUINT64CLASS => .ok (.U64 (v.map (fun x => wrapU 64 (x : Int))))
  | .U8 v, .MxINT64CLASS => .ok (.I64 (v.map (fun x => wrapI 64 (x : Int))))
  | .U8 v, .MxSINGLECLASS => .ok (.F32 (v.map (fun x => (x : Rat))))
  | .U8 v, .MxDOUBLECLASS => .ok (.F64 (v.map (fun x => (x : Rat))))
  -- i8 payload
  | .I8 v, .MxUINT8CLASS => .ok (.U8 (v.map (wrapU 8)))
  | .I8 v, .MxINT8CLASS => .ok (.I8 v)
  | .I8 v, .MxUINT16CLASS => .ok (.U16 (v.map (wrapU 16)))
  | .I8 v, .MxINT16CLASS => .ok (.I16 (v.map (wrapI 16)))
  | .I8 v, .MxUINT32CLASS => .ok (.U32 (v.map (wrapU 32)))
  | .I8 v, .MxINT32CLASS => .ok (.I32 (v.map (wrapI 32)))
  | .I8 v, .MxUINT64CLASS => .ok (.U64 (v.map (wrapU 64)))
  | .I8 v, .MxINT64CLASS => .ok (.I64 (v.map (wrapI 64)))
  | .I8 v, .MxSINGLECLASS => .ok (.F32 (v.map (fun x => (x : Rat))))
  | .I8 v, .MxDOUBLECLASS => .ok (.F64 (v.map (fun x => (x : Rat))))
  -- u16 payload
  | .U16 v, .MxUINT8CLASS => .ok (.U8 (v.map (fun x => wrapU 8 (x : Int))))
  | .U16 v, .MxINT8CLASS => .ok (.I8 (v.map (fun x => wrapI 8 (x : Int))))
  | .U16 v, .MxUINT16CLASS => .ok (.U16 v)
  | .U16 v, .MxINT16CLASS => .ok (.I16 (v.map (fun x => wrapI 16 (x : Int))))
  | .U16 v, .MxUINT32CLASS => .ok (.U32 (v.map (fun x => wrapU 32 (x : Int))))
  | .U16 v, .MxINT32CLASS => .ok (.I32 (v.map (fun x => wrapI 32 (x : Int))))
  | .U16 v, .MxUINT64CLASS => .ok (.U64 (v.map (fun x => wrapU 64 (x : Int))))
  | .U16 v, .MxINT64CLASS => .ok (.I64 (v.map (fun x => wrapI 64 (x : Int))))
  | .U16 v, .MxSINGLECLASS => .ok (.F32 (v.map (fun x => (x : Rat))))
  | .U16 v, .MxDOUBLECLASS => .ok (.F64 (v.map (fun x => (x : Rat))))
  -- i16 payload
  | .I16 v, .MxUINT8CLASS => .ok (.U8 (v.map (wrapU 8)))
  | .I16 v, .MxINT8CLASS => .ok (.I8 (v.map (wrapI 8)))
  | .I16 v, .MxUINT16CLASS => .ok (.U16 (v.map (wrapU 16)))
  | .I16 v, .MxINT16CLASS => .ok (.I16 v)
  | .I16 v, .MxUINT32CLASS => .ok (.U32 (v.map (wrapU 32)))
  | .I16 v, .MxINT32CLASS => .ok (.I32 (v.map (wrapI 32)))
  | .I16 v, .MxUINT64CLASS => .ok (.U64 (v.map (wrapU 64)))
  | .I16 v, .MxINT64CLASS => .ok (.I64 (v.map (wrapI 64)))
  | .I16 v, .MxSINGLECLASS => .ok (.F32 (v.map (fun x => (x : Rat))))
  | .I16 v, .MxDOUBLECLASS => .ok (.F64 (v.map (fun x => (x : Rat))))
  -- u32 payload
  | .U32 v, .MxUINT8CLASS => .ok (.U8 (v.map (fun x => wrapU 8 (x : Int))))
  | .U32 v, .MxINT8CLASS => .ok (.I8 (v.map (fun x => wrapI 8 (x : Int))))
  | .U32 v, .MxUINT16CLASS => .ok (.U16 (v.map (fun x => wrapU 16 (x : Int))))
  | .U32 v, .MxINT16CLASS => .ok (.I16 (v.map (fun x => wrapI 16 (x : Int))))
  | .U32 v, .MxUINT32CLASS => .ok (.U32 v)
  | .U32 v, .MxINT32CLASS => .ok (.I32 (v.map (fun x => wrapI 32 (x : Int))))
  | .U32 v, .MxUINT64CLASS => .ok (.U64 (v.map (fun x => wrapU 64 (x : Int))))
  | .U32 v, .MxINT64CLASS => .ok (.I64 (v.map (fun x => wrapI 64 (x : Int))))
  | .U32 v, .MxSINGLECLASS => .ok (.F32 (v.map (fun x => (x : Rat))))
  | .U32 v, .MxDOUBLECLASS => .ok (.F64 (v.map (fun x => (x : Rat))))
  -- i32 payload
  | .I32 v, .MxUINT8CLASS => .ok (.U8 (v.map (wrapU 8)))
  | .I32 v, .MxINT8CLASS => .ok (.I8 (v.map (wrapI 8)))
  | .I32 v, .MxUINT16CLASS => .ok (.U16 (v.map (wrapU 16)))
  | .I32 v, .MxINT16CLASS => .ok (.I16 (v.map (wrapI 16)))
  | .I32 v, .MxUINT32CLASS => .ok (.U32 (v.map (wrapU 32)))
  | .I32 v, .MxINT32CLASS => .ok (.I32 v)
  | .I32 v, .MxUINT64CLASS => .ok (.U64 (v.map (wrapU 64)))
  | .I32 v, .MxINT64CLASS => .ok (.I64 (v.map (wrapI 64)))
  | .I32 v, .MxSINGLECLASS => .ok (.F32 (v.map (fun x => (x : Rat))))
  | .I32 v, .MxDOUBLECLASS => .ok (.F64 (v.map (fun x => (x : Rat))))
  -- u64 payload
  | .U64 v, .MxUINT8CLASS => .ok (.U8 (v.map (fun x => wrapU 8 (x : Int))))
  | .U64 v, .MxINT8CLASS => .ok (.I8 (v.map (fun x => wrapI 8 (x : Int))))
  | .U64 v, .MxUINT16CLASS => .ok (.U16 (v.map (fun x => wrapU 16 (x : Int))))
  | .U64 v, .MxINT16CLASS => .ok (.I16 (v.map (fun x => wrapI 16 (x : Int))))
  | .U64 v, .MxUINT32CLASS => .ok (.U32 (v.map (fun x => wrapU 32 (x : Int))))
  | .U64 v, .MxINT32CLASS => .ok (.I32 (v.map (fun x => wrapI 32 (x : Int))))
  | .U64 v, .MxUINT64CLASS => .ok (.U64 v)
  | .U64 v, .MxINT64CLASS => .ok (.I64 (v.map (fun x => wrapI 64 (x : Int))))
  | .U64 v, .MxSINGLECLASS => .ok (.F32 (v.map (fun x => (x : Rat))))
  | .U64 v, .MxDOUBLECLASS => .ok (.F64 (v.map (fun x => (x : Rat))))
  -- i64 payload
  | .I64 v, .MxUINT8CLASS => .ok (.U8 (v.map (wrapU 8)))
  | .I64 v, .MxINT8CLASS => .ok (.I8 (v.map (wrapI 8)))
  | .I64 v, .MxUINT16CLASS => .ok (.U16 (v.map (wrapU 16)))
  | .I64 v, .MxINT16CLASS => .ok (.I16 (v.map (wrapI 16)))
  | .I64 v, .MxUINT32CLASS => .ok (.U32 (v.map (wrapU 32)))
  | .I64 v, .MxINT32CLASS => .ok (.I32 (v.map (wrapI 32)))
  | .I64 v, .MxUINT64CLASS => .ok (.U64 (v.map (wrapU 64)))
  | .I64 v, .MxINT64CLASS => .ok (.I64 v)
  | .I64 v, .MxSINGLECLASS => .ok (.F32 (v.map (fun x => (x : Rat))))
  | .I64 v, .MxDOUBLECLASS => .ok (.F64 (v.map (fun x => (x : Rat))))
  -- f32 payload
  | .F32 v, .MxUINT8CLASS => .ok (.U8 (v.map (fun x => ratAsNat x 255)))
  | .F32 v, .MxINT8CLASS => .ok (.I8 (v.map (fun x => ratAsInt x (-128) 127)))
  | .F32 v, .MxUINT16CLASS => .ok (.U16 (v.map (fun x => ratAsNat x 65535)))
  | .F32 v, .MxINT16CLASS => .ok (.I16 (v.map (fun x => ratAsInt x (-32768) 32767)))
  | .F32 v, .MxUINT32CLASS => .ok (.U32 (v.map (fun x => ratAsNat x 4294967295)))
  | .F32 v, .MxINT32CLASS =>
    .ok (.I32 (v.map (fun x => ratAsInt x (-2147483648) 2147483647)))
  | .F32 v, .MxUINT64CLASS => .ok (.U64 (v.map (fun x => ratAsNat x 18446744073709551615)))
  | .F32 v, .MxINT64CLASS =>
    .ok (.I64 (v.map (fun x => ratAsInt x (-9223372036854775808) 9223372036854775807)))
  | .F32 v, .MxSINGLECLASS => .ok (.F32 v)
  | .F32 v, .MxDOUBLECLASS => .ok (.F64 v)
  -- f64 payload
  | .F64 v, .MxUINT8CLASS => .ok (.U8 (v.map (fun x => ratAsNat x 255)))
  | .F64 v, .MxINT8CLASS => .ok (.I8 (v.map (fun x => ratAsInt x (-128) 127)))
  | .F64 v, .MxUINT16CLASS => .ok (.U16 (v.map (fun x => ratAsNat x 65535)))
  | .F64 v, .MxINT16CLASS => .ok (.I16 (v.map (fun x => ratAsInt x (-32768) 32767)))
  | .F64 v, .MxUINT32CLASS => .ok (.U32 (v.map (fun x => ratAsNat x 4294967295)))
  | .F64 v, .MxINT32CLASS =>
    .ok (.I32 (v.map (fun x => ratAsInt x (-2147483648) 2147483647)))
  | .F64 v, .MxUINT64CLASS => .ok (.U64 (v.map (fun x => ratAsNat x 18446744073709551615)))
  | .F64 v, .MxINT64CLASS =>
    .ok (.I64 (v.map (fun x => ratAsInt x (-9223372036854775808) 9223372036854775807)))
  | .F64 v, .MxSINGLECLASS => .ok (.F32 v)
  | .F64 v, .MxDOUBLECLASS => .ok (.F64 v)
  -- utf8 payload
  | .UTF8 v, .MxCHARCLASS =>
    match utf8Decode v with
    | some chars => .ok (.UTF8 chars)
    | none => .panicked
  -- utf16 payload
  | .UTF16 v, .MxCHARCLASS =>
    match utf16Decode v with
    | some chars => .ok (.UTF16 chars)
    | none => .panicked
  -- everything else: binrw NoVariantMatch
  | _, _ => .err .BinrwError

/-- `parse_array_data_sparse` (`parse_write.rs`): sparse payloads are only
`u8` (logical promoted to bool) or `f64`; anything else is `panic!()`. -/
def parse_array_data_sparse (raw : ArrayDataValueVarRaw) (isLogical : Bool) :
    RRes ArrayDataValueVar :=
  match raw with
  | .U8 v =>
    if isLogical then .ok (.BOOL (v.map (fun x => x ≠ 0)))
    else .ok (.U8 v)
  | .F64 v => .ok (.F64 v)
  | _ => .panicked

end Matrw

namespace Matrw

/-! ## Value sub-element framing (`array_data.rs`, `array_data_normal.rs`,
`array_data_small.rs`) -/

/-- `ArrayData`: a value block in normal (8-byte header) or small (4-byte
header) framing. -/
inductive ArrayData where
  | DataNormal (data_type : MatFileDataTypes) (data_size : Nat)
      (value : ArrayDataValueVar)
  | DataSmall (data_type : MatFileDataTypes) (data_size : Nat)
      (value : ArrayDataValueVar)
deriving Repr, DecidableEq

/-- `ArrayData::array_data_value_var` -/
def ArrayData.array_data_value_var : ArrayData → ArrayDataValueVar
  | .DataNormal _ _ v => v
  | .DataSmall _ _ v => v

/-- Wire data-type tag of a value block. -/
def ArrayData.data_type : ArrayData → MatFileDataTypes
  | .DataNormal dt _ _ => dt
  | .DataSmall dt _ _ => dt

/-- Recorded byte count of a value block. -/
def ArrayData.data_size : ArrayData → Nat
  | .DataNormal _ ds _ => ds
  | .DataSmall _ ds _ => ds

/-- `ArrayData::size`: encoded size of the block including header and
padding. -/
def ArrayData.size : ArrayData → Nat
  | .DataNormal _ ds _ => 8 + ds + (if ds % 8 = 0 then 0 else 8 - ds % 8)
  | .DataSmall _ ds _ =>
    4 + ds + (if ds = 0 then 4 else if ds % 4 = 0 then 0 else 4 - ds % 4)

/-- Choose framing by the element-count threshold of the `ArrayDataNew`
macro. -/
def mkArrayData (dt : MatFileDataTypes) (ds : Nat) (v : ArrayDataValueVar)
    (isNormal : Bool) : ArrayData :=
  if isNormal then .DataNormal dt ds v else .DataSmall dt ds v

/-- `ArrayDataNew<u8>` -/
def ArrayData.newU8 (v : List Nat) : ArrayData :=
  mkArrayData .MiUINT8 v.length (.U8 v) (v.length > 4)

/-- `ArrayDataNew<i8>` -/
def ArrayData.newI8 (v : List Int) : ArrayData :=
  mkArrayData .MiINT8 v.length (.I8 v) (v.length > 4)

/-- `ArrayDataNew<u16>` -/
def ArrayData.newU16 (v : List Nat) : ArrayData :=
  mkArrayData .MiUINT16 (2 * v.length) (.U16 v) (v.length > 2)

/-- `ArrayDataNew<i16>` -/
def ArrayData.newI16 (v : List Int) : ArrayData :=
  mkArrayData .MiINT16 (2 * v.length) (.I16 v) (v.length > 2)

/-- `ArrayDataNew<u32>` -/
def ArrayData.newU32 (v : List Nat) : ArrayData :=
  mkArrayData .MiUINT32 (4 * v.length) (.U32 v) (v.length > 1)

/-- `ArrayDataNew<i32>` -/
def ArrayData.newI32 (v : List Int) : ArrayData :=
  mkArrayData .MiINT32 (4 * v.length) (.I32 v) (v.length > 1)

/-- `ArrayDataNew<u64>` -/
def ArrayData.newU64 (v : List Nat) : ArrayData :=
  mkArrayData .MiUINT64 (8 * v.length) (.U64 v) (v.length > 0)

/-- `ArrayDataNew<i64>` -/
def ArrayData.newI64 (v : List Int) : ArrayData :=
  mkArrayData .MiINT64 (8 * v.length) (.I64 v) (v.length > 0)

/-- `ArrayDataNew<f32>` -/
def ArrayData.newF32 (v : List Rat) : ArrayData :=
  mkArrayData .MiSINGLE (4 * v.length) (.F32 v) (v.length > 1)

/-- `ArrayDataNew<bool>` (`size_of::<bool>() = 1`, wire type `MiUINT8`). -/
def ArrayData.newBool (v : List Bool) : ArrayData :=
  mkArrayData .MiUINT8 v.length (.BOOL v) (v.length > 4)

/-- `ArrayDataNew<char>`: non-ASCII scalars are filtered out before
encoding; wire type `MiUTF8`, one byte per remaining scalar. -/
def ArrayData.newChar (v : List Char) : ArrayData :=
  let v2 := v.filter (fun c => c.toNat < 0x80)
  mkArrayData .MiUTF8 v2.length (.UTF8 v2) (v2.length > 4)

/-- The six `can_be_*` flags of the `f64` downcast scan. -/
structure CanFlags where
  cu8 : Bool
  ci8 : Bool
  cu16 : Bool
  ci16 : Bool
  cu32 : Bool
  ci32 : Bool
deriving Repr, DecidableEq

/-- One step of the downcast scan: an element with a fractional part clears
every flag; otherwise each flag is conjoined with its range test.  (The
source's early `break`s only skip updates that could no longer change any
flag, so the plain fold computes the same final flags.) -/
def canScanStep (f : CanFlags) (e : Rat) : CanFlags :=
  if ratFract e ≠ 0 then ⟨false, false, false, false, false, false⟩
  else
    ⟨f.cu8 && !(e < 0 || e > 255),
     f.ci8 && !(e < -128 || e > 127),
     f.cu16 && !(e < 0 || e > 65535),
     f.ci16 && !(e < -32768 || e > 32767),
     f.cu32 && !(e < 0 || e > 4294967295),
     f.ci32 && !(e < -2147483648 || e > 2147483647)⟩

/-- Final flags of the scan over the whole buffer. -/
def canFlagsOf (value : List Rat) : CanFlags :=
  value.foldl canScanStep ⟨true, true, true, true, true, true⟩

/-- `ArrayDataNew<f64>`: the write-time downcast.  In priority order
`u8, i8, u16, i16, u32, i32` the first type whose flag survived re-encodes
the buffer with exact integer casts; otherwise the buffer is emitted as
`f64` (`nelem > 0` forces normal framing there). -/
def ArrayData.newF64 (value : List Rat) : ArrayData :=
  let f := canFlagsOf value
  let n := value.length
  if f.cu8 then
    mkArrayData .MiUINT8 n (.U8 (value.map (fun x => ratAsNat x 255))) (n > 4)
  else if f.ci8 then
    mkArrayData .MiINT8 n (.I8 (value.map (fun x => ratAsInt x (-128) 127))) (n > 4)
  else if f.cu16 then
    mkArrayData .MiUINT16 (2 * n) (.U16 (value.map (fun x => ratAsNat x 65535))) (n > 2)
  else if f.ci16 then
    mkArrayData .MiINT16 (2 * n)
      (.I16 (value.map (fun x => ratAsInt x (-32768) 32767))) (n > 2)
  else if f.cu32 then
    mkArrayData .MiUINT32 (4 * n)
      (.U32 (value.map (fun x => ratAsNat x 4294967295))) (n > 1)
  else if f.ci32 then
    mkArrayData .MiINT32 (4 * n)
      (.I32 (value.map (fun x => ratAsInt x (-2147483648) 2147483647))) (n > 1)
  else
    mkArrayData .MiDOUBLE (8 * n) (.F64 value) (n > 0)

/-- `ArrayDataSparse` (same two framings, sparse parse path). -/
inductive ArrayDataSparse where
  | DataNormal (data_type : MatFileDataTypes) (data_size : Nat)
      (value : ArrayDataValueVar)
  | DataSmall (data_type : MatFileDataTypes) (data_size : Nat)
      (value : ArrayDataValueVar)
deriving Repr, DecidableEq

/-- `ArrayDataSparse::array_data_value_var` -/
def ArrayDataSparse.array_data_value_var : ArrayDataSparse → ArrayDataValueVar
  | .DataNormal _ _ v => v
  | .DataSmall _ _ v => v

/-- `ArrayDataSparse::size` -/
def ArrayDataSparse.size : ArrayDataSparse → Nat
  | .DataNormal _ ds _ => 8 + ds + (if ds % 8 = 0 then 0 else 8 - ds % 8)
  | .DataSmall _ ds _ =>
    4 + ds + (if ds = 0 then 4 else if ds % 4 = 0 then 0 else 4 - ds % 4)

/-- `ArrayDataSparseNew<f64>`: always normal framing. -/
def ArrayDataSparse.newF64 (v : List Rat) : ArrayDataSparse :=
  .DataNormal .MiDOUBLE (8 * v.length) (.F64 v)

/-- `ArrayDataSparseNew<bool>` -/
def ArrayDataSparse.newBool (v : List Bool) : ArrayDataSparse :=
  if v.length > 4 then .DataNormal .MiUINT8 v.length (.BOOL v)
  else .DataSmall .MiUINT8 v.length (.BOOL v)

/-! ## Dimension / name / field-name sub-elements (`array_dimensions.rs`,
`array_name.rs`, `array_fieldname.rs`) and the props block
(`array_flags.rs`) -/

/-- `ArrayDimensions` (also reused for the sparse `ir`/`jc` vectors). -/
inductive ArrayDimensions where
  | DataNormal (data_size : Nat) (dimensions : List Nat)
  | DataSmall (data_size : Nat) (dimensions : List Nat)
deriving Repr, DecidableEq

/-- `ArrayDimensions::new`: small framing for at most one dimension. -/
def ArrayDimensions.new (dim : List Nat) : ArrayDimensions :=
  if dim.length ≤ 1 then .DataSmall (4 * dim.length) dim
  else .DataNormal (4 * dim.length) dim

/-- `ArrayDimensions::dim` -/
def ArrayDimensions.dim : ArrayDimensions → List Nat
  | .DataNormal _ d => d
  | .DataSmall _ d => d

/-- `ArrayDimensions::size` (the normal-framing padding is written
`data_size % 8` in the source). -/
def ArrayDimensions.size : ArrayDimensions → Nat
  | .DataNormal ds _ => 8 + ds + ds % 8
  | .DataSmall ds _ => 4 + ds

/-- `ArrayDimensions::is_empty` -/
def ArrayDimensions.is_empty (d : ArrayDimensions) : Bool := d.dim.prod == 0

/-- UTF-8 bytes of a string (`String::into_bytes`). -/
def stringToBytes (s : String) : List Nat := s.data.flatMap utf8EncodeChar

/-- `String::from_utf8(..).unwrap()` (panics on invalid UTF-8). -/
def bytesToString (bytes : List Nat) : PRes String :=
  match utf8Decode bytes with
  | some l => .ok (String.mk l)
  | none => .panicked

/-- `ArrayName`: empty / small / normal framing of a variable name. -/
inductive ArrayName where
  | Empty
  | Normal (data_size : Nat) (chars : List Nat)
  | Small (data_size : Nat) (chars : List Nat)
deriving Repr, DecidableEq

/-- `ArrayName::new` (`nelem` is the byte length of the name). -/
def ArrayName.new (name : String) : ArrayName :=
  let chars := stringToBytes name
  if chars.length = 0 then .Empty
  else if chars.length < 5 then .Small chars.length chars
  else .Normal chars.length chars

/-- `ArrayName::name` -/
def ArrayName.name : ArrayName → PRes String
  | .Empty => .ok ""
  | .Normal _ chars => bytesToString chars
  | .Small _ chars => bytesToString chars

/-- `ArrayName::size` -/
def ArrayName.size : ArrayName → Nat
  | .Empty => 8
  | .Normal ds _ => 8 + ds + (if ds % 8 = 0 then 0 else 8 - ds % 8)
  | .Small ds _ => 4 + ds + (if ds % 4 = 0 then 0 else 4 - ds % 4)

/-- `ArrayFieldNames` (field-name table with common stride `length`). -/
structure ArrayFieldNames where
  length : Nat
  data_size : Nat
  field_number : Nat
  field_names : List (List Nat)
deriving Repr, DecidableEq

/-- `ArrayFieldNames::new`: stride is the longest name plus terminator
(capped at 64, with the MATLAB minimums for one or two fields); each name is
ASCII-filtered, truncated to 63 bytes and zero-padded to the stride. -/
def ArrayFieldNames.new (field_names : List String) : ArrayFieldNames :=
  if field_names ≠ [] then
    let maxLen0 := (field_names.map (fun x => (stringToBytes x).length)).max?.getD 0 + 1
    let maxLen1 := if maxLen0 > 63 then 64 else maxLen0
    let maxLen2 := if field_names.length = 1 ∧ maxLen1 < 5 then 5 else maxLen1
    let maxLen := if field_names.length = 2 ∧ maxLen2 < 3 then 3 else maxLen2
    let conv := field_names.map (fun fn =>
      let small := ((fn.data.filter (fun c => c.toNat < 0x80)).take 63).flatMap
        utf8EncodeChar
      small ++ List.replicate (maxLen - small.length) 0)
    { length := maxLen
      data_size := maxLen * field_names.length
      field_number := field_names.length
      field_names := conv }
  else
    { length := 1, data_size := 0, field_number := 0, field_names := [] }

/-- Rust `trim_matches(char::from(0))` on a decoded name row. -/
def trimNullChars (l : List Char) : List Char :=
  ((l.dropWhile (fun c => c = Char.ofNat 0)).reverse.dropWhile
    (fun c => c = Char.ofNat 0)).reverse

/-- `ArrayFieldNames::fieldnames` -/
def ArrayFieldNames.fieldnames (t : ArrayFieldNames) : PRes (List String) :=
  t.field_names.mapM (fun buf => do
    match utf8Decode buf with
    | some l => pure (String.mk (trimNullChars l))
    | none => PRes.panicked)

/-- `ArrayFieldNames::size` -/
def ArrayFieldNames.size (t : ArrayFieldNames) : Nat :=
  16 + t.data_size + (if t.data_size % 8 = 0 then 0 else 8 - t.data_size % 8)

/-- `ArrayProps` (flags block): class tag, flag bits and the sparse non-zero
count. -/
structure ArrayProps where
  array_class : MatlabArrayTypes
  is_complex : Bool
  is_global : Bool
  is_logical : Bool
  sparse_num : Nat
deriving Repr, DecidableEq

/-- `ArrayProps::size` -/
def ArrayProps.size (_p : ArrayProps) : Nat := 16

end Matrw

namespace Matrw

/-! ## Numeric and sparse wire records (`parser/v7/types/numeric_array.rs`,
`parser/v7/types/sparse_array.rs`) -/

/-- `NumericArray7` (the `data_type = MiMATRIX` tag and the computed
`_num_bytes` field are implicit). -/
structure NumericArray7 where
  props : ArrayProps
  dimensions : ArrayDimensions
  name : ArrayName
  value : ArrayData
  value_cmp : Option ArrayData
deriving Repr, DecidableEq

/-- `NumericArray7::size_data`: the byte count written into the
matrix-element header.  When an imaginary block is present the source adds
`self.value.size()` a second time instead of `value_cmp`'s size. -/
def NumericArray7.size_data (x : NumericArray7) : Nat :=
  x.props.size + x.dimensions.size + x.name.size + x.value.size +
    (if x.value_cmp.isSome then x.value.size else 0)

/-- The actual encoded payload length of a `NumericArray7` record (sum of the
encoded sub-blocks that are written). -/
def NumericArray7.payloadSize (x : NumericArray7) : Nat :=
  x.props.size + x.dimensions.size + x.name.size + x.value.size +
    (match x.value_cmp with
     | some c => c.size
     | none => 0)

/-- Common body of the `NumericArrayNew` constructors: empty name, flags from
the imaginary part's presence. -/
def NumericArray7.mk7 (klass : MatlabArrayTypes) (isLogical : Bool)
    (dim : List Nat) (value : ArrayData) (value_cmp : Option ArrayData) :
    NumericArray7 :=
  { props := ⟨klass, value_cmp.isSome, false, isLogical, 0⟩
    dimensions := ArrayDimensions.new dim
    name := ArrayName.new ""
    value := value
    value_cmp := value_cmp }

/-- `NumericArrayNew<u8>` -/
def NumericArray7.newU8 (dim : List Nat) (v : List Nat) (c : Option (List Nat)) :
    NumericArray7 :=
  NumericArray7.mk7 .MxUINT8CLASS false dim (ArrayData.newU8 v) (c.map ArrayData.newU8)

/-- `NumericArrayNew<i8>` -/
def NumericArray7.newI8 (dim : List Nat) (v : List Int) (c : Option (List Int)) :
    NumericArray7 :=
  NumericArray7.mk7 .MxINT8CLASS false dim (ArrayData.newI8 v) (c.map ArrayData.newI8)

/-- `NumericArrayNew<u16>` -/
def NumericArray7.newU16 (dim : List Nat) (v : List Nat) (c : Option (List Nat)) :
    NumericArray7 :=
  NumericArray7.mk7 .MxUINT16CLASS false dim (ArrayData.newU16 v) (c.map ArrayData.newU16)

/-- `NumericArrayNew<i16>` -/
def NumericArray7.newI16 (dim : List Nat) (v : List Int) (c : Option (List Int)) :
    NumericArray7 :=
  NumericArray7.mk7 .MxINT16CLASS false dim (ArrayData.newI16 v) (c.map ArrayData.newI16)

/-- `NumericArrayNew<u32>` -/
def NumericArray7.newU32 (dim : List Nat) (v : List Nat) (c : Option (List Nat)) :
    NumericArray7 :=
  NumericArray7.mk7 .MxUINT32CLASS false dim (ArrayData.newU32 v) (c.map ArrayData.newU32)

/-- `NumericArrayNew<i32>` -/
def NumericArray7.newI32 (dim : List Nat) (v : List Int) (c : Option (List Int)) :
    NumericArray7 :=
  NumericArray7.mk7 .MxINT32CLASS false dim (ArrayData.newI32 v) (c.map ArrayData.newI32)

/-- `NumericArrayNew<u64>` -/
def NumericArray7.newU64 (dim : List Nat) (v : List Nat) (c : Option (List Nat)) :
    NumericArray7 :=
  NumericArray7.mk7 .MxUINT64CLASS false dim (ArrayData.newU64 v) (c.map ArrayData.newU64)

/-- `NumericArrayNew<i64>` -/
def NumericArray7.newI64 (dim : List Nat) (v : List Int) (c : Option (List Int)) :
    NumericArray7 :=
  NumericArray7.mk7 .MxINT64CLASS false dim (ArrayData.newI64 v) (c.map ArrayData.newI64)

/-- `NumericArrayNew<f32>` -/
def NumericArray7.newF32 (dim : List Nat) (v : List Rat) (c : Option (List Rat)) :
    NumericArray7 :=
  NumericArray7.mk7 .MxSINGLECLASS false dim (ArrayData.newF32 v) (c.map ArrayData.newF32)

/-- `NumericArrayNew<f64>` (value blocks go through the downcast; the class
tag stays `MxDOUBLECLASS`). -/
def NumericArray7.newF64 (dim : List Nat) (v : List Rat) (c : Option (List Rat)) :
    NumericArray7 :=
  NumericArray7.mk7 .MxDOUBLECLASS false dim (ArrayData.newF64 v) (c.map ArrayData.newF64)

/-- `NumericArrayNew<char>` -/
def NumericArray7.newChar (dim : List Nat) (v : List Char) (c : Option (List Char)) :
    NumericArray7 :=
  NumericArray7.mk7 .MxCHARCLASS false dim (ArrayData.newChar v) (c.map ArrayData.newChar)

/-- `NumericArrayNew<bool>` (class `MxUINT8CLASS` with the logical flag). -/
def NumericArray7.newBool (dim : List Nat) (v : List Bool) (c : Option (List Bool)) :
    NumericArray7 :=
  NumericArray7.mk7 .MxUINT8CLASS true dim (ArrayData.newBool v) (c.map ArrayData.newBool)

/-- `impl From<NumericArray> for NumericArray7`: dimensions are cast to
`u32`; an **empty** buffer short-circuits to the `u8` constructor regardless
of the declared kind; otherwise the constructor of the declared kind runs,
panicking (`unwrap` / `unimplemented!`) for a `UTF16` buffer, for an
imaginary part of a different kind, and for complex char/bool arrays. -/
def toNumericArray7 (a : NumericArray) : PRes NumericArray7 :=
  let dim := a.dim.map (fun x => x % 2 ^ 32)
  if a.value.is_empty then .ok (NumericArray7.newU8 dim [] none)
  else
    match a.value, a.value_cmp with
    | .U8 v, some (.U8 w) => .ok (NumericArray7.newU8 dim v (some w))
    | .I8 v, some (.I8 w) => .ok (NumericArray7.newI8 dim v (some w))
    | .U16 v, some (.U16 w) => .ok (NumericArray7.newU16 dim v (some w))
    | .I16 v, some (.I16 w) => .ok (NumericArray7.newI16 dim v (some w))
    | .U32 v, some (.U32 w) => .ok (NumericArray7.newU32 dim v (some w))
    | .I32 v, some (.I32 w) => .ok (NumericArray7.newI32 dim v (some w))
    | .U64 v, some (.U64 w) => .ok (NumericArray7.newU64 dim v (some w))
    | .I64 v, some (.I64 w) => .ok (NumericArray7.newI64 dim v (some w))
    | .F32 v, some (.F32 w) => .ok (NumericArray7.newF32 dim v (some w))
    | .F64 v, some (.F64 w) => .ok (NumericArray7.newF64 dim v (some w))
    | .U8 v, none => .ok (NumericArray7.newU8 dim v none)
    | .I8 v, none => .ok (NumericArray7.newI8 dim v none)
    | .U16 v, none => .ok (NumericArray7.newU16 dim v none)
    | .I16 v, none => .ok (NumericArray7.newI16 dim v none)
    | .U32 v, none => .ok (NumericArray7.newU32 dim v none)
    | .I32 v, none => .ok (NumericArray7.newI32 dim v none)
    | .U64 v, none => .ok (NumericArray7.newU64 dim v none)
    | .I64 v, none => .ok (NumericArray7.newI64 dim v none)
    | .F32 v, none => .ok (NumericArray7.newF32 dim v none)
    | .F64 v, none => .ok (NumericArray7.newF64 dim v none)
    | .UTF8 v, none => .ok (NumericArray7.newChar dim v none)
    | .UTF16 _, none => .panicked
    | .BOOL v, none => .ok (NumericArray7.newBool dim v none)
    | _, _ => .panicked

/-- `ArrayDataValueVar` to `MatlabType` (the match inside
`impl From<NumericArray7> for NumericArray`). -/
def advarToMatlabType : ArrayDataValueVar → MatlabType
  | .U8 v => .U8 v
  | .I8 v => .I8 v
  | .U16 v => .U16 v
  | .I16 v => .I16 v
  | .U32 v => .U32 v
  | .I32 v => .I32 v
  | .U64 v => .U64 v
  | .I64 v => .I64 v
  | .F32 v => .F32 v
  | .F64 v => .F64 v
  | .UTF8 v => .UTF8 v
  | .UTF16 v => .UTF16 v
  | .BOOL v => .BOOL v

/-- `impl From<NumericArray7> for NumericArray`
(`Self::new(dim, value, value_cmp).expect(..)`). -/
def fromNumericArray7 (x : NumericArray7) : PRes NumericArray := do
  let _name ← x.name.name
  let dim := x.dimensions.dim
  let value := advarToMatlabType x.value.array_data_value_var
  let value_cmp := x.value_cmp.map (fun c => advarToMatlabType c.array_data_value_var)
  (NumericArray.new dim value value_cmp).unwrapR

/-- `SparseArray7`. -/
structure SparseArray7 where
  props : ArrayProps
  dimensions : ArrayDimensions
  name : ArrayName
  ir : ArrayDimensions
  jc : ArrayDimensions
  value : ArrayDataSparse
  value_cmp : Option ArrayDataSparse
deriving Repr, DecidableEq

/-- `SparseArray7::size_data` (with the same double-count of the real value
block for complex arrays, and 4 extra bytes for an empty dimension
vector). -/
def SparseArray7.size_data (x : SparseArray7) : Nat :=
  x.props.size + x.dimensions.size + x.ir.size + x.jc.size + x.name.size +
    x.value.size + (if x.value_cmp.isSome then x.value.size else 0) +
    (if x.dimensions.is_empty then 4 else 0)

/-- `SparseArrayNew<f64>` -/
def SparseArray7.newF64 (name : String) (dim ir jc : List Nat) (v : List Rat)
    (c : Option (List Rat)) : SparseArray7 :=
  { props := ⟨.MxSPARSECLASS, c.isSome, false, false,
      if v.length ≠ 0 then v.length else 1⟩
    dimensions := ArrayDimensions.new dim
    name := ArrayName.new name
    ir := ArrayDimensions.new ir
    jc := ArrayDimensions.new jc
    value := ArrayDataSparse.newF64 v
    value_cmp := c.map ArrayDataSparse.newF64 }

/-- `SparseArrayNew<bool>` (logical flag set). -/
def SparseArray7.newBool (name : String) (dim ir jc : List Nat) (v : List Bool)
    (c : Option (List Bool)) : SparseArray7 :=
  { props := ⟨.MxSPARSECLASS, c.isSome, false, true,
      if v.length ≠ 0 then v.length else 1⟩
    dimensions := ArrayDimensions.new dim
    name := ArrayName.new name
    ir := ArrayDimensions.new ir
    jc := ArrayDimensions.new jc
    value := ArrayDataSparse.newBool v
    value_cmp := c.map ArrayDataSparse.newBool }

/-- `impl From<SparseArray> for SparseArray7`: only `(F64, complex)`,
`(F64, real)` and `(BOOL, real)` are implemented; everything else panics. -/
def toSparseArray7 (s : SparseArray) : PRes SparseArray7 :=
  let dim := s.dim.map (fun x => x % 2 ^ 32)
  let ir := s.ir.map (fun x => x % 2 ^ 32)
  let jc := s.jc.map (fun x => x % 2 ^ 32)
  match s.value, s.value_cmp with
  | .F64 v, some (.F64 w) => .ok (SparseArray7.newF64 "" dim ir jc v (some w))
  | .F64 v, none => .ok (SparseArray7.newF64 "" dim ir jc v none)
  | .BOOL v, none => .ok (SparseArray7.newBool "" dim ir jc v none)
  | _, _ => .panicked

/-- `impl From<SparseArray7> for SparseArray`
(`Self::new(..).unwrap()`). -/
def fromSparseArray7 (x : SparseArray7) : PRes SparseArray := do
  let _name ← x.name.name
  let dim := x.dimensions.dim
  let ir := x.ir.dim
  let jc := x.jc.dim
  let value := advarToMatlabType x.value.array_data_value_var
  let value_cmp := x.value_cmp.map (fun c => advarToMatlabType c.array_data_value_var)
  (SparseArray.new dim ir jc value_cmp.isSome value value_cmp).unwrapR

end Matrw

namespace Matrw

/-- `IndexMap::insert` on the association-list model: replaces the value in
place when the key exists, appends otherwise. -/
def indexMapInsert (m : List (String × MatVariable)) (k : String)
    (v : MatVariable) : List (String × MatVariable) :=
  if m.any (fun p => p.1 == k) then
    m.map (fun p => if p.1 == k then (k, v) else p)
  else m ++ [(k, v)]

/-- The v7 wire-level variable (`MatVariable7` in `parser/v7/variable7.rs`).
`Structure` is `Structure7`; `Cell` and `StructureArray` are
*modelled from the spec* (§4.5): their source files (`cell_array.rs`,
`structure_array.rs` under `parser/v7/types`) are not present under `src/`;
per §4.5 a cell holds `∏dᵢ` inner matrix elements and a structure array a
field-name table followed by `(∏dᵢ)·n_fields` inner matrix elements. -/
inductive MatVariable7 where
  | ObjectMCOS
  | ObjectHandle
  | Compressed (value : MatVariable7)
  | Numeric (a : NumericArray7)
  | Cell (dimensions : ArrayDimensions) (name : ArrayName)
      (value : List MatVariable7)
  | Structure (name : ArrayName) (fieldnames : ArrayFieldNames)
      (value : List MatVariable7)
  | StructureArray (dimensions : ArrayDimensions) (name : ArrayName)
      (fieldnames : ArrayFieldNames) (value : List MatVariable7)
  | Sparse (a : SparseArray7)
  | Empty
deriving Repr

/-- `MatVariable7::set_name` (`unimplemented!()` for empty/object
variants; the compressed wrapper renames its inner variable). -/
def MatVariable7.set_name : MatVariable7 → String → PRes MatVariable7
  | .Numeric a, n => .ok (.Numeric { a with name := ArrayName.new n })
  | .Compressed x, n => MatVariable7.Compressed <$> x.set_name n
  | .Structure _ f vs, n => .ok (.Structure (ArrayName.new n) f vs)
  | .StructureArray d _ f vs, n => .ok (.StructureArray d (ArrayName.new n) f vs)
  | .Cell d _ vs, n => .ok (.Cell d (ArrayName.new n) vs)
  | .Sparse s, n => .ok (.Sparse { s with name := ArrayName.new n })
  | _, _ => .panicked

/-- `MatVariable7::name` (the object variants delegate to their records,
which always carry a name; `Empty` is `unimplemented!()`). -/
def MatVariable7.name7 : MatVariable7 → PRes String
  | .Numeric a => a.name.name
  | .Compressed x => x.name7
  | .Structure n _ _ => n.name
  | .StructureArray _ n _ _ => n.name
  | .Cell _ n _ => n.name
  | .Sparse s => s.name.name
  | .ObjectMCOS => .ok ""
  | .ObjectHandle => .ok ""
  | .Empty => .panicked

/-- `impl From<MatVariable> for MatVariable7`: the write-side conversion of
the whole tree.  `Null` is `unimplemented!()`; `Unsupported` becomes a
`[1, 1]` numeric with an empty `f64` buffer.  For cells and structure
arrays (wire records modelled from the spec) the children are converted in
order; a structure array flattens its cells' fields in declaration order. -/
def toMatVariable7 : MatVariable → PRes MatVariable7
  | .Compressed v => MatVariable7.Compressed <$> toMatVariable7 v
  | .NumericArray a => MatVariable7.Numeric <$> toNumericArray7 a
  | .SparseArray s => MatVariable7.Sparse <$> toSparseArray7 s
  | .CellArray d vs => do
    let ws ← vs.attach.mapM (fun x => toMatVariable7 x.1)
    pure (.Cell (ArrayDimensions.new (d.map (fun n => n % 2 ^ 32)))
      (ArrayName.new "") ws)
  | .Structure m => do
    let ws ← m.attach.mapM (fun p => toMatVariable7 p.1.2)
    pure (.Structure (ArrayName.new "") (ArrayFieldNames.new (m.map Prod.fst)) ws)
  | .StructureArray d f vs => do
    let cells ← vs.attach.mapM (fun x => toMatVariable7 x.1)
    let fieldLists ← cells.mapM (fun c =>
      match c with
      | .Structure _ _ vals => (pure vals : PRes _)
      | _ => .panicked)
    pure (.StructureArray (ArrayDimensions.new (d.map (fun n => n % 2 ^ 32)))
      (ArrayName.new "") (ArrayFieldNames.new f) fieldLists.flatten)
  | .Null => .panicked
  | .Unsupported => .ok (.Numeric (NumericArray7.newF64 [1, 1] [] none))
termination_by v => sizeOf v
decreasing_by
  all_goals simp_wf
  all_goals first
  | omega
  | (have h1 := List.sizeOf_lt_of_mem x.2
     omega)
  | (have h1 := List.sizeOf_lt_of_mem p.2
     obtain ⟨⟨a, b⟩, hp⟩ := p
     simp only [Prod.mk.sizeOf_spec] at h1
     simp only
     omega)

end Matrw

namespace Matrw

/-- The grouping `while`-loop of `StructureArray::new`: splits the flat field
values into cells of `fieldnames.len()` fields each.  With no field names and
a nonempty value list the source loop would not terminate; that unreachable
case is collapsed to a panic, as is running out of values mid-cell
(`v.next().unwrap()`). -/
def groupCells (fn : List String) : List MatVariable → PRes (List MatVariable)
  | [] => .ok []
  | x :: xs =>
    if fn.length = 0 then .panicked
    else if (x :: xs).length < fn.length then .panicked
    else do
      let rest ← groupCells fn ((x :: xs).drop fn.length)
      pure (.Structure ((fn.zip ((x :: xs).take fn.length)).foldl
        (fun m p => indexMapInsert m p.1 p.2) []) :: rest)
termination_by v => v.length
decreasing_by
  simp_wf
  omega

/-- `StructureArray::new`: element-count check against
`dim.prod * fieldnames.len()`, then the grouping loop. -/
def StructureArray.newGrouped (dim : List Nat) (fieldnames : List String)
    (value : List MatVariable) : RRes MatVariable :=
  if dim ≠ [] ∧ dim.prod * fieldnames.length ≠ value.length then
    .err (.TypeConstruction "Specified dimension does not match number of elements.")
  else do
    let cells ← (groupCells fieldnames value).lift
    pure (.StructureArray dim fieldnames cells)

/-- `impl From<MatVariable7> for MatVariable`: the read-side conversion.
`From<CompressedArray7>` in the source repeats exactly these arms, its only
self-recursion being the nested-`Compressed` case, so the compressed arm
recurses directly.  Cell and structure-array payload counts follow §4.5. -/
def fromMatVariable7 : MatVariable7 → PRes MatVariable
  | .Compressed v => fromMatVariable7 v
  | .Numeric a => (fun x => MatVariable.NumericArray x) <$> fromNumericArray7 a
  | .Sparse s => (fun x => MatVariable.SparseArray x) <$> fromSparseArray7 s
  | .Cell dims _ vs => do
    let ws ← vs.attach.mapM (fun x => fromMatVariable7 x.1)
    pure (.CellArray dims.dim ws)
  | .Structure _ f vs => do
    let names ← f.fieldnames
    let ws ← vs.attach.mapM (fun x => fromMatVariable7 x.1)
    pure (.Structure ((ws.zip names).foldl
      (fun m p => indexMapInsert m p.2 p.1) []))
  | .StructureArray dims _ f vs => do
    let names ← f.fieldnames
    let ws ← vs.attach.mapM (fun x => fromMatVariable7 x.1)
    (StructureArray.newGrouped dims.dim names ws).unwrapR
  | .Empty =>
    (fun x => MatVariable.NumericArray x) <$>
      (NumericArray.new [0, 0] MatlabType.mkNew none).unwrapR
  | .ObjectMCOS => .ok .Unsupported
  | .ObjectHandle => .ok .Unsupported
termination_by v => sizeOf v
decreasing_by
  all_goals simp_wf
  all_goals first
  | omega
  | (have h1 := List.sizeOf_lt_of_mem x.2
     omega)

end Matrw

namespace Matrw

/-! ## Structural write-then-read round trip of one wire record.

The byte-level serialisation (binrw derive) is a bijection between the
record structures and their byte strings; the model therefore composes, per
value block, the source's `write_array_data` lowering, the reader's
tag-driven raw dispatch (`rawRetag`) and `parse_array_data`.  Props,
dimensions, names and field-name tables re-read to identical structures; a
small-framed block with a zero byte count reads back in normal framing
(the upper half of its first word is zero, the format's normal/small
discrimination rule). -/

/-- Write-then-read of one (dense) value block under a class tag and logical
flag. -/
def wireRTArrayData (klass : MatlabArrayTypes) (isLogical : Bool)
    (a : ArrayData) : RRes ArrayData := do
  let raw ← rawRetag a.data_type (write_array_data a.array_data_value_var)
  let v ← parse_array_data raw klass isLogical
  match a with
  | .DataNormal dt ds _ => pure (.DataNormal dt ds v)
  | .DataSmall dt ds _ =>
    pure (if ds = 0 then .DataNormal dt ds v else .DataSmall dt ds v)

/-- Sparse data-type tag. -/
def ArrayDataSparse.data_type : ArrayDataSparse → MatFileDataTypes
  | .DataNormal dt _ _ => dt
  | .DataSmall dt _ _ => dt

/-- Write-then-read of one sparse value block. -/
def wireRTArrayDataSparse (isLogical : Bool) (a : ArrayDataSparse) :
    RRes ArrayDataSparse := do
  let raw ← rawRetag a.data_type (write_array_data a.array_data_value_var)
  let v ← parse_array_data_sparse raw isLogical
  match a with
  | .DataNormal dt ds _ => pure (.DataNormal dt ds v)
  | .DataSmall dt ds _ =>
    pure (if ds = 0 then .DataNormal dt ds v else .DataSmall dt ds v)

/-- Write-then-read of one wire variable.  The imaginary block is re-read
exactly when the complex flag is set; a flag inconsistent with the written
blocks desynchronises the stream (binrw error).  Child counts of the
aggregate records must match what the reader's `count` directives consume. -/
def wireRTVar : MatVariable7 → RRes MatVariable7
  | .Numeric a => do
    let v ← wireRTArrayData a.props.array_class a.props.is_logical a.value
    let c ← match a.value_cmp, a.props.is_complex with
      | some b, true =>
        (fun x => some x) <$> wireRTArrayData a.props.array_class a.props.is_logical b
      | none, false => pure none
      | _, _ => .err .BinrwError
    pure (.Numeric { a with value := v, value_cmp := c })
  | .Sparse s => do
    let v ← wireRTArrayDataSparse s.props.is_logical s.value
    let c ← match s.value_cmp, s.props.is_complex with
      | some b, true => (fun x => some x) <$> wireRTArrayDataSparse s.props.is_logical b
      | none, false => pure none
      | _, _ => .err .BinrwError
    pure (.Sparse { s with value := v, value_cmp := c })
  | .Structure n f vs =>
    if vs.length = f.field_number then do
      let ws ← vs.attach.mapM (fun x => wireRTVar x.1)
      pure (.Structure n f ws)
    else .err .BinrwError
  | .StructureArray d n f vs =>
    if vs.length = d.dim.prod * f.field_number then do
      let ws ← vs.attach.mapM (fun x => wireRTVar x.1)
      pure (.StructureArray d n f ws)
    else .err .BinrwError
  | .Cell d n vs =>
    if vs.length = d.dim.prod then do
      let ws ← vs.attach.mapM (fun x => wireRTVar x.1)
      pure (.Cell d n ws)
    else .err .BinrwError
  | .Compressed v => MatVariable7.Compressed <$> wireRTVar v
  | .Empty => .ok .Empty
  | .ObjectMCOS => .ok .ObjectMCOS
  | .ObjectHandle => .ok .ObjectHandle
termination_by v => sizeOf v
decreasing_by
  all_goals simp_wf
  all_goals first
  | omega
  | (have h1 := List.sizeOf_lt_of_mem x.2
     omega)

/-! ## File-level save and load (`interface/fileio.rs`; the `MatFile7`
container record is modelled from the spec: §4.10 — the writer emits each
variable in insertion order under its key name, the reader consumes
matrix-element records until the region is exhausted and keys the container
map by each variable's name). -/

/-- `save_matfile_v7` followed by `load_matfile`, composed structurally:
compression (when requested) wraps every top-level variable, conversion to
wire records names them, every record round-trips through the byte layer,
and the reader rebuilds the insertion-ordered container. -/
def saveLoadMatfile (compress : Bool) (c : List (String × MatVariable)) :
    RRes (List (String × MatVariable)) := do
  let cWrapped := if compress then
      c.map (fun p => (p.1, MatVariable.Compressed p.2))
    else c
  let vars7 ← cWrapped.mapM (fun p => do
    let v7 ← (toMatVariable7 p.2).lift
    (v7.set_name p.1).lift)
  let readBack ← vars7.mapM wireRTVar
  let pairs ← readBack.mapM (fun v7 => do
    let n ← (v7.name7).lift
    let w ← (fromMatVariable7 v7).lift
    pure (n, w))
  pure (pairs.foldl (fun m p => indexMapInsert m p.1 p.2) [])

end Matrw

namespace Matrw

/-! ## Characterisation of the row-major to column-major reshape (C4) -/

/-- Destination index of one loop iteration: `c * n_rows + r`. -/
def rvcTgt (nRows : Nat) (p : Nat × Nat) : Nat := p.2 * nRows + p.1

/-- Source index of one loop iteration: `r * n_cols + c`. -/
def rvcSrc (nCols : Nat) (p : Nat × Nat) : Nat := p.1 * nCols + p.2

theorem rvcSrc_lt (nRows nCols : Nat) (p : Nat × Nat) (h1 : p.1 < nRows)
    (h2 : p.2 < nCols) : rvcSrc nCols p < nRows * nCols := by
  unfold rvcSrc
  calc p.1 * nCols + p.2 < p.1 * nCols + nCols := by omega
  _ = (p.1 + 1) * nCols := by ring
  _ ≤ nRows * nCols := Nat.mul_le_mul_right nCols h1

theorem rvcTgt_lt (nRows nCols : Nat) (p : Nat × Nat) (h1 : p.1 < nRows)
    (h2 : p.2 < nCols) : rvcTgt nRows p < nRows * nCols := by
  unfold rvcTgt
  calc p.2 * nRows + p.1 < p.2 * nRows + nRows := by omega
  _ = (p.2 + 1) * nRows := by ring
  _ ≤ nCols * nRows := Nat.mul_le_mul_right nRows h2
  _ = nRows * nCols := Nat.mul_comm nCols nRows

theorem rvcStep_ok {α : Type} (value : List α) (nRows nCols : Nat) (v : List α)
    (p : Nat × Nat) (h1 : p.1 < nRows) (h2 : p.2 < nCols)
    (hvl : value.length = nRows * nCols) (hv : v.length = nRows * nCols) :
    ∃ x, value.get? (rvcSrc nCols p) = some x ∧
      rvcStep value nRows nCols v p = .ok (v.set (rvcTgt nRows p) x) := by
  have hsrc : rvcSrc nCols p < value.length := by
    rw [hvl]; exact rvcSrc_lt nRows nCols p h1 h2
  have hx : value.get? (rvcSrc nCols p) = some (value.get ⟨rvcSrc nCols p, hsrc⟩) :=
    List.get?_eq_get hsrc
  refine ⟨_, hx, ?_⟩
  unfold rvcStep
  rw [show p.1 * nCols + p.2 = rvcSrc nCols p from rfl, hx]
  have htgt : rvcTgt nRows p < v.length := by
    rw [hv]; exact rvcTgt_lt nRows nCols p h1 h2
  dsimp only
  rw [if_pos (show p.2 * nRows + p.1 < v.length from htgt)]
  rfl

theorem foldlM_rvcStep {α : Type} (value : List α) (nRows nCols : Nat)
    (hvl : value.length = nRows * nCols) :
    ∀ (ps : List (Nat × Nat)) (v : List α), v.length = nRows * nCols →
    (∀ p ∈ ps, p.1 < nRows ∧ p.2 < nCols) →
    (ps.map (rvcTgt nRows)).Nodup →
    ∃ w, ps.foldlM (rvcStep value nRows nCols) v = .ok w ∧
      w.length = nRows * nCols ∧
      (∀ j, j ∉ ps.map (rvcTgt nRows) → w.get? j = v.get? j) ∧
      (∀ p ∈ ps, w.get? (rvcTgt nRows p) = value.get? (rvcSrc nCols p)) := by
  intro ps
  induction ps with
  | nil =>
    intro v hv _ _
    exact ⟨v, rfl, hv, fun j _ => rfl, fun p hp => absurd hp (List.not_mem_nil p)⟩
  | cons p ps ih =>
    intro v hv hb hnd
    have hp := hb p (List.mem_cons_self p ps)
    obtain ⟨x, hxval, hstep⟩ :=
      rvcStep_ok value nRows nCols v p hp.1 hp.2 hvl hv
    have hv' : (v.set (rvcTgt nRows p) x).length = nRows * nCols := by
      rw [List.length_set]; exact hv
    have hnd' : (ps.map (rvcTgt nRows)).Nodup := (List.nodup_cons.mp hnd).2
    have hnotin : rvcTgt nRows p ∉ ps.map (rvcTgt nRows) := (List.nodup_cons.mp hnd).1
    obtain ⟨w, hfold, hwl, huntouched, hwritten⟩ :=
      ih (v.set (rvcTgt nRows p) x) hv'
        (fun q hq => hb q (List.mem_cons_of_mem p hq)) hnd'
    refine ⟨w, ?_, hwl, ?_, ?_⟩
    · rw [List.foldlM_cons, hstep]
      simpa using hfold
    · intro j hj
      have hj1 : rvcTgt nRows p ≠ j := by
        intro h
        exact hj (by rw [List.map_cons]; exact h ▸ List.mem_cons_self _ _)
      have hj2 : j ∉ ps.map (rvcTgt nRows) := by
        intro h
        exact hj (by rw [List.map_cons]; exact List.mem_cons_of_mem _ h)
      rw [huntouched j hj2, List.get?_eq_getElem?, List.get?_eq_getElem?,
        List.getElem?_set_ne hj1]
    · intro q hq
      rcases List.mem_cons.mp hq with rfl | hq2
      · rw [huntouched (rvcTgt nRows q) hnotin, hxval]
        rw [List.get?_eq_getElem?, List.getElem?_set_self]
        simp [show rvcTgt nRows q < v.length from by
          rw [hv]; exact rvcTgt_lt nRows nCols q hp.1 hp.2]
      · exact hwritten q hq2

theorem mem_rvcPairs (nRows nCols r c : Nat) :
    (r, c) ∈ rvcPairs nRows nCols ↔ r < nRows ∧ c < nCols := by
  unfold rvcPairs
  simp [List.mem_flatMap, List.mem_map, List.mem_range]

theorem rvcPairs_bounds (nRows nCols : Nat) :
    ∀ p ∈ rvcPairs nRows nCols, p.1 < nRows ∧ p.2 < nCols := by
  intro p hp
  obtain ⟨r, c⟩ := p
  exact (mem_rvcPairs nRows nCols r c).mp hp

theorem rvcPairs_nodup (nRows nCols : Nat) : (rvcPairs nRows nCols).Nodup := by
  have h : rvcPairs nRows nCols = (List.range nRows).product (List.range nCols) := rfl
  rw [h]
  exact List.Nodup.product (List.nodup_range nRows) (List.nodup_range nCols)

theorem rvcPairs_tgt_nodup (nRows nCols : Nat) :
    ((rvcPairs nRows nCols).map (rvcTgt nRows)).Nodup := by
  apply (rvcPairs_nodup nRows nCols).map_on
  intro p hp q hq heq
  obtain ⟨hp1, hp2⟩ := rvcPairs_bounds nRows nCols p hp
  obtain ⟨hq1, hq2⟩ := rvcPairs_bounds nRows nCols q hq
  unfold rvcTgt at heq
  have h1 : p.1 = q.1 := by
    have e1 : (p.2 * nRows + p.1) % nRows = p.1 := by
      rw [Nat.mul_comm, Nat.mul_add_mod]
      exact Nat.mod_eq_of_lt hp1
    have e2 : (q.2 * nRows + q.1) % nRows = q.1 := by
      rw [Nat.mul_comm, Nat.mul_add_mod]
      exact Nat.mod_eq_of_lt hq1
    rw [← e1, ← e2, heq]
  have h2 : p.2 = q.2 := by
    have hpos : 0 < nRows := Nat.pos_of_ne_zero (by omega)
    have : p.2 * nRows = q.2 * nRows := by omega
    exact Nat.eq_of_mul_eq_mul_right hpos this
  exact Prod.ext h1 h2

/-- The loop of `row_vec_to_colmaj_interal` succeeds on a buffer of size
`n_rows * n_cols` and realises exactly the index map of the specification. -/
theorem rowVecToColmajInternal_spec {α : Type} (value : List α)
    (nRows nCols r c : Nat) (hlen : value.length = nRows * nCols)
    (hr : r < nRows) (hc : c < nCols) :
    ∃ w, rowVecToColmajInternal value nRows nCols = .ok w ∧
      w.length = value.length ∧
      w.get? (c * nRows + r) = value.get? (r * nCols + c) := by
  obtain ⟨w, hfold, hwl, _, hwritten⟩ :=
    foldlM_rvcStep value nRows nCols hlen (rvcPairs nRows nCols) value hlen
      (rvcPairs_bounds nRows nCols) (rvcPairs_tgt_nodup nRows nCols)
  refine ⟨w, hfold, by omega, ?_⟩
  have := hwritten (r, c) ((mem_rvcPairs nRows nCols r c).mpr ⟨hr, hc⟩)
  simpa [rvcTgt, rvcSrc] using this

end Matrw

namespace Matrw

/-- C4: the constructor's row-major to column-major reshape
(`row_vec_to_colmaj_interal`) reads position `(r, c)` from source index
`r * cols + c` and writes it to destination index `c * rows + r`;
consequently the numeric array constructed by `from_nested_matvar` from the
nested row vectors `[[1,2],[3,4]]` has column-major buffer `[1,3,2,4]`, and
scalar indices 0, 1, 2, 3 via `elem` return the elements 1, 3, 2, 4. -/
theorem C4_reshape_row_major_to_column_major {α : Type} (value : List α)
    (nRows nCols r c : Nat) (hlen : value.length = nRows * nCols)
    (hr : r < nRows) (hc : c < nCols) :
    (∃ w, rowVecToColmajInternal value nRows nCols = .ok w ∧
      w.length = value.length ∧
      w.get? (c * nRows + r) = value.get? (r * nCols + c)) ∧
    NumericArray.from_nested_matvar []
      [MatVariable.NumericArray ⟨[1,2], .I32 [1,2], none⟩,
       MatVariable.NumericArray ⟨[1,2], .I32 [3,4], none⟩]
      = .ok ⟨[2,2], .I32 [1,3,2,4], none⟩ ∧
    (MatVariable.NumericArray ⟨[2,2], .I32 [1,3,2,4], none⟩).elemNat 0
      = .ok (.NumericArray ⟨[1,1], .I32 [1], none⟩) ∧
    (MatVariable.NumericArray ⟨[2,2], .I32 [1,3,2,4], none⟩).elemNat 1
      = .ok (.NumericArray ⟨[1,1], .I32 [3], none⟩) ∧
    (MatVariable.NumericArray ⟨[2,2], .I32 [1,3,2,4], none⟩).elemNat 2
      = .ok (.NumericArray ⟨[1,1], .I32 [2], none⟩) ∧
    (MatVariable.NumericArray ⟨[2,2], .I32 [1,3,2,4], none⟩).elemNat 3
      = .ok (.NumericArray ⟨[1,1], .I32 [4], none⟩) :=
  ⟨rowVecToColmajInternal_spec value nRows nCols r c hlen hr hc,
   rfl, rfl, rfl, rfl, rfl⟩

/-- C4 witness: the reshape property at the concrete 2x3 buffer
`[10,20,30,40,50,60]`, position `(1, 2)`. -/
theorem C4_reshape_row_major_to_column_major_witness :
    ∃ w, rowVecToColmajInternal ([10,20,30,40,50,60] : List Nat) 2 3 = .ok w ∧
      w.length = 6 ∧ w.get? (2 * 2 + 1) = some 60 := by
  obtain ⟨⟨w, h1, h2, h3⟩, _⟩ :=
    C4_reshape_row_major_to_column_major ([10,20,30,40,50,60] : List Nat) 2 3 1 2
      rfl (by decide) (by decide)
  exact ⟨w, h1, by simpa using h2, by rw [h3]; rfl⟩

end Matrw

namespace Matrw

/-- C6: for complex column-vector children the real buffer is the plain
concatenation, but `nested_col_vecs_to_colmaj_array` additionally passes the
imaginary buffer through `row_vec_to_colmaj`, reshuffling it: children
`[2,1]` with real parts `[1,2]`, `[3,4]` and imaginary parts `[5,6]`, `[7,8]`
produce real `[1,2,3,4]` (the concatenation) but imaginary `[5,7,6,8]`,
which differs from the concatenation `[5,6,7,8]`. -/
theorem C6_col_vec_imaginary_reshuffled :
    nested_col_vecs_to_colmaj_array
      [MatVariable.NumericArray ⟨[2,1], .F64 [1,2], some (.F64 [5,6])⟩,
       MatVariable.NumericArray ⟨[2,1], .F64 [3,4], some (.F64 [7,8])⟩]
      = .ok ([2,2], .F64 [1,2,3,4], some (.F64 [5,7,6,8])) ∧
    ([5,7,6,8] : List Rat) ≠ [5,6,7,8] :=
  ⟨rfl, by decide⟩

end Matrw

namespace Matrw

/-- C5 counterexample: in the row-vector branch of `from_nested_matvar`,
children of equal dimension and complex status but different element kinds
(`i32` vs `f64`) make the constructor panic (the kind mismatch reaches
`MatlabType::extend`, whose `get` unwraps a `None`) instead of returning a
typed construction error. -/
theorem C5_vector_branch_kind_mismatch_panics :
    NumericArray.from_nested_matvar []
      [.NumericArray ⟨[1,2], .I32 [1,2], none⟩,
       .NumericArray ⟨[1,2], .F64 [3,4], none⟩]
      = .panicked := rfl

/-- C5 amended: homogeneity checking is split unevenly across the branches of
`from_nested_matvar`. The scalar branch rejects an element-kind mismatch with
a typed construction error, but does not check complex status: a real child
after a complex first child panics, and a complex child after a real first
child has its imaginary part silently dropped. The vector branches reject
dimension and complex-status mismatches with a typed construction error, but
panic on an element-kind mismatch. -/
theorem C5_amended_homogeneity_checks :
    NumericArray.from_nested_matvar []
      [.NumericArray ⟨[1,1], .I32 [1], none⟩,
       .NumericArray ⟨[1,1], .F64 [2], none⟩]
      = .err (.TypeConstruction "All elements must be of same numeric type.") ∧
    NumericArray.from_nested_matvar []
      [.NumericArray ⟨[1,2], .I32 [1,2], none⟩,
       .NumericArray ⟨[1,2], .I32 [3,4], some (.I32 [5,6])⟩]
      = .err (.TypeConstruction "All row vectors must have the same dimensions.") ∧
    NumericArray.from_nested_matvar []
      [.NumericArray ⟨[1,2], .I32 [1,2], none⟩,
       .NumericArray ⟨[1,3], .I32 [3,4,5], none⟩]
      = .err (.TypeConstruction "All row vectors must have the same dimensions.") ∧
    NumericArray.from_nested_matvar []
      [.NumericArray ⟨[1,1], .F64 [1], some (.F64 [2])⟩,
       .NumericArray ⟨[1,1], .F64 [3], none⟩]
      = .panicked ∧
    NumericArray.from_nested_matvar []
      [.NumericArray ⟨[1,1], .F64 [1], none⟩,
       .NumericArray ⟨[1,1], .F64 [3], some (.F64 [2])⟩]
      = .ok ⟨[1,2], .F64 [1,3], none⟩ :=
  ⟨rfl, rfl, rfl, rfl, rfl⟩

end Matrw

namespace Matrw

/-- C7 counterexample: on the cloning access path (`elem`), an out-of-range
scalar index into a numeric array panics (`clone_at_index` indexes the
backing vector with `items[index]`) instead of returning the Null
sentinel. -/
theorem C7_scalar_oob_clone_panics :
    (MatVariable.NumericArray ⟨[1,3], .I32 [1,2,3], none⟩).elemNat 5
      = .panicked := rfl

/-- C7 amended: only part of the indexing surface is non-fatal. On the
cloning path, a multi-dimensional out-of-range index returns the Null
sentinel, but a scalar out-of-range index into a numeric or sparse array
panics, and a field-name index always panics (`todo!()`). On the borrowing
path, out-of-range scalar indices and missing field names return the static
Null. -/
theorem C7_amended_indexing_surface :
    (MatVariable.NumericArray ⟨[1,3], .I32 [1,2,3], none⟩).elemMulti [0,5]
      = .ok .Null ∧
    (MatVariable.NumericArray ⟨[1,3], .I32 [1,2,3], none⟩).elemMulti [0,1,2]
      = .ok .Null ∧
    (MatVariable.SparseArray
        (SparseArray.mk [2,2] [0] [0,1,1] false ⟨[1,1], .F64 [0], none⟩
          (.F64 [3]) none)).elemNat 9
      = .panicked ∧
    (MatVariable.Structure [("a", .NumericArray ⟨[1,1], .F64 [1], none⟩)]).elemStr "a"
      = .panicked ∧
    (MatVariable.CellArray [1,2] [.Null, .Null]).refNat 7 = .Null ∧
    (MatVariable.Structure [("a", .NumericArray ⟨[1,1], .F64 [1], none⟩)]).refStr "missing"
      = .Null :=
  ⟨rfl, rfl, rfl, rfl, rfl, rfl⟩

end Matrw

namespace Matrw

/-- C8 counterexample: `to_f64` on a 1x1 numeric array of declared kind `i32`
panics (the `inner_ref(..).unwrap()` inside `MatlabType::get`) instead of
returning None. -/
theorem C8_kind_mismatch_scalar_panics :
    (MatVariable.NumericArray ⟨[1,1], .I32 [7], none⟩).to_f64 = .panicked := rfl

/-- C8 amended: a kind-specific scalar accessor returns Some of the first
element when the variable is a 1x1 numeric array whose declared element kind
matches the requested kind; it returns None when the variable is not a
numeric array or the array is not 1x1; but on a 1x1 numeric array whose
declared kind differs from the requested kind it panics rather than
returning None. -/
theorem C8_amended_scalar_accessors :
    (MatVariable.NumericArray ⟨[1,1], .F64 [(3:Rat)/2], none⟩).to_f64
      = .ok (some (.q ((3:Rat)/2))) ∧
    (MatVariable.NumericArray ⟨[1,1], .I32 [7], none⟩).to_i32
      = .ok (some (.i 7)) ∧
    (MatVariable.NumericArray ⟨[1,1], .BOOL [true], none⟩).to_bool
      = .ok (some (.b true)) ∧
    (MatVariable.NumericArray ⟨[1,2], .F64 [1,2], none⟩).to_f64 = .ok none ∧
    (MatVariable.Null).to_f64 = .ok none ∧
    (MatVariable.NumericArray ⟨[1,1], .F64 [1], none⟩).to_i32 = .panicked :=
  ⟨rfl, rfl, rfl, rfl, rfl, rfl⟩

end Matrw

namespace Matrw

/-- C9: in the `matvar!` array completion, a nonempty list of structure
children produces a structure array exactly when `check_same_fields` holds,
i.e. all children carry the identical ordered field-name list; the resulting
structure array's field order is the first structure's declaration order.
When the field lists are not identical, constructing the structure array is
rejected: the completion falls back to a `[1, n]` cell array instead. -/
theorem C9_structure_array_field_homogeneity (h : MatVariable)
    (t : List MatVariable)
    (hall : ((h :: t).all
      (fun x => match x with | .Structure _ => true | _ => false)) = true) :
    (check_same_fields (h :: t) = true →
      ∃ f, h.fieldnames = some f ∧
        matvarStructOrCell (h :: t)
          = .ok (.StructureArray [1, (h :: t).length] f (h :: t))) ∧
    (check_same_fields (h :: t) = false →
      matvarStructOrCell (h :: t)
        = .ok (.CellArray [1, (h :: t).length] (h :: t))) := by
  have hallh := hall
  simp only [List.all_cons, Bool.and_eq_true] at hallh
  cases h with
  | Structure s =>
    constructor
    · intro hcsf
      refine ⟨structFieldnames s, rfl, ?_⟩
      unfold matvarStructOrCell
      rw [if_pos ⟨hall, hcsf⟩]
      simp [StructureArray.from_structures, unwrapO, MatVariable.fieldnames]
    · intro hcsf
      unfold matvarStructOrCell
      rw [if_neg (by simp [hcsf])]
      simp [CellArray.new, RRes.unwrapR]
  | NumericArray a => simp at hallh
  | SparseArray a => simp at hallh
  | StructureArray d f v => simp at hallh
  | CellArray d v => simp at hallh
  | Null => simp at hallh
  | Compressed => simp at hallh
  | Unsupported => simp at hallh

/-- C9 witness: two structures with the identical single field `a` form a
`[1, 2]` structure array with field order `["a"]`. -/
theorem C9_structure_array_field_homogeneity_witness :
    matvarStructOrCell
      [.Structure [("a", .NumericArray ⟨[1,1], .F64 [1], none⟩)],
       .Structure [("a", .NumericArray ⟨[1,1], .F64 [2], none⟩)]]
      = .ok (.StructureArray [1, 2] ["a"]
        [.Structure [("a", .NumericArray ⟨[1,1], .F64 [1], none⟩)],
         .Structure [("a", .NumericArray ⟨[1,1], .F64 [2], none⟩)]]) := by
  obtain ⟨ha, _⟩ := C9_structure_array_field_homogeneity
    (.Structure [("a", .NumericArray ⟨[1,1], .F64 [1], none⟩)])
    [.Structure [("a", .NumericArray ⟨[1,1], .F64 [2], none⟩)]] rfl
  obtain ⟨f, hf, h2⟩ := ha rfl
  simp only [MatVariable.fieldnames, structFieldnames, List.map,
    Option.some.injEq] at hf
  subst hf
  simpa using h2

end Matrw

namespace Matrw

/-! ## Characterisation of the f64 write-time downcast (C2) -/

/-- Per-element downcastability: zero fractional part and within
`[lo, hi]`. -/
def canElem (lo hi : Rat) (e : Rat) : Bool :=
  if ratFract e ≠ 0 then false else !(e < lo || e > hi)

theorem canScanStep_eq (f : CanFlags) (e : Rat) :
    canScanStep f e =
      ⟨f.cu8 && canElem 0 255 e, f.ci8 && canElem (-128) 127 e,
       f.cu16 && canElem 0 65535 e, f.ci16 && canElem (-32768) 32767 e,
       f.cu32 && canElem 0 4294967295 e,
       f.ci32 && canElem (-2147483648) 2147483647 e⟩ := by
  unfold canScanStep canElem
  by_cases h : ratFract e ≠ 0 <;> simp [h]

theorem foldl_canScanStep (value : List Rat) : ∀ f : CanFlags,
    value.foldl canScanStep f =
      ⟨f.cu8 && value.all (canElem 0 255),
       f.ci8 && value.all (canElem (-128) 127),
       f.cu16 && value.all (canElem 0 65535),
       f.ci16 && value.all (canElem (-32768) 32767),
       f.cu32 && value.all (canElem 0 4294967295),
       f.ci32 && value.all (canElem (-2147483648) 2147483647)⟩ := by
  induction value with
  | nil => intro f; cases f; simp
  | cons e l ih =>
    intro f
    rw [List.foldl_cons, canScanStep_eq, ih]
    simp [List.all_cons, Bool.and_assoc]

theorem canFlagsOf_eq (value : List Rat) :
    canFlagsOf value =
      ⟨value.all (canElem 0 255), value.all (canElem (-128) 127),
       value.all (canElem 0 65535), value.all (canElem (-32768) 32767),
       value.all (canElem 0 4294967295),
       value.all (canElem (-2147483648) 2147483647)⟩ := by
  unfold canFlagsOf
  rw [foldl_canScanStep]
  simp

theorem ratAsNat_intCast (n : Int) (hi : Nat) (h0 : 0 ≤ n) (h : n ≤ (hi : Int)) :
    ((ratAsNat (n : Rat) hi : Nat) : Rat) = (n : Rat) := by
  unfold ratAsNat
  rcases lt_or_eq_of_le h0 with hpos | hz
  · rw [if_neg (not_le.mpr (by exact_mod_cast hpos))]
    rw [ratTrunc_intCast]
    have h1 : n.toNat ≤ hi := by omega
    rw [min_eq_right h1]
    have h2 : ((n.toNat : Nat) : Int) = n := Int.toNat_of_nonneg h0
    exact_mod_cast h2
  · rw [if_pos (by rw [← hz]; norm_num)]
    rw [← hz]
    norm_num

theorem canElem_exact_u8 (e : Rat) (h : canElem 0 255 e = true) :
    ((ratAsNat e 255 : Nat) : Rat) = e := by
  unfold canElem at h
  by_cases hf : ratFract e ≠ 0
  · rw [if_pos hf] at h; exact absurd h (by simp)
  · rw [if_neg hf] at h
    push_neg at hf
    have hfl := (ratFract_eq_zero_iff e).mp hf
    simp only [Bool.not_eq_true', Bool.or_eq_false_iff,
      decide_eq_false_iff_not, not_lt] at h
    have h0 : (0 : Int) ≤ ⌊e⌋ := Int.floor_nonneg.mpr h.1
    have h255 : ⌊e⌋ ≤ (255 : Int) := by
      have := Int.floor_le_floor (α := Rat) h.2
      simpa using this
    rw [← hfl]
    exact ratAsNat_intCast ⌊e⌋ 255 h0 (by exact_mod_cast h255)

theorem map_ratAsNat_u8 (value : List Rat)
    (h : value.all (canElem 0 255) = true) :
    (value.map (fun x => ratAsNat x 255)).map (fun x => ((x : Nat) : Rat))
      = value := by
  induction value with
  | nil => rfl
  | cons e l ih =>
    simp only [List.all_cons, Bool.and_eq_true] at h
    simp only [List.map_cons, canElem_exact_u8 e h.1, ih h.2]

end Matrw

namespace Matrw

/-- C2: the write-time downcast of an `f64` buffer.  The scan flags are
exactly "every element has zero fractional part and lies in the target
range"; `ArrayData::new` then picks the first surviving type in the priority
order `u8, i8, u16, i16, u32, i32` for the wire block's data type, and falls
back to `f64`; the array class recorded alongside stays `MxDOUBLECLASS`.  In
particular an all-integer buffer within `[0, 255]` is written as a `MiUINT8`
block, and the write-then-read composition widens it back to the same `f64`
values. -/
theorem C2_f64_downcast_priority (value : List Rat) :
    (canFlagsOf value =
      ⟨value.all (canElem 0 255), value.all (canElem (-128) 127),
       value.all (canElem 0 65535), value.all (canElem (-32768) 32767),
       value.all (canElem 0 4294967295),
       value.all (canElem (-2147483648) 2147483647)⟩) ∧
    (value.all (canElem 0 255) = true →
      (ArrayData.newF64 value).data_type = .MiUINT8 ∧
      (NumericArray7.newF64 [1, value.length] value none).props.array_class
        = .MxDOUBLECLASS ∧
      ∃ r, wireRTArrayData .MxDOUBLECLASS false (ArrayData.newF64 value)
          = .ok r ∧
        r.array_data_value_var = .F64 value) ∧
    (value.all (canElem 0 255) = false →
      value.all (canElem (-128) 127) = true →
      (ArrayData.newF64 value).data_type = .MiINT8) ∧
    (value.all (canElem 0 255) = false →
      value.all (canElem (-128) 127) = false →
      value.all (canElem 0 65535) = true →
      (ArrayData.newF64 value).data_type = .MiUINT16) ∧
    (value.all (canElem 0 255) = false →
      value.all (canElem (-128) 127) = false →
      value.all (canElem 0 65535) = false →
      value.all (canElem (-32768) 32767) = true →
      (ArrayData.newF64 value).data_type = .MiINT16) ∧
    (value.all (canElem 0 255) = false →
      value.all (canElem (-128) 127) = false →
      value.all (canElem 0 65535) = false →
      value.all (canElem (-32768) 32767) = false →
      value.all (canElem 0 4294967295) = true →
      (ArrayData.newF64 value).data_type = .MiUINT32) ∧
    (value.all (canElem 0 255) = false →
      value.all (canElem (-128) 127) = false →
      value.all (canElem 0 65535) = false →
      value.all (canElem (-32768) 32767) = false →
      value.all (canElem 0 4294967295) = false →
      value.all (canElem (-2147483648) 2147483647) = true →
      (ArrayData.newF64 value).data_type = .MiINT32) ∧
    (value.all (canElem 0 255) = false →
      value.all (canElem (-128) 127) = false →
      value.all (canElem 0 65535) = false →
      value.all (canElem (-32768) 32767) = false →
      value.all (canElem 0 4294967295) = false →
      value.all (canElem (-2147483648) 2147483647) = false →
      (ArrayData.newF64 value).data_type = .MiDOUBLE ∧
      (ArrayData.newF64 value).array_data_value_var = .F64 value) := by
  refine ⟨canFlagsOf_eq value, ?_, ?_, ?_, ?_, ?_, ?_, ?_⟩
  · intro h8
    refine ⟨?_, rfl, ?_⟩
    · unfold ArrayData.newF64
      rw [canFlagsOf_eq]
      simp only [h8, if_pos]
      unfold mkArrayData
      split <;> rfl
    · unfold ArrayData.newF64
      rw [canFlagsOf_eq]
      simp only [h8, if_pos]
      unfold mkArrayData wireRTArrayData
      have hparse :
          parse_array_data (.U8 (value.map (fun x => ratAsNat x 255)))
            .MxDOUBLECLASS false = .ok (.F64 value) := by
        unfold parse_array_data
        have hm := map_ratAsNat_u8 value h8
        rw [List.map_map] at hm
        simpa [← List.map_eq_flatMap] using hm
      split
      · simp only [ArrayData.data_type, ArrayData.array_data_value_var,
          write_array_data, rawRetag, RRes.bind_ok, hparse]
        exact ⟨_, rfl, rfl⟩
      · simp only [ArrayData.data_type, ArrayData.array_data_value_var,
          write_array_data, rawRetag, RRes.bind_ok, hparse]
        split <;> exact ⟨_, rfl, rfl⟩
  · intro h8 h8i
    unfold ArrayData.newF64
    rw [canFlagsOf_eq]
    simp only [h8, h8i, Bool.false_eq_true, if_false, if_pos]
    unfold mkArrayData
    split <;> rfl
  · intro h8 h8i h16
    unfold ArrayData.newF64
    rw [canFlagsOf_eq]
    simp only [h8, h8i, h16, Bool.false_eq_true, if_false, if_pos]
    unfold mkArrayData
    split <;> rfl
  · intro h8 h8i h16 h16i
    unfold ArrayData.newF64
    rw [canFlagsOf_eq]
    simp only [h8, h8i, h16, h16i, Bool.false_eq_true, if_false, if_pos]
    unfold mkArrayData
    split <;> rfl
  · intro h8 h8i h16 h16i h32
    unfold ArrayData.newF64
    rw [canFlagsOf_eq]
    simp only [h8, h8i, h16, h16i, h32, Bool.false_eq_true, if_false, if_pos]
    unfold mkArrayData
    split <;> rfl
  · intro h8 h8i h16 h16i h32 h32i
    unfold ArrayData.newF64
    rw [canFlagsOf_eq]
    simp only [h8, h8i, h16, h16i, h32, h32i, Bool.false_eq_true, if_false,
      if_pos]
    unfold mkArrayData
    split <;> rfl
  · intro h8 h8i h16 h16i h32 h32i
    unfold ArrayData.newF64
    rw [canFlagsOf_eq]
    simp only [h8, h8i, h16, h16i, h32, h32i, Bool.false_eq_true, if_false]
    unfold mkArrayData
    constructor <;> (split <;> rfl)

/-- C2 witness: the all-integer buffer `[1, 2, 255]` is written as a
`MiUINT8` block under class `MxDOUBLECLASS` and reads back to the same
`f64` values. -/
theorem C2_f64_downcast_priority_witness :
    (ArrayData.newF64 ([1, 2, 255] : List Rat)).data_type = .MiUINT8 ∧
    ∃ r, wireRTArrayData .MxDOUBLECLASS false
        (ArrayData.newF64 ([1, 2, 255] : List Rat)) = .ok r ∧
      r.array_data_value_var = .F64 [1, 2, 255] := by
  obtain ⟨_, h8, _⟩ := C2_f64_downcast_priority ([1, 2, 255] : List Rat)
  obtain ⟨hdt, _, hrt⟩ := h8 (by norm_num [canElem, ratFract, ratTrunc, List.all])
  exact ⟨hdt, hrt⟩

end Matrw

namespace Matrw

/-- C10: for a complex wire record (`value_cmp` present) the header byte
count `size_data` adds the real value block's encoded size twice and never
the imaginary block's size, so it equals the actual payload length exactly
when the two value blocks encode to the same size. -/
theorem C10_complex_size_data_double_counts_real (x : NumericArray7)
    (c : ArrayData) (h : x.value_cmp = some c) :
    x.size_data = x.props.size + x.dimensions.size + x.name.size
      + 2 * x.value.size ∧
    (x.size_data = x.payloadSize ↔ c.size = x.value.size) := by
  unfold NumericArray7.size_data NumericArray7.payloadSize
  rw [h]
  simp only [Option.isSome_some, if_pos]
  constructor
  · omega
  · omega

/-- C10 witness: a complex record whose real block downcast to one `u8`
byte (encoded size 8) but whose imaginary block stayed `f64` (encoded size
16) has a header byte count different from its payload length. -/
theorem C10_complex_size_data_double_counts_real_witness :
    ({ props := ⟨.MxDOUBLECLASS, true, false, false, 0⟩,
       dimensions := ArrayDimensions.new [1,1],
       name := ArrayName.new "",
       value := .DataSmall .MiUINT8 1 (.U8 [1]),
       value_cmp := some (.DataNormal .MiDOUBLE 8 (.F64 [(3:Rat)/2])) }
      : NumericArray7).size_data
      ≠ ({ props := ⟨.MxDOUBLECLASS, true, false, false, 0⟩,
           dimensions := ArrayDimensions.new [1,1],
           name := ArrayName.new "",
           value := .DataSmall .MiUINT8 1 (.U8 [1]),
           value_cmp := some (.DataNormal .MiDOUBLE 8 (.F64 [(3:Rat)/2])) }
          : NumericArray7).payloadSize := by
  obtain ⟨_, h2⟩ := C10_complex_size_data_double_counts_real
    { props := ⟨.MxDOUBLECLASS, true, false, false, 0⟩,
      dimensions := ArrayDimensions.new [1,1],
      name := ArrayName.new "",
      value := .DataSmall .MiUINT8 1 (.U8 [1]),
      value_cmp := some (.DataNormal .MiDOUBLE 8 (.F64 [(3:Rat)/2])) }
    (.DataNormal .MiDOUBLE 8 (.F64 [(3:Rat)/2])) rfl
  intro hc
  exact absurd (h2.mp hc) (by decide)

end Matrw

namespace Matrw

/-! ## Transparency of the compressed wrapper (C3) -/

instance : LawfulMonad PRes :=
  LawfulMonad.mk'
    PRes
    (fun x => by cases x <;> rfl)
    (fun x f => rfl)
    (fun x f g => by cases x <;> rfl)

instance : LawfulMonad RRes :=
  LawfulMonad.mk'
    RRes
    (fun x => by cases x <;> rfl)
    (fun x f => rfl)
    (fun x f g => by cases x <;> rfl)

@[simp] theorem RRes.map_ok {α β : Type} (f : α → β) (a : α) :
    (f <$> RRes.ok a) = RRes.ok (f a) := rfl

@[simp] theorem RRes.map_err {α β : Type} (f : α → β) (e : MatrwError) :
    (f <$> (RRes.err e : RRes α)) = (RRes.err e : RRes β) := rfl

@[simp] theorem RRes.map_panicked {α β : Type} (f : α → β) :
    (f <$> (RRes.panicked : RRes α)) = (RRes.panicked : RRes β) := rfl

@[simp] theorem PRes.map_okP {α β : Type} (f : α → β) (a : α) :
    (f <$> PRes.ok a) = PRes.ok (f a) := rfl

@[simp] theorem PRes.map_panickedP {α β : Type} (f : α → β) :
    (f <$> (PRes.panicked : PRes α)) = (PRes.panicked : PRes β) := rfl

theorem wireRTVar_compressed (v : MatVariable7) :
    wireRTVar (.Compressed v) = MatVariable7.Compressed <$> wireRTVar v := by
  rw [wireRTVar]

theorem fromMatVariable7_compressed (v : MatVariable7) :
    fromMatVariable7 (.Compressed v) = fromMatVariable7 v := by
  rw [fromMatVariable7]

theorem toVarStep_compressed (n : String) (v : MatVariable) :
    (do let v7 ← (toMatVariable7 (MatVariable.Compressed v)).lift
        (v7.set_name n).lift : RRes MatVariable7)
      = MatVariable7.Compressed <$>
        (do let v7 ← (toMatVariable7 v).lift
            (v7.set_name n).lift) := by
  rw [show toMatVariable7 (MatVariable.Compressed v)
      = MatVariable7.Compressed <$> toMatVariable7 v from by rw [toMatVariable7]]
  cases hv : toMatVariable7 v with
  | ok w =>
    simp only [hv, PRes.map_okP, PRes.lift_ok, RRes.bind_ok]
    rw [show (MatVariable7.Compressed w).set_name n
        = MatVariable7.Compressed <$> w.set_name n from rfl]
    cases hw : w.set_name n <;> simp [hw]
  | panicked => simp [hv]

end Matrw

namespace Matrw

theorem mapM_toVarStep_wrapped (c : List (String × MatVariable)) :
    (c.map (fun p => (p.1, MatVariable.Compressed p.2))).mapM
      (fun p => do
        let v7 ← (toMatVariable7 p.2).lift
        (v7.set_name p.1).lift)
      = List.map MatVariable7.Compressed <$>
        c.mapM (fun p => do
          let v7 ← (toMatVariable7 p.2).lift
          (v7.set_name p.1).lift) := by
  induction c with
  | nil => rfl
  | cons p t ih =>
    rw [List.map_cons, List.mapM_cons, List.mapM_cons]
    rw [show (do
        let v7 ← (toMatVariable7 (p.1, MatVariable.Compressed p.2).2).lift
        (v7.set_name (p.1, MatVariable.Compressed p.2).1).lift : RRes MatVariable7)
      = MatVariable7.Compressed <$>
        (do let v7 ← (toMatVariable7 p.2).lift
            (v7.set_name p.1).lift) from toVarStep_compressed p.1 p.2]
    cases hv : (do
        let v7 ← (toMatVariable7 p.2).lift
        (v7.set_name p.1).lift : RRes MatVariable7) with
    | ok w =>
      rw [ih]
      cases ht : t.mapM (fun p => do
          let v7 ← (toMatVariable7 p.2).lift
          (v7.set_name p.1).lift) <;> simp [ht]
    | err e => simp
    | panicked => simp

theorem mapM_wireRTVar_wrapped (l : List MatVariable7) :
    (l.map MatVariable7.Compressed).mapM wireRTVar
      = List.map MatVariable7.Compressed <$> l.mapM wireRTVar := by
  induction l with
  | nil => rfl
  | cons v t ih =>
    rw [List.map_cons, List.mapM_cons, List.mapM_cons, wireRTVar_compressed]
    cases hv : wireRTVar v with
    | ok w =>
      rw [ih]
      cases ht : t.mapM wireRTVar <;> simp [ht]
    | err e => simp
    | panicked => simp

theorem mapM_readStep_wrapped (l : List MatVariable7) :
    (l.map MatVariable7.Compressed).mapM (fun v7 => do
        let n ← (v7.name7).lift
        let w ← (fromMatVariable7 v7).lift
        pure (n, w))
      = l.mapM (fun v7 => do
        let n ← (v7.name7).lift
        let w ← (fromMatVariable7 v7).lift
        pure (n, w)) := by
  induction l with
  | nil => rfl
  | cons v t ih =>
    rw [List.map_cons, List.mapM_cons, List.mapM_cons, ih]
    rw [show (MatVariable7.Compressed v).name7 = v.name7 from rfl,
      fromMatVariable7_compressed]

/-- The per-variable compression wrapper is transparent to the
save-then-load composition. -/
theorem saveLoad_wrap_transparent (c : List (String × MatVariable)) :
    saveLoadMatfile true c = saveLoadMatfile false c := by
  unfold saveLoadMatfile
  rw [if_pos rfl, if_neg (by simp)]
  dsimp only
  rw [mapM_toVarStep_wrapped]
  cases hv : c.mapM (fun p => do
      let v7 ← (toMatVariable7 p.2).lift
      (v7.set_name p.1).lift) with
  | ok l =>
    simp only [hv, RRes.map_ok, RRes.bind_ok]
    rw [mapM_wireRTVar_wrapped]
    cases hr : l.mapM wireRTVar with
    | ok l2 =>
      simp only [hr, RRes.map_ok, RRes.bind_ok]
      rw [mapM_readStep_wrapped]
    | err e => simp
    | panicked => simp
  | err e => simp
  | panicked => simp

/-- C3: per-variable compression is transparent to the save-then-load
composition: saving with `compress = true` and loading yields exactly the
same container as saving with `compress = false` and loading, for every
container. -/
theorem C3_compression_transparent (c : List (String × MatVariable)) :
    saveLoadMatfile true c = saveLoadMatfile false c :=
  saveLoad_wrap_transparent c

end Matrw

namespace Matrw

/-! ## List and monad helpers for the round-trip development -/

theorem mapM_pmap_pres {α β : Type} {P : α → Prop} (f : α → PRes β) :
    ∀ (l : List α) (H : ∀ x ∈ l, P x),
      (l.pmap (fun a h => (⟨a, h⟩ : {x // P x})) H).mapM (fun x => f x.1)
        = l.mapM f := by
  intro l
  induction l with
  | nil => intro H; rfl
  | cons x xs ih =>
    intro H
    rw [List.pmap, List.mapM_cons, List.mapM_cons, ih]

theorem mapM_pmap_rres {α β : Type} {P : α → Prop} (f : α → RRes β) :
    ∀ (l : List α) (H : ∀ x ∈ l, P x),
      (l.pmap (fun a h => (⟨a, h⟩ : {x // P x})) H).mapM (fun x => f x.1)
        = l.mapM f := by
  intro l
  induction l with
  | nil => intro H; rfl
  | cons x xs ih =>
    intro H
    rw [List.pmap, List.mapM_cons, List.mapM_cons, ih]

theorem mapM_attach_pres {α β : Type} (l : List α) (f : α → PRes β) :
    l.attach.mapM (fun x => f x.1) = l.mapM f := by
  rw [show l.attach = l.pmap (fun a h => (⟨a, h⟩ : {x // x ∈ l}))
      (fun _ h => h) from rfl]
  exact mapM_pmap_pres f l (fun _ h => h)

theorem mapM_attach_rres {α β : Type} (l : List α) (f : α → RRes β) :
    l.attach.mapM (fun x => f x.1) = l.mapM f := by
  rw [show l.attach = l.pmap (fun a h => (⟨a, h⟩ : {x // x ∈ l}))
      (fun _ h => h) from rfl]
  exact mapM_pmap_rres f l (fun _ h => h)

theorem mapM_ok_pointwise_pres {α β : Type} (Q : α → β → Prop) (l : List α)
    (f : α → PRes β) (h : ∀ x ∈ l, ∃ y, f x = .ok y ∧ Q x y) :
    ∃ ys, l.mapM f = .ok ys ∧ List.Forall₂ Q l ys := by
  induction l with
  | nil => exact ⟨[], rfl, List.Forall₂.nil⟩
  | cons x xs ih =>
    obtain ⟨y, hy, hq⟩ := h x (List.mem_cons_self x xs)
    obtain ⟨ys, hys, hf⟩ := ih (fun z hz => h z (List.mem_cons_of_mem x hz))
    exact ⟨y :: ys, by rw [List.mapM_cons, hy, hys]; rfl,
      List.Forall₂.cons hq hf⟩

theorem mapM_ok_pointwise_rres {α β : Type} (Q : α → β → Prop) (l : List α)
    (f : α → RRes β) (h : ∀ x ∈ l, ∃ y, f x = .ok y ∧ Q x y) :
    ∃ ys, l.mapM f = .ok ys ∧ List.Forall₂ Q l ys := by
  induction l with
  | nil => exact ⟨[], rfl, List.Forall₂.nil⟩
  | cons x xs ih =>
    obtain ⟨y, hy, hq⟩ := h x (List.mem_cons_self x xs)
    obtain ⟨ys, hys, hf⟩ := ih (fun z hz => h z (List.mem_cons_of_mem x hz))
    exact ⟨y :: ys, by rw [List.mapM_cons, hy, hys]; rfl,
      List.Forall₂.cons hq hf⟩

theorem mapM_ok_forall2_pres {α β γ : Type} (Q : α → β → Prop)
    (R : α → γ → Prop) (l : List α) (l' : List β) (f : β → PRes γ)
    (hf : List.Forall₂ Q l l') (h : ∀ a b, Q a b → ∃ c, f b = .ok c ∧ R a c) :
    ∃ cs, l'.mapM f = .ok cs ∧ List.Forall₂ R l cs := by
  induction hf with
  | nil => exact ⟨[], rfl, List.Forall₂.nil⟩
  | cons hq hrest ih =>
    obtain ⟨c, hc, hr⟩ := h _ _ hq
    obtain ⟨cs, hcs, hfr⟩ := ih
    exact ⟨c :: cs, by rw [List.mapM_cons, hc, hcs]; rfl,
      List.Forall₂.cons hr hfr⟩

theorem mapM_ok_forall2_rres {α β γ : Type} (Q : α → β → Prop)
    (R : α → γ → Prop) (l : List α) (l' : List β) (f : β → RRes γ)
    (hf : List.Forall₂ Q l l') (h : ∀ a b, Q a b → ∃ c, f b = .ok c ∧ R a c) :
    ∃ cs, l'.mapM f = .ok cs ∧ List.Forall₂ R l cs := by
  induction hf with
  | nil => exact ⟨[], rfl, List.Forall₂.nil⟩
  | cons hq hrest ih =>
    obtain ⟨c, hc, hr⟩ := h _ _ hq
    obtain ⟨cs, hcs, hfr⟩ := ih
    exact ⟨c :: cs, by rw [List.mapM_cons, hc, hcs]; rfl,
      List.Forall₂.cons hr hfr⟩

theorem forall2_eq_right {α : Type} (l l' : List α)
    (h : List.Forall₂ (fun a b => b = a) l l') : l' = l := by
  induction h with
  | nil => rfl
  | cons hq _ ih => rw [ih, hq]

theorem foldl_indexMapInsert_fresh (l : List (String × MatVariable)) :
    ∀ (acc : List (String × MatVariable)),
    (∀ p ∈ l, ∀ q ∈ acc, q.1 ≠ p.1) → (l.map Prod.fst).Nodup →
    l.foldl (fun m p => indexMapInsert m p.1 p.2) acc = acc ++ l := by
  induction l with
  | nil => intro acc _ _; simp
  | cons p t ih =>
    intro acc hfresh hnd
    rw [List.foldl_cons]
    have hnone : acc.any (fun q => q.1 == p.1) = false := by
      rw [List.any_eq_false]
      intro q hq
      simpa using hfresh p (List.mem_cons_self p t) q hq
    rw [show indexMapInsert acc p.1 p.2 = acc ++ [(p.1, p.2)] from by
      unfold indexMapInsert
      rw [if_neg (by rw [hnone]; simp)]]
    rw [List.map_cons, List.nodup_cons] at hnd
    rw [ih (acc ++ [(p.1, p.2)]) ?_ hnd.2]
    · simp
    · intro r hr q hq
      rcases List.mem_append.mp hq with hq1 | hq2
      · exact hfresh r (List.mem_cons_of_mem p hr) q hq1
      · have : q = (p.1, p.2) := by simpa using hq2
        subst this
        intro hcontra
        exact hnd.1 (by
          rw [hcontra]
          exact List.mem_map_of_mem Prod.fst hr)

theorem foldl_insert_swapped (us : List MatVariable) (ks : List String)
    (hlen : us.length = ks.length) (hnd : ks.Nodup) :
    (us.zip ks).foldl (fun m p => indexMapInsert m p.2 p.1) []
      = ks.zip us := by
  have h1 : (us.zip ks).foldl (fun m p => indexMapInsert m p.2 p.1) []
      = ((us.zip ks).map Prod.swap).foldl
        (fun m p => indexMapInsert m p.1 p.2) [] := by
    rw [List.foldl_map]
    rfl
  rw [h1, List.zip_swap]
  have h2 : ((ks.zip us).map Prod.fst).Nodup := by
    have := List.map_fst_zip ks us (by omega)
    rw [this]
    exact hnd
  have := foldl_indexMapInsert_fresh (ks.zip us) [] (by simp) h2
  simpa using this

end Matrw

namespace Matrw

/-! ## ASCII name and field-name round trips -/

theorem mapM_map_pres {α β γ : Type} (l : List α) (g : α → β) (f : β → PRes γ) :
    (l.map g).mapM f = l.mapM (fun a => f (g a)) := by
  induction l with
  | nil => rfl
  | cons x xs ih => rw [List.map_cons, List.mapM_cons, List.mapM_cons, ih]

theorem mapM_map_rres {α β γ : Type} (l : List α) (g : α → β) (f : β → RRes γ) :
    (l.map g).mapM f = l.mapM (fun a => f (g a)) := by
  induction l with
  | nil => rfl
  | cons x xs ih => rw [List.map_cons, List.mapM_cons, List.mapM_cons, ih]

theorem mapM_ok_id_pres {α : Type} (l : List α) (f : α → PRes α)
    (h : ∀ x ∈ l, f x = .ok x) : l.mapM f = .ok l := by
  induction l with
  | nil => rfl
  | cons x xs ih =>
    rw [List.mapM_cons, h x (List.mem_cons_self x xs),
      ih (fun z hz => h z (List.mem_cons_of_mem x hz))]
    rfl

theorem flatMap_encode_ascii_map (l : List Char) (h : ∀ c ∈ l, c.toNat < 0x80) :
    l.flatMap utf8EncodeChar = l.map Char.toNat := by
  induction l with
  | nil => rfl
  | cons c cs ih =>
    rw [List.flatMap_cons, utf8EncodeChar_ascii c (h c (List.mem_cons_self c cs)),
      ih (fun z hz => h z (List.mem_cons_of_mem c hz)), List.map_cons]
    rfl

theorem utf8DecodeAux_ascii_bytes (bs : List Nat) (h : ∀ b ∈ bs, b < 0x80) :
    ∀ fuel, bs.length ≤ fuel →
      utf8DecodeAux fuel bs = some (bs.map Char.ofNat) := by
  induction bs with
  | nil => intro fuel _; cases fuel <;> rfl
  | cons b rest ih =>
    intro fuel hf
    obtain ⟨fuel2, rfl⟩ : ∃ k, fuel = k + 1 := ⟨fuel - 1, by simp at hf; omega⟩
    rw [utf8DecodeAux_cons_ascii fuel2 b rest (h b (List.mem_cons_self b rest))]
    rw [ih (fun z hz => h z (List.mem_cons_of_mem b hz)) fuel2 (by simp at hf; omega)]
    rfl

theorem utf8Decode_ascii_bytes (bs : List Nat) (h : ∀ b ∈ bs, b < 0x80) :
    utf8Decode bs = some (bs.map Char.ofNat) :=
  utf8DecodeAux_ascii_bytes bs h bs.length (le_refl _)

theorem bytesToString_stringToBytes (s : String) (h : ∀ c ∈ s.data, c.toNat < 0x80) :
    bytesToString (stringToBytes s) = .ok s := by
  unfold bytesToString stringToBytes
  rw [utf8Decode_encode_ascii s.data h]

theorem ArrayName_roundtrip (s : String) (h : ∀ c ∈ s.data, c.toNat < 0x80) :
    (ArrayName.new s).name = .ok s := by
  unfold ArrayName.new
  by_cases h0 : (stringToBytes s).length = 0
  · rw [if_pos h0]
    have hl : s.data.length = 0 := by
      have := flatMap_encode_length_ascii s.data h
      unfold stringToBytes at h0
      omega
    have hd : s.data = [] := List.eq_nil_of_length_eq_zero hl
    show PRes.ok "" = PRes.ok s
    cases s with
    | mk d =>
      simp only at hd
      subst hd
      rfl
  · rw [if_neg h0]
    split
    · exact bytesToString_stringToBytes s h
    · exact bytesToString_stringToBytes s h

theorem dropWhile_nul_replicate (k : Nat) :
    (List.replicate k (Char.ofNat 0)).dropWhile (fun c => c = Char.ofNat 0)
      = [] := by
  induction k with
  | zero => rfl
  | succ n ih => rw [List.replicate_succ, List.dropWhile_cons_of_pos (by simp)]; exact ih

theorem dropWhile_all_head_neg {α : Type} (p : α → Bool) (l : List α)
    (hne : l ≠ []) (h : ∀ x ∈ l, p x = false) : l.dropWhile p = l := by
  cases l with
  | nil => exact absurd rfl hne
  | cons x xs =>
    rw [List.dropWhile_cons_of_neg]
    rw [h x (List.mem_cons_self x xs)]
    simp

theorem trimNull_append_replicate (l : List Char) (k : Nat)
    (h : ∀ c ∈ l, c ≠ Char.ofNat 0) :
    trimNullChars (l ++ List.replicate k (Char.ofNat 0)) = l := by
  unfold trimNullChars
  cases l with
  | nil =>
    simp only [List.nil_append]
    rw [dropWhile_nul_replicate]
    rfl
  | cons c cs =>
    have hstep : List.dropWhile (fun x => decide (x = Char.ofNat 0))
        (c :: (cs ++ List.replicate k (Char.ofNat 0)))
        = c :: (cs ++ List.replicate k (Char.ofNat 0)) :=
      List.dropWhile_cons_of_neg (by simp [h c (List.mem_cons_self c cs)])
    rw [List.cons_append, hstep]
    rw [← List.cons_append, List.reverse_append, List.reverse_replicate]
    rw [List.dropWhile_append]
    rw [dropWhile_nul_replicate]
    simp only [List.isEmpty_nil, if_true]
    rw [dropWhile_all_head_neg _ _ (by simp) (by
      intro x hx
      have hxl : x ∈ c :: cs := by
        rw [← List.mem_reverse]
        exact hx
      simp [h x hxl])]
    rw [List.reverse_reverse]

end Matrw

namespace Matrw

/-- A field name the table encodes losslessly: nonzero ASCII scalars, at most
63 of them. -/
def GoodFieldName (s : String) : Prop :=
  (∀ c ∈ s.data, c.toNat ≠ 0 ∧ c.toNat < 0x80) ∧ s.data.length ≤ 63

theorem fieldRow_decode (fn : String) (k : Nat) (hg : GoodFieldName fn) :
    (match utf8Decode
        (((fn.data.filter (fun c => c.toNat < 0x80)).take 63).flatMap
          utf8EncodeChar ++ List.replicate k 0) with
      | some l => pure (String.mk (trimNullChars l))
      | none => PRes.panicked) = PRes.ok fn := by
  obtain ⟨hchars, hlen63⟩ := hg
  have hascii : ∀ c ∈ fn.data, c.toNat < 0x80 := fun c hc => (hchars c hc).2
  have hfilter : fn.data.filter (fun c => c.toNat < 0x80) = fn.data :=
    List.filter_eq_self.mpr (by intro c hc; simp [hascii c hc])
  rw [hfilter, List.take_of_length_le hlen63]
  rw [flatMap_encode_ascii_map fn.data hascii]
  have hdec : utf8Decode (fn.data.map Char.toNat ++ List.replicate k 0)
      = some (fn.data ++ List.replicate k (Char.ofNat 0)) := by
    rw [utf8Decode_ascii_bytes]
    · congr 1
      rw [List.map_append, List.map_map, List.map_replicate]
      congr 1
      rw [show (Char.ofNat ∘ Char.toNat) = id from funext
        (fun c => Char.ofNat_toNat c)]
      exact List.map_id fn.data
    · intro b hb
      rcases List.mem_append.mp hb with h1 | h2
      · obtain ⟨c, hc, rfl⟩ := List.mem_map.mp h1
        exact hascii c hc
      · rw [List.eq_of_mem_replicate h2]
        norm_num
  rw [hdec]
  dsimp only
  rw [trimNull_append_replicate fn.data k (by
    intro c hc hcontra
    have : c.toNat = 0 := by rw [hcontra]; rfl
    exact (hchars c hc).1 this)]
  rfl

theorem ArrayFieldNames_roundtrip (l : List String)
    (h : ∀ s ∈ l, GoodFieldName s) :
    (ArrayFieldNames.new l).fieldnames = .ok l := by
  unfold ArrayFieldNames.new
  by_cases hl : l ≠ []
  · rw [if_pos hl]
    unfold ArrayFieldNames.fieldnames
    dsimp only
    rw [mapM_map_pres]
    apply mapM_ok_id_pres
    intro fn hfn
    exact fieldRow_decode fn _ (h fn hfn)
  · rw [if_neg hl]
    push_neg at hl
    subst hl
    rfl

end Matrw

namespace Matrw

/-! ## Exactness of the remaining downcast branches -/

theorem canElem_floor (lo hi e : Rat) (h : canElem lo hi e = true) :
    (⌊e⌋ : Rat) = e ∧ lo ≤ e ∧ e ≤ hi := by
  unfold canElem at h
  by_cases hf : ratFract e ≠ 0
  · rw [if_pos hf] at h; exact absurd h (by simp)
  · rw [if_neg hf] at h
    push_neg at hf
    have hfl := (ratFract_eq_zero_iff e).mp hf
    simp only [Bool.not_eq_true', Bool.or_eq_false_iff,
      decide_eq_false_iff_not, not_lt] at h
    exact ⟨hfl, h.1, not_lt.mp (by simpa using h.2)⟩

theorem canElem_exact_i8 (e : Rat) (h : canElem (-128) 127 e = true) :
    ((ratAsInt e (-128) 127 : Int) : Rat) = e := by
  obtain ⟨hfl, hlo, hhi⟩ := canElem_floor _ _ _ h
  have hlo' : (-128 : Int) ≤ ⌊e⌋ := by
    have : ((-128 : Int) : Rat) ≤ (⌊e⌋ : Rat) := by rw [hfl]; exact_mod_cast hlo
    exact_mod_cast this
  have hhi' : ⌊e⌋ ≤ (127 : Int) := by
    have : ((⌊e⌋ : Int) : Rat) ≤ ((127 : Int) : Rat) := by rw [hfl]; exact_mod_cast hhi
    exact_mod_cast this
  rw [← hfl, ratAsInt_exact ⌊e⌋ (-128) 127 hlo' hhi']

theorem canElem_exact_i16 (e : Rat) (h : canElem (-32768) 32767 e = true) :
    ((ratAsInt e (-32768) 32767 : Int) : Rat) = e := by
  obtain ⟨hfl, hlo, hhi⟩ := canElem_floor _ _ _ h
  have hlo' : (-32768 : Int) ≤ ⌊e⌋ := by
    have : ((-32768 : Int) : Rat) ≤ (⌊e⌋ : Rat) := by rw [hfl]; exact_mod_cast hlo
    exact_mod_cast this
  have hhi' : ⌊e⌋ ≤ (32767 : Int) := by
    have : ((⌊e⌋ : Int) : Rat) ≤ ((32767 : Int) : Rat) := by rw [hfl]; exact_mod_cast hhi
    exact_mod_cast this
  rw [← hfl, ratAsInt_exact ⌊e⌋ (-32768) 32767 hlo' hhi']

theorem canElem_exact_i32 (e : Rat)
    (h : canElem (-2147483648) 2147483647 e = true) :
    ((ratAsInt e (-2147483648) 2147483647 : Int) : Rat) = e := by
  obtain ⟨hfl, hlo, hhi⟩ := canElem_floor _ _ _ h
  have hlo' : (-2147483648 : Int) ≤ ⌊e⌋ := by
    have : ((-2147483648 : Int) : Rat) ≤ (⌊e⌋ : Rat) := by
      rw [hfl]; exact_mod_cast hlo
    exact_mod_cast this
  have hhi' : ⌊e⌋ ≤ (2147483647 : Int) := by
    have : ((⌊e⌋ : Int) : Rat) ≤ ((2147483647 : Int) : Rat) := by
      rw [hfl]; exact_mod_cast hhi
    exact_mod_cast this
  rw [← hfl, ratAsInt_exact ⌊e⌋ (-2147483648) 2147483647 hlo' hhi']

theorem canElem_exact_u16 (e : Rat) (h : canElem 0 65535 e = true) :
    ((ratAsNat e 65535 : Nat) : Rat) = e := by
  obtain ⟨hfl, hlo, hhi⟩ := canElem_floor _ _ _ h
  have h0 : (0 : Int) ≤ ⌊e⌋ := Int.floor_nonneg.mpr hlo
  have h65535 : ⌊e⌋ ≤ (65535 : Int) := by
    have : ((⌊e⌋ : Int) : Rat) ≤ ((65535 : Int) : Rat) := by
      rw [hfl]; exact_mod_cast hhi
    exact_mod_cast this
  rw [← hfl]
  exact ratAsNat_intCast ⌊e⌋ 65535 h0 (by exact_mod_cast h65535)

theorem canElem_exact_u32 (e : Rat) (h : canElem 0 4294967295 e = true) :
    ((ratAsNat e 4294967295 : Nat) : Rat) = e := by
  obtain ⟨hfl, hlo, hhi⟩ := canElem_floor _ _ _ h
  have h0 : (0 : Int) ≤ ⌊e⌋ := Int.floor_nonneg.mpr hlo
  have hb : ⌊e⌋ ≤ (4294967295 : Int) := by
    have : ((⌊e⌋ : Int) : Rat) ≤ ((4294967295 : Int) : Rat) := by
      rw [hfl]; exact_mod_cast hhi
    exact_mod_cast this
  rw [← hfl]
  exact ratAsNat_intCast ⌊e⌋ 4294967295 h0 (by exact_mod_cast hb)

theorem map_exact_cast {α : Type} (f : Rat → α) (g : α → Rat) (p : Rat → Bool)
    (hexact : ∀ e, p e = true → g (f e) = e) :
    ∀ (v : List Rat), v.all p = true → (v.map f).map g = v := by
  intro v
  induction v with
  | nil => intro _; rfl
  | cons e l ih =>
    intro hall
    simp only [List.all_cons, Bool.and_eq_true] at hall
    simp only [List.map_cons, hexact e hall.1, ih hall.2]

end Matrw

namespace Matrw

/-! ## Write-then-read of single value blocks -/

theorem wireRT_mk (dt : MatFileDataTypes) (ds : Nat) (w : ArrayDataValueVar)
    (b : Bool) (klass : MatlabArrayTypes) (lg : Bool)
    (raw : ArrayDataValueVarRaw) (out : ArrayDataValueVar)
    (h1 : rawRetag dt (write_array_data w) = .ok raw)
    (h2 : parse_array_data raw klass lg = .ok out) :
    ∃ r, wireRTArrayData klass lg (mkArrayData dt ds w b) = .ok r ∧
      r.array_data_value_var = out := by
  unfold mkArrayData
  split
  · unfold wireRTArrayData
    simp only [ArrayData.data_type, ArrayData.array_data_value_var, h1, h2,
      RRes.bind_ok]
    exact ⟨_, rfl, rfl⟩
  · unfold wireRTArrayData
    simp only [ArrayData.data_type, ArrayData.array_data_value_var, h1, h2,
      RRes.bind_ok]
    split <;> exact ⟨_, rfl, rfl⟩

theorem wireRT_newU8 (v : List Nat) :
    ∃ r, wireRTArrayData .MxUINT8CLASS false (ArrayData.newU8 v) = .ok r ∧
      r.array_data_value_var = .U8 v :=
  wireRT_mk _ _ _ _ _ _ (.U8 v) (.U8 v) rfl rfl

theorem wireRT_newI8 (v : List Int) :
    ∃ r, wireRTArrayData .MxINT8CLASS false (ArrayData.newI8 v) = .ok r ∧
      r.array_data_value_var = .I8 v :=
  wireRT_mk _ _ _ _ _ _ (.I8 v) (.I8 v) rfl rfl

theorem wireRT_newU16 (v : List Nat) :
    ∃ r, wireRTArrayData .MxUINT16CLASS false (ArrayData.newU16 v) = .ok r ∧
      r.array_data_value_var = .U16 v :=
  wireRT_mk _ _ _ _ _ _ (.U16 v) (.U16 v) rfl rfl

theorem wireRT_newI16 (v : List Int) :
    ∃ r, wireRTArrayData .MxINT16CLASS false (ArrayData.newI16 v) = .ok r ∧
      r.array_data_value_var = .I16 v :=
  wireRT_mk _ _ _ _ _ _ (.I16 v) (.I16 v) rfl rfl

theorem wireRT_newU32 (v : List Nat) :
    ∃ r, wireRTArrayData .MxUINT32CLASS false (ArrayData.newU32 v) = .ok r ∧
      r.array_data_value_var = .U32 v :=
  wireRT_mk _ _ _ _ _ _ (.U32 v) (.U32 v) rfl rfl

theorem wireRT_newI32 (v : List Int) :
    ∃ r, wireRTArrayData .MxINT32CLASS false (ArrayData.newI32 v) = .ok r ∧
      r.array_data_value_var = .I32 v :=
  wireRT_mk _ _ _ _ _ _ (.I32 v) (.I32 v) rfl rfl

theorem wireRT_newU64 (v : List Nat) :
    ∃ r, wireRTArrayData .MxUINT64CLASS false (ArrayData.newU64 v) = .ok r ∧
      r.array_data_value_var = .U64 v :=
  wireRT_mk _ _ _ _ _ _ (.U64 v) (.U64 v) rfl rfl

theorem wireRT_newI64 (v : List Int) :
    ∃ r, wireRTArrayData .MxINT64CLASS false (ArrayData.newI64 v) = .ok r ∧
      r.array_data_value_var = .I64 v :=
  wireRT_mk _ _ _ _ _ _ (.I64 v) (.I64 v) rfl rfl

theorem wireRT_newF32 (v : List Rat) :
    ∃ r, wireRTArrayData .MxSINGLECLASS false (ArrayData.newF32 v) = .ok r ∧
      r.array_data_value_var = .F32 v :=
  wireRT_mk _ _ _ _ _ _ (.F32 v) (.F32 v) rfl rfl

theorem bool_u8_roundtrip (v : List Bool) :
    (v.map (fun b => if b then 1 else 0)).map (fun (x : Nat) => decide (x ≠ 0))
      = v := by
  induction v with
  | nil => rfl
  | cons b t ih =>
    rw [List.map_map] at ih ⊢
    rw [List.map_cons, ih]
    cases b <;> rfl

theorem wireRT_newBool (v : List Bool) :
    ∃ r, wireRTArrayData .MxUINT8CLASS true (ArrayData.newBool v) = .ok r ∧
      r.array_data_value_var = .BOOL v := by
  have h1 : rawRetag .MiUINT8 (write_array_data (.BOOL v))
      = .ok (.U8 (v.map (fun b => if b then (1:Nat) else 0))) := rfl
  apply wireRT_mk _ _ _ _ _ _ _ _ h1
  unfold parse_array_data
  dsimp only
  rw [if_pos rfl]
  rw [show ((v.map (fun b => if b then 1 else 0)).map
      (fun (x : Nat) => decide (x ≠ 0))) = v from bool_u8_roundtrip v]

theorem wireRT_newChar (v : List Char) (h : ∀ c ∈ v, c.toNat < 0x80) :
    ∃ r, wireRTArrayData .MxCHARCLASS false (ArrayData.newChar v) = .ok r ∧
      r.array_data_value_var = .UTF8 v := by
  unfold ArrayData.newChar
  dsimp only
  rw [show v.filter (fun c => c.toNat < 0x80) = v from
    List.filter_eq_self.mpr (by intro c hc; simpa using h c hc)]
  have h1 : rawRetag .MiUTF8 (write_array_data (.UTF8 v))
      = .ok (.UTF8 (v.flatMap utf8EncodeChar)) := rfl
  apply wireRT_mk _ _ _ _ _ _ _ _ h1
  unfold parse_array_data
  dsimp only
  rw [utf8Decode_encode_ascii v h]

theorem wireRT_newF64 (v : List Rat) :
    ∃ r, wireRTArrayData .MxDOUBLECLASS false (ArrayData.newF64 v) = .ok r ∧
      r.array_data_value_var = .F64 v := by
  unfold ArrayData.newF64
  rw [canFlagsOf_eq]
  dsimp only
  by_cases h8 : v.all (canElem 0 255) = true
  · rw [if_pos h8]
    have h1 : rawRetag .MiUINT8
        (write_array_data (.U8 (v.map (fun x => ratAsNat x 255))))
        = .ok (.U8 (v.map (fun x => ratAsNat x 255))) := rfl
    apply wireRT_mk _ _ _ _ _ _ _ _ h1
    unfold parse_array_data
    have hm := map_exact_cast (fun x => ratAsNat x 255)
      (fun (x : Nat) => (x : Rat)) (canElem 0 255) canElem_exact_u8 v h8
    rw [List.map_map] at hm
    simpa [← List.map_eq_flatMap] using hm
  · rw [if_neg h8]
    by_cases hi8 : v.all (canElem (-128) 127) = true
    · rw [if_pos hi8]
      have h1 : rawRetag .MiINT8
          (write_array_data (.I8 (v.map (fun x => ratAsInt x (-128) 127))))
          = .ok (.I8 (v.map (fun x => ratAsInt x (-128) 127))) := rfl
      apply wireRT_mk _ _ _ _ _ _ _ _ h1
      unfold parse_array_data
      have hm := map_exact_cast (fun x => ratAsInt x (-128) 127)
        (fun (x : Int) => (x : Rat)) (canElem (-128) 127) canElem_exact_i8 v hi8
      rw [List.map_map] at hm
      simpa [← List.map_eq_flatMap] using hm
    · rw [if_neg hi8]
      by_cases h16 : v.all (canElem 0 65535) = true
      · rw [if_pos h16]
        have h1 : rawRetag .MiUINT16
            (write_array_data (.U16 (v.map (fun x => ratAsNat x 65535))))
            = .ok (.U16 (v.map (fun x => ratAsNat x 65535))) := rfl
        apply wireRT_mk _ _ _ _ _ _ _ _ h1
        unfold parse_array_data
        have hm := map_exact_cast (fun x => ratAsNat x 65535)
          (fun (x : Nat) => (x : Rat)) (canElem 0 65535) canElem_exact_u16 v h16
        rw [List.map_map] at hm
        simpa [← List.map_eq_flatMap] using hm
      · rw [if_neg h16]
        by_cases hi16 : v.all (canElem (-32768) 32767) = true
        · rw [if_pos hi16]
          have h1 : rawRetag .MiINT16
              (write_array_data (.I16 (v.map (fun x => ratAsInt x (-32768) 32767))))
              = .ok (.I16 (v.map (fun x => ratAsInt x (-32768) 32767))) := rfl
          apply wireRT_mk _ _ _ _ _ _ _ _ h1
          unfold parse_array_data
          have hm := map_exact_cast (fun x => ratAsInt x (-32768) 32767)
            (fun (x : Int) => (x : Rat)) (canElem (-32768) 32767)
            canElem_exact_i16 v hi16
          rw [List.map_map] at hm
          simpa [← List.map_eq_flatMap] using hm
        · rw [if_neg hi16]
          by_cases h32 : v.all (canElem 0 4294967295) = true
          · rw [if_pos h32]
            have h1 : rawRetag .MiUINT32
                (write_array_data (.U32 (v.map (fun x => ratAsNat x 4294967295))))
                = .ok (.U32 (v.map (fun x => ratAsNat x 4294967295))) := rfl
            apply wireRT_mk _ _ _ _ _ _ _ _ h1
            unfold parse_array_data
            have hm := map_exact_cast (fun x => ratAsNat x 4294967295)
              (fun (x : Nat) => (x : Rat)) (canElem 0 4294967295)
              canElem_exact_u32 v h32
            rw [List.map_map] at hm
            simpa [← List.map_eq_flatMap] using hm
          · rw [if_neg h32]
            by_cases hi32 : v.all (canElem (-2147483648) 2147483647) = true
            · rw [if_pos hi32]
              have h1 : rawRetag .MiINT32
                  (write_array_data
                    (.I32 (v.map (fun x => ratAsInt x (-2147483648) 2147483647))))
                  = .ok (.I32 (v.map (fun x => ratAsInt x (-2147483648) 2147483647)))
                  := rfl
              apply wireRT_mk _ _ _ _ _ _ _ _ h1
              unfold parse_array_data
              have hm := map_exact_cast
                (fun x => ratAsInt x (-2147483648) 2147483647)
                (fun (x : Int) => (x : Rat)) (canElem (-2147483648) 2147483647)
                canElem_exact_i32 v hi32
              rw [List.map_map] at hm
              simpa [← List.map_eq_flatMap] using hm
            · rw [if_neg hi32]
              exact wireRT_mk _ _ _ _ _ _ (.F64 v) (.F64 v) rfl rfl

end Matrw

namespace Matrw

theorem wireRT_sparse_f64 (v : List Rat) :
    wireRTArrayDataSparse false (ArrayDataSparse.newF64 v)
      = .ok (.DataNormal .MiDOUBLE (8 * v.length) (.F64 v)) := rfl

theorem wireRT_sparse_bool (v : List Bool) :
    ∃ r, wireRTArrayDataSparse true (ArrayDataSparse.newBool v) = .ok r ∧
      r.array_data_value_var = .BOOL v := by
  have h1 : rawRetag .MiUINT8 (write_array_data (.BOOL v))
      = .ok (.U8 (v.map (fun b => if b then (1:Nat) else 0))) := rfl
  have h2 : parse_array_data_sparse
      (.U8 (v.map (fun b => if b then (1:Nat) else 0))) true
      = .ok (.BOOL v) := by
    unfold parse_array_data_sparse
    dsimp only
    rw [if_pos rfl]
    rw [show ((v.map (fun b => if b then (1:Nat) else 0)).map
        (fun (x : Nat) => decide (x ≠ 0))) = v from bool_u8_roundtrip v]
  unfold ArrayDataSparse.newBool
  split
  · unfold wireRTArrayDataSparse
    simp only [ArrayDataSparse.data_type, ArrayDataSparse.array_data_value_var,
      h1, h2, RRes.bind_ok]
    exact ⟨_, rfl, rfl⟩
  · unfold wireRTArrayDataSparse
    simp only [ArrayDataSparse.data_type, ArrayDataSparse.array_data_value_var,
      h1, h2, RRes.bind_ok]
    split <;> exact ⟨_, rfl, rfl⟩

theorem ArrayDimensions_new_dim (dim : List Nat) :
    (ArrayDimensions.new dim).dim = dim := by
  unfold ArrayDimensions.new
  split <;> rfl

theorem dims_mod_id (dim : List Nat) (h : ∀ x ∈ dim, x < 2 ^ 32) :
    dim.map (fun x => x % 2 ^ 32) = dim := by
  rw [List.map_congr_left (fun x hx => Nat.mod_eq_of_lt (h x hx))]
  exact List.map_id dim

/-- Glue for one numeric wire record: value blocks that round trip, untouched
props/dims, an arbitrary decodable name. -/
theorem numericGlue (klass : MatlabArrayTypes) (lg : Bool) (dim : List Nat)
    (vb : ArrayData) (cb : Option ArrayData)
    (mt : MatlabType) (mtc : Option MatlabType)
    (hv : ∃ r, wireRTArrayData klass lg vb = .ok r ∧
      advarToMatlabType r.array_data_value_var = mt)
    (hc : (cb = none ∧ mtc = none) ∨
      (∃ cbb mc, cb = some cbb ∧ mtc = some mc ∧
        ∃ r, wireRTArrayData klass lg cbb = .ok r ∧
          advarToMatlabType r.array_data_value_var = mc))
    (hprod : ¬(dim ≠ [] ∧ dim.prod ≠ mt.len))
    (hdim : ¬(dim = [] ∨ dim.length = 1))
    (nb : ArrayName) (t : String) (hna : nb.name = .ok t) :
    ∃ x', wireRTVar (.Numeric ⟨⟨klass, cb.isSome, false, lg, 0⟩,
        ArrayDimensions.new dim, nb, vb, cb⟩) = .ok (.Numeric x') ∧
      x'.name = nb ∧
      fromMatVariable7 (.Numeric x') = .ok (.NumericArray ⟨dim, mt, mtc⟩) := by
  obtain ⟨rv, hrv, hvar⟩ := hv
  rcases hc with ⟨hcb, hmtc⟩ | ⟨cbb, mc, hcb, hmtc, rc, hrc, hcvar⟩
  · subst hcb
    subst hmtc
    rw [wireRTVar]
    dsimp only
    rw [hrv]
    simp only [RRes.bind_ok]
    refine ⟨_, rfl, rfl, ?_⟩
    rw [fromMatVariable7]
    unfold fromNumericArray7
    dsimp only
    rw [hna]
    simp only [PRes.bind_okP, ArrayDimensions_new_dim, hvar,
      Option.map_none]
    unfold NumericArray.new
    rw [if_neg hprod]
    simp only [if_neg hdim]
    rfl
  · subst hcb
    subst hmtc
    rw [wireRTVar]
    dsimp only
    rw [hrv]
    simp only [RRes.bind_ok, Option.isSome_some]
    rw [hrc]
    simp only [RRes.map_ok, RRes.bind_ok]
    refine ⟨_, rfl, rfl, ?_⟩
    rw [fromMatVariable7]
    unfold fromNumericArray7
    dsimp only
    rw [hna]
    simp only [PRes.bind_okP, ArrayDimensions_new_dim, hvar]
    unfold NumericArray.new
    rw [if_neg hprod]
    simp only [if_neg hdim]
    simp [hcvar]

end Matrw

namespace Matrw

/-! ## Well-formedness of variables for the write path (spec section 3
invariants) and the per-variant round trips -/

/-- The (value, imaginary) buffer pairs the write-side conversion handles
without panicking. -/
def numPairOk : MatlabType → Option MatlabType → Prop
  | .U8 _, none => True
  | .U8 _, some (.U8 _) => True
  | .I8 _, none => True
  | .I8 _, some (.I8 _) => True
  | .U16 _, none => True
  | .U16 _, some (.U16 _) => True
  | .I16 _, none => True
  | .I16 _, some (.I16 _) => True
  | .U32 _, none => True
  | .U32 _, some (.U32 _) => True
  | .I32 _, none => True
  | .I32 _, some (.I32 _) => True
  | .U64 _, none => True
  | .U64 _, some (.U64 _) => True
  | .I64 _, none => True
  | .I64 _, some (.I64 _) => True
  | .F32 _, none => True
  | .F32 _, some (.F32 _) => True
  | .F64 _, none => True
  | .F64 _, some (.F64 _) => True
  | .UTF8 l, none => ∀ c ∈ l, c.toNat < 0x80
  | .BOOL _, none => True
  | _, _ => False

/-- A numeric array the v7 writer stores losslessly: nonempty buffer, a
dimension vector of at least two entries whose product counts the elements
and whose entries fit `u32`, and a buffer pair the conversion supports
(chars must be ASCII scalars, since the writer drops others). -/
def GoodNum (a : NumericArray) : Prop :=
  a.value.len ≠ 0 ∧ a.dim.prod = a.value.len ∧ 2 ≤ a.dim.length ∧
  (∀ d ∈ a.dim, d < 2 ^ 32) ∧ numPairOk a.value a.value_cmp

theorem numericRT (a : NumericArray) (hg : GoodNum a) :
    ∃ x, toNumericArray7 a = .ok x ∧ x.name = ArrayName.new "" ∧
      ∀ (nb : ArrayName) (t : String), nb.name = .ok t →
        ∃ x', wireRTVar (.Numeric { x with name := nb }) = .ok (.Numeric x') ∧
          x'.name = nb ∧
          fromMatVariable7 (.Numeric x') = .ok (.NumericArray a) := by
  obtain ⟨d, mv, mc⟩ := a
  obtain ⟨hg1, hg2, hg3, hg4, hg5⟩ := hg
  dsimp only at hg1 hg2 hg3 hg4 hg5
  have hdims := dims_mod_id d hg4
  have hempty : mv.is_empty = false := by
    unfold MatlabType.is_empty
    simpa using hg1
  have hprod : ¬(d ≠ [] ∧ d.prod ≠ mv.len) := fun h => h.2 hg2
  have hdim : ¬(d = [] ∨ d.length = 1) := by
    intro h
    rcases h with h | h
    · subst h; simp at hg3
    · omega
  unfold toNumericArray7
  dsimp only
  rw [hdims, if_neg (by simp [hempty])]
  cases mv with
  | U8 v =>
    cases mc with
    | none =>
      refine ⟨_, rfl, rfl, ?_⟩
      intro nb t hna
      obtain ⟨r1, e1, e2⟩ := wireRT_newU8 v
      exact numericGlue _ _ _ _ _ _ _
        ⟨r1, e1, by rw [e2]; rfl⟩ (Or.inl ⟨rfl, rfl⟩) hprod hdim nb t hna
    | some c =>
      cases c with
      | U8 w =>
        refine ⟨_, rfl, rfl, ?_⟩
        intro nb t hna
        obtain ⟨r1, e1, e2⟩ := wireRT_newU8 v
        obtain ⟨r2, f1, f2⟩ := wireRT_newU8 w
        exact numericGlue _ _ _ _ _ _ _
          ⟨r1, e1, by rw [e2]; rfl⟩
          (Or.inr ⟨_, _, rfl, rfl, r2, f1, by rw [f2]; rfl⟩) hprod hdim nb t hna
      | I8 w => simp [numPairOk] at hg5
      | U16 w => simp [numPairOk] at hg5
      | I16 w => simp [numPairOk] at hg5
      | U32 w => simp [numPairOk] at hg5
      | I32 w => simp [numPairOk] at hg5
      | U64 w => simp [numPairOk] at hg5
      | I64 w => simp [numPairOk] at hg5
      | F32 w => simp [numPairOk] at hg5
      | F64 w => simp [numPairOk] at hg5
      | UTF8 w => simp [numPairOk] at hg5
      | UTF16 w => simp [numPairOk] at hg5
      | BOOL w => simp [numPairOk] at hg5
  | I8 v =>
    cases mc with
    | none =>
      refine ⟨_, rfl, rfl, ?_⟩
      intro nb t hna
      obtain ⟨r1, e1, e2⟩ := wireRT_newI8 v
      exact numericGlue _ _ _ _ _ _ _
        ⟨r1, e1, by rw [e2]; rfl⟩ (Or.inl ⟨rfl, rfl⟩) hprod hdim nb t hna
    | some c =>
      cases c with
      | U8 w => simp [numPairOk] at hg5
      | I8 w =>
        refine ⟨_, rfl, rfl, ?_⟩
        intro nb t hna
        obtain ⟨r1, e1, e2⟩ := wireRT_newI8 v
        obtain ⟨r2, f1, f2⟩ := wireRT_newI8 w
        exact numericGlue _ _ _ _ _ _ _
          ⟨r1, e1, by rw [e2]; rfl⟩
          (Or.inr ⟨_, _, rfl, rfl, r2, f1, by rw [f2]; rfl⟩) hprod hdim nb t hna
      | U16 w => simp [numPairOk] at hg5
      | I16 w => simp [numPairOk] at hg5
      | U32 w => simp [numPairOk] at hg5
      | I32 w => simp [numPairOk] at hg5
      | U64 w => simp [numPairOk] at hg5
      | I64 w => simp [numPairOk] at hg5
      | F32 w => simp [numPairOk] at hg5
      | F64 w => simp [numPairOk] at hg5
      | UTF8 w => simp [numPairOk] at hg5
      | UTF16 w => simp [numPairOk] at hg5
      | BOOL w => simp [numPairOk] at hg5
  | U16 v =>
    cases mc with
    | none =>
      refine ⟨_, rfl, rfl, ?_⟩
      intro nb t hna
      obtain ⟨r1, e1, e2⟩ := wireRT_newU16 v
      exact numericGlue _ _ _ _ _ _ _
        ⟨r1, e1, by rw [e2]; rfl⟩ (Or.inl ⟨rfl, rfl⟩) hprod hdim nb t hna
    | some c =>
      cases c with
      | U8 w => simp [numPairOk] at hg5
      | I8 w => simp [numPairOk] at hg5
      | U16 w =>
        refine ⟨_, rfl, rfl, ?_⟩
        intro nb t hna
        obtain ⟨r1, e1, e2⟩ := wireRT_newU16 v
        obtain ⟨r2, f1, f2⟩ := wireRT_newU16 w
        exact numericGlue _ _ _ _ _ _ _
          ⟨r1, e1, by rw [e2]; rfl⟩
          (Or.inr ⟨_, _, rfl, rfl, r2, f1, by rw [f2]; rfl⟩) hprod hdim nb t hna
      | I16 w => simp [numPairOk] at hg5
      | U32 w => simp [numPairOk] at hg5
      | I32 w => simp [numPairOk] at hg5
      | U64 w => simp [numPairOk] at hg5
      | I64 w => simp [numPairOk] at hg5
      | F32 w => simp [numPairOk] at hg5
      | F64 w => simp [numPairOk] at hg5
      | UTF8 w => simp [numPairOk] at hg5
      | UTF16 w => simp [numPairOk] at hg5
      | BOOL w => simp [numPairOk] at hg5
  | I16 v =>
    cases mc with
    | none =>
      refine ⟨_, rfl, rfl, ?_⟩
      intro nb t hna
      obtain ⟨r1, e1, e2⟩ := wireRT_newI16 v
      exact numericGlue _ _ _ _ _ _ _
        ⟨r1, e1, by rw [e2]; rfl⟩ (Or.inl ⟨rfl, rfl⟩) hprod hdim nb t hna
    | some c =>
      cases c with
      | U8 w => simp [numPairOk] at hg5
      | I8 w => simp [numPairOk] at hg5
      | U16 w => simp [numPairOk] at hg5
      | I16 w =>
        refine ⟨_, rfl, rfl, ?_⟩
        intro nb t hna
        obtain ⟨r1, e1, e2⟩ := wireRT_newI16 v
        obtain ⟨r2, f1, f2⟩ := wireRT_newI16 w
        exact numericGlue _ _ _ _ _ _ _
          ⟨r1, e1, by rw [e2]; rfl⟩
          (Or.inr ⟨_, _, rfl, rfl, r2, f1, by rw [f2]; rfl⟩) hprod hdim nb t hna
      | U32 w => simp [numPairOk] at hg5
      | I32 w => simp [numPairOk] at hg5
      | U64 w => simp [numPairOk] at hg5
      | I64 w => simp [numPairOk] at hg5
      | F32 w => simp [numPairOk] at hg5
      | F64 w => simp [numPairOk] at hg5
      | UTF8 w => simp [numPairOk] at hg5
      | UTF16 w => simp [numPairOk] at hg5
      | BOOL w => simp [numPairOk] at hg5
  | U32 v =>
    cases mc with
    | none =>
      refine ⟨_, rfl, rfl, ?_⟩
      intro nb t hna
      obtain ⟨r1, e1, e2⟩ := wireRT_newU32 v
      exact numericGlue _ _ _ _ _ _ _
        ⟨r1, e1, by rw [e2]; rfl⟩ (Or.inl ⟨rfl, rfl⟩) hprod hdim nb t hna
    | some c =>
      cases c with
      | U8 w => simp [numPairOk] at hg5
      | I8 w => simp [numPairOk] at hg5
      | U16 w => simp [numPairOk] at hg5
      | I16 w => simp [numPairOk] at hg5
      | U32 w =>
        refine ⟨_, rfl, rfl, ?_⟩
        intro nb t hna
        obtain ⟨r1, e1, e2⟩ := wireRT_newU32 v
        obtain ⟨r2, f1, f2⟩ := wireRT_newU32 w
        exact numericGlue _ _ _ _ _ _ _
          ⟨r1, e1, by rw [e2]; rfl⟩
          (Or.inr ⟨_, _, rfl, rfl, r2, f1, by rw [f2]; rfl⟩) hprod hdim nb t hna
      | I32 w => simp [numPairOk] at hg5
      | U64 w => simp [numPairOk] at hg5
      | I64 w => simp [numPairOk] at hg5
      | F32 w => simp [numPairOk] at hg5
      | F64 w => simp [numPairOk] at hg5
      | UTF8 w => simp [numPairOk] at hg5
      | UTF16 w => simp [numPairOk] at hg5
      | BOOL w => simp [numPairOk] at hg5
  | I32 v =>
    cases mc with
    | none =>
      refine ⟨_, rfl, rfl, ?_⟩
      intro nb t hna
      obtain ⟨r1, e1, e2⟩ := wireRT_newI32 v
      exact numericGlue _ _ _ _ _ _ _
        ⟨r1, e1, by rw [e2]; rfl⟩ (Or.inl ⟨rfl, rfl⟩) hprod hdim nb t hna
    | some c =>
      cases c with
      | U8 w => simp [numPairOk] at hg5
      | I8 w => simp [numPairOk] at hg5
      | U16 w => simp [numPairOk] at hg5
      | I16 w => simp [numPairOk] at hg5
      | U32 w => simp [numPairOk] at hg5
      | I32 w =>
        refine ⟨_, rfl, rfl, ?_⟩
        intro nb t hna
        obtain ⟨r1, e1, e2⟩ := wireRT_newI32 v
        obtain ⟨r2, f1, f2⟩ := wireRT_newI32 w
        exact numericGlue _ _ _ _ _ _ _
          ⟨r1, e1, by rw [e2]; rfl⟩
          (Or.inr ⟨_, _, rfl, rfl, r2, f1, by rw [f2]; rfl⟩) hprod hdim nb t hna
      | U64 w => simp [numPairOk] at hg5
      | I64 w => simp [numPairOk] at hg5
      | F32 w => simp [numPairOk] at hg5
      | F64 w => simp [numPairOk] at hg5
      | UTF8 w => simp [numPairOk] at hg5
      | UTF16 w => simp [numPairOk] at hg5
      | BOOL w => simp [numPairOk] at hg5
  | U64 v =>
    cases mc with
    | none =>
      refine ⟨_, rfl, rfl, ?_⟩
      intro nb t hna
      obtain ⟨r1, e1, e2⟩ := wireRT_newU64 v
      exact numericGlue _ _ _ _ _ _ _
        ⟨r1, e1, by rw [e2]; rfl⟩ (Or.inl ⟨rfl, rfl⟩) hprod hdim nb t hna
    | some c =>
      cases c with
      | U8 w => simp [numPairOk] at hg5
      | I8 w => simp [numPairOk] at hg5
      | U16 w => simp [numPairOk] at hg5
      | I16 w => simp [numPairOk] at hg5
      | U32 w => simp [numPairOk] at hg5
      | I32 w => simp [numPairOk] at hg5
      | U64 w =>
        refine ⟨_, rfl, rfl, ?_⟩
        intro nb t hna
        obtain ⟨r1, e1, e2⟩ := wireRT_newU64 v
        obtain ⟨r2, f1, f2⟩ := wireRT_newU64 w
        exact numericGlue _ _ _ _ _ _ _
          ⟨r1, e1, by rw [e2]; rfl⟩
          (Or.inr ⟨_, _, rfl, rfl, r2, f1, by rw [f2]; rfl⟩) hprod hdim nb t hna
      | I64 w => simp [numPairOk] at hg5
      | F32 w => simp [numPairOk] at hg5
      | F64 w => simp [numPairOk] at hg5
      | UTF8 w => simp [numPairOk] at hg5
      | UTF16 w => simp [numPairOk] at hg5
      | BOOL w => simp [numPairOk] at hg5
  | I64 v =>
    cases mc with
    | none =>
      refine ⟨_, rfl, rfl, ?_⟩
      intro nb t hna
      obtain ⟨r1, e1, e2⟩ := wireRT_newI64 v
      exact numericGlue _ _ _ _ _ _ _
        ⟨r1, e1, by rw [e2]; rfl⟩ (Or.inl ⟨rfl, rfl⟩) hprod hdim nb t hna
    | some c =>
      cases c with
      | U8 w => simp [numPairOk] at hg5
      | I8 w => simp [numPairOk] at hg5
      | U16 w => simp [numPairOk] at hg5
      | I16 w => simp [numPairOk] at hg5
      | U32 w => simp [numPairOk] at hg5
      | I32 w => simp [numPairOk] at hg5
      | U64 w => simp [numPairOk] at hg5
      | I64 w =>
        refine ⟨_, rfl, rfl, ?_⟩
        intro nb t hna
        obtain ⟨r1, e1, e2⟩ := wireRT_newI64 v
        obtain ⟨r2, f1, f2⟩ := wireRT_newI64 w
        exact numericGlue _ _ _ _ _ _ _
          ⟨r1, e1, by rw [e2]; rfl⟩
          (Or.inr ⟨_, _, rfl, rfl, r2, f1, by rw [f2]; rfl⟩) hprod hdim nb t hna
      | F32 w => simp [numPairOk] at hg5
      | F64 w => simp [numPairOk] at hg5
      | UTF8 w => simp [numPairOk] at hg5
      | UTF16 w => simp [numPairOk] at hg5
      | BOOL w => simp [numPairOk] at hg5
  | F32 v =>
    cases mc with
    | none =>
      refine ⟨_, rfl, rfl, ?_⟩
      intro nb t hna
      obtain ⟨r1, e1, e2⟩ := wireRT_newF32 v
      exact numericGlue _ _ _ _ _ _ _
        ⟨r1, e1, by rw [e2]; rfl⟩ (Or.inl ⟨rfl, rfl⟩) hprod hdim nb t hna
    | some c =>
      cases c with
      | U8 w => simp [numPairOk] at hg5
      | I8 w => simp [numPairOk] at hg5
      | U16 w => simp [numPairOk] at hg5
      | I16 w => simp [numPairOk] at hg5
      | U32 w => simp [numPairOk] at hg5
      | I32 w => simp [numPairOk] at hg5
      | U64 w => simp [numPairOk] at hg5
      | I64 w => simp [numPairOk] at hg5
      | F32 w =>
        refine ⟨_, rfl, rfl, ?_⟩
        intro nb t hna
        obtain ⟨r1, e1, e2⟩ := wireRT_newF32 v
        obtain ⟨r2, f1, f2⟩ := wireRT_newF32 w
        exact numericGlue _ _ _ _ _ _ _
          ⟨r1, e1, by rw [e2]; rfl⟩
          (Or.inr ⟨_, _, rfl, rfl, r2, f1, by rw [f2]; rfl⟩) hprod hdim nb t hna
      | F64 w => simp [numPairOk] at hg5
      | UTF8 w => simp [numPairOk] at hg5
      | UTF16 w => simp [numPairOk] at hg5
      | BOOL w => simp [numPairOk] at hg5
  | F64 v =>
    cases mc with
    | none =>
      refine ⟨_, rfl, rfl, ?_⟩
      intro nb t hna
      obtain ⟨r1, e1, e2⟩ := wireRT_newF64 v
      exact numericGlue _ _ _ _ _ _ _
        ⟨r1, e1, by rw [e2]; rfl⟩ (Or.inl ⟨rfl, rfl⟩) hprod hdim nb t hna
    | some c =>
      cases c with
      | U8 w => simp [numPairOk] at hg5
      | I8 w => simp [numPairOk] at hg5
      | U16 w => simp [numPairOk] at hg5
      | I16 w => simp [numPairOk] at hg5
      | U32 w => simp [numPairOk] at hg5
      | I32 w => simp [numPairOk] at hg5
      | U64 w => simp [numPairOk] at hg5
      | I64 w => simp [numPairOk] at hg5
      | F32 w => simp [numPairOk] at hg5
      | F64 w =>
        refine ⟨_, rfl, rfl, ?_⟩
        intro nb t hna
        obtain ⟨r1, e1, e2⟩ := wireRT_newF64 v
        obtain ⟨r2, f1, f2⟩ := wireRT_newF64 w
        exact numericGlue _ _ _ _ _ _ _
          ⟨r1, e1, by rw [e2]; rfl⟩
          (Or.inr ⟨_, _, rfl, rfl, r2, f1, by rw [f2]; rfl⟩) hprod hdim nb t hna
      | UTF8 w => simp [numPairOk] at hg5
      | UTF16 w => simp [numPairOk] at hg5
      | BOOL w => simp [numPairOk] at hg5
  | UTF8 v =>
    cases mc with
    | none =>
      refine ⟨_, rfl, rfl, ?_⟩
      intro nb t hna
      have hascii : ∀ c ∈ v, c.toNat < 0x80 := by simpa [numPairOk] using hg5
      obtain ⟨r1, e1, e2⟩ := wireRT_newChar v hascii
      exact numericGlue _ _ _ _ _ _ _
        ⟨r1, e1, by rw [e2]; rfl⟩ (Or.inl ⟨rfl, rfl⟩) hprod hdim nb t hna
    | some c => cases c <;> simp [numPairOk] at hg5
  | UTF16 v =>
    cases mc with
    | none => simp [numPairOk] at hg5
    | some c => cases c <;> simp [numPairOk] at hg5
  | BOOL v =>
    cases mc with
    | none =>
      refine ⟨_, rfl, rfl, ?_⟩
      intro nb t hna
      obtain ⟨r1, e1, e2⟩ := wireRT_newBool v
      exact numericGlue _ _ _ _ _ _ _
        ⟨r1, e1, by rw [e2]; rfl⟩ (Or.inl ⟨rfl, rfl⟩) hprod hdim nb t hna
    | some c => cases c <;> simp [numPairOk] at hg5

end Matrw

namespace Matrw

/-- The (value, imaginary) buffer pairs `From<SparseArray>` supports. -/
def sparsePairOk : MatlabType → Option MatlabType → Prop
  | .F64 _, none => True
  | .F64 _, some (.F64 _) => True
  | .BOOL _, none => True
  | _, _ => False

/-- A sparse array the v7 writer stores losslessly. -/
def GoodSparse (s : SparseArray) : Prop :=
  (∀ x ∈ s.dim, x < 2 ^ 32) ∧ (∀ x ∈ s.ir, x < 2 ^ 32) ∧
  (∀ x ∈ s.jc, x < 2 ^ 32) ∧ s.ir.length = s.value.len ∧
  s.is_comp = s.value_cmp.isSome ∧ sparsePairOk s.value s.value_cmp ∧
  sparseNullType s.value s.is_comp = .ok s.null_type

theorem sparseGlue (lg : Bool) (d ir jc : List Nat)
    (vb : ArrayDataSparse) (cb : Option ArrayDataSparse)
    (mt : MatlabType) (mtc : Option MatlabType) (nt : NumericArray) (nz : Nat)
    (hv : ∃ r, wireRTArrayDataSparse lg vb = .ok r ∧
      advarToMatlabType r.array_data_value_var = mt)
    (hc : (cb = none ∧ mtc = none) ∨
      (∃ cbb mc, cb = some cbb ∧ mtc = some mc ∧
        ∃ r, wireRTArrayDataSparse lg cbb = .ok r ∧
          advarToMatlabType r.array_data_value_var = mc))
    (hlen : ¬(d ≠ [] ∧ ir.length ≠ mt.len))
    (hnull : sparseNullType mt cb.isSome = .ok nt)
    (nb : ArrayName) (t : String) (hna : nb.name = .ok t) :
    ∃ x', wireRTVar (.Sparse ⟨⟨.MxSPARSECLASS, cb.isSome, false, lg, nz⟩,
        ArrayDimensions.new d, nb, ArrayDimensions.new ir,
        ArrayDimensions.new jc, vb, cb⟩) = .ok (.Sparse x') ∧
      x'.name = nb ∧
      fromMatVariable7 (.Sparse x')
        = .ok (.SparseArray ⟨d, ir, jc, cb.isSome, nt, mt, mtc⟩) := by
  obtain ⟨rv, hrv, hvar⟩ := hv
  rcases hc with ⟨hcb, hmtc⟩ | ⟨cbb, mc, hcb, hmtc, rc, hrc, hcvar⟩
  · subst hcb
    subst hmtc
    rw [wireRTVar]
    dsimp only
    rw [hrv]
    simp only [RRes.bind_ok]
    refine ⟨_, rfl, rfl, ?_⟩
    rw [fromMatVariable7]
    unfold fromSparseArray7
    dsimp only
    rw [hna]
    simp only [PRes.bind_okP, ArrayDimensions_new_dim, hvar, Option.map_none',
      Option.isSome_none]
    unfold SparseArray.new
    rw [if_neg hlen]
    rw [show sparseNullType mt false = .ok nt from hnull]
    rfl
  · subst hcb
    subst hmtc
    rw [wireRTVar]
    dsimp only
    rw [hrv]
    simp only [RRes.bind_ok, Option.isSome_some]
    rw [hrc]
    simp only [RRes.map_ok, RRes.bind_ok]
    refine ⟨_, rfl, rfl, ?_⟩
    rw [fromMatVariable7]
    unfold fromSparseArray7
    dsimp only
    rw [hna]
    simp only [PRes.bind_okP, ArrayDimensions_new_dim, hvar]
    unfold SparseArray.new
    rw [if_neg hlen]
    simp only [Option.map_some', Option.isSome_some]
    rw [show sparseNullType mt true = .ok nt from hnull]
    simp [hcvar]

theorem sparseRT (s : SparseArray) (hg : GoodSparse s) :
    ∃ x, toSparseArray7 s = .ok x ∧ x.name = ArrayName.new "" ∧
      ∀ (nb : ArrayName) (t : String), nb.name = .ok t →
        ∃ x', wireRTVar (.Sparse { x with name := nb }) = .ok (.Sparse x') ∧
          x'.name = nb ∧
          fromMatVariable7 (.Sparse x') = .ok (.SparseArray s) := by
  obtain ⟨d, ir, jc, ic, nt, mv, mc⟩ := s
  obtain ⟨hd32, hir32, hjc32, hlen, hic, hpair, hnull⟩ := hg
  dsimp only at hd32 hir32 hjc32 hlen hic hpair hnull
  have hd := dims_mod_id d hd32
  have hi := dims_mod_id ir hir32
  have hj := dims_mod_id jc hjc32
  have hlen' : ¬(d ≠ [] ∧ ir.length ≠ mv.len) := fun h => h.2 hlen
  unfold toSparseArray7
  dsimp only
  rw [hd, hi, hj]
  cases mv with
  | F64 v =>
    cases mc with
    | none =>
      simp only [Option.isSome_none] at hic
      subst hic
      refine ⟨_, rfl, rfl, ?_⟩
      intro nb t hna
      exact sparseGlue false d ir jc (ArrayDataSparse.newF64 v) none
        (.F64 v) none nt _
        ⟨_, wireRT_sparse_f64 v, rfl⟩ (Or.inl ⟨rfl, rfl⟩) hlen' hnull nb t hna
    | some c =>
      cases c with
      | F64 w =>
        simp only [Option.isSome_some] at hic
        subst hic
        refine ⟨_, rfl, rfl, ?_⟩
        intro nb t hna
        exact sparseGlue false d ir jc (ArrayDataSparse.newF64 v)
          (some (ArrayDataSparse.newF64 w)) (.F64 v) (some (.F64 w)) nt _
          ⟨_, wireRT_sparse_f64 v, rfl⟩
          (Or.inr ⟨_, _, rfl, rfl, _, wireRT_sparse_f64 w, rfl⟩)
          hlen' hnull nb t hna
      | U8 w => simp [sparsePairOk] at hpair
      | I8 w => simp [sparsePairOk] at hpair
      | U16 w => simp [sparsePairOk] at hpair
      | I16 w => simp [sparsePairOk] at hpair
      | U32 w => simp [sparsePairOk] at hpair
      | I32 w => simp [sparsePairOk] at hpair
      | U64 w => simp [sparsePairOk] at hpair
      | I64 w => simp [sparsePairOk] at hpair
      | F32 w => simp [sparsePairOk] at hpair
      | UTF8 w => simp [sparsePairOk] at hpair
      | UTF16 w => simp [sparsePairOk] at hpair
      | BOOL w => simp [sparsePairOk] at hpair
  | BOOL v =>
    cases mc with
    | none =>
      simp only [Option.isSome_none] at hic
      subst hic
      refine ⟨_, rfl, rfl, ?_⟩
      intro nb t hna
      obtain ⟨r1, e1, e2⟩ := wireRT_sparse_bool v
      exact sparseGlue true d ir jc (ArrayDataSparse.newBool v) none
        (.BOOL v) none nt _
        ⟨r1, e1, by rw [e2]; rfl⟩ (Or.inl ⟨rfl, rfl⟩) hlen' hnull nb t hna
    | some c => cases c <;> simp [sparsePairOk] at hpair
  | U8 v => cases mc with
    | none => simp [sparsePairOk] at hpair
    | some c => cases c <;> simp [sparsePairOk] at hpair
  | I8 v => cases mc with
    | none => simp [sparsePairOk] at hpair
    | some c => cases c <;> simp [sparsePairOk] at hpair
  | U16 v => cases mc with
    | none => simp [sparsePairOk] at hpair
    | some c => cases c <;> simp [sparsePairOk] at hpair
  | I16 v => cases mc with
    | none => simp [sparsePairOk] at hpair
    | some c => cases c <;> simp [sparsePairOk] at hpair
  | U32 v => cases mc with
    | none => simp [sparsePairOk] at hpair
    | some c => cases c <;> simp [sparsePairOk] at hpair
  | I32 v => cases mc with
    | none => simp [sparsePairOk] at hpair
    | some c => cases c <;> simp [sparsePairOk] at hpair
  | U64 v => cases mc with
    | none => simp [sparsePairOk] at hpair
    | some c => cases c <;> simp [sparsePairOk] at hpair
  | I64 v => cases mc with
    | none => simp [sparsePairOk] at hpair
    | some c => cases c <;> simp [sparsePairOk] at hpair
  | F32 v => cases mc with
    | none => simp [sparsePairOk] at hpair
    | some c => cases c <;> simp [sparsePairOk] at hpair
  | UTF8 v => cases mc with
    | none => simp [sparsePairOk] at hpair
    | some c => cases c <;> simp [sparsePairOk] at hpair
  | UTF16 v => cases mc with
    | none => simp [sparsePairOk] at hpair
    | some c => cases c <;> simp [sparsePairOk] at hpair

end Matrw

namespace Matrw

theorem AFN_field_number (l : List String) :
    (ArrayFieldNames.new l).field_number = l.length := by
  unfold ArrayFieldNames.new
  split
  · rfl
  · next h =>
    have hnil : l = [] := not_ne_iff.mp h
    subst hnil
    rfl

theorem zip_fst_snd {α β : Type} (m : List (α × β)) :
    (m.map Prod.fst).zip (m.map Prod.snd) = m := by
  rw [List.zip_map']
  simp

theorem forall2_eq_map {α β : Type} (g : α → β) (l : List α) (l' : List β)
    (h : List.Forall₂ (fun a b => b = g a) l l') : l' = l.map g := by
  induction h with
  | nil => rfl
  | cons hq _ ih => rw [List.map_cons, ih, hq]

theorem mapM_append_rres {α β : Type} (l1 l2 : List α) (g : α → RRes β)
    (r1 r2 : List β) (h1 : l1.mapM g = .ok r1) (h2 : l2.mapM g = .ok r2) :
    (l1 ++ l2).mapM g = .ok (r1 ++ r2) := by
  induction l1 generalizing r1 with
  | nil =>
    simp only [List.mapM_nil] at h1
    cases h1
    simpa using h2
  | cons x xs ih =>
    rw [List.mapM_cons] at h1
    cases hx : g x with
    | ok y =>
      rw [hx] at h1
      simp only [RRes.bind_ok] at h1
      cases hxs : xs.mapM g with
      | ok ys =>
        rw [hxs] at h1
        simp only [RRes.bind_ok, RRes.pure_eq] at h1
        cases h1
        rw [List.cons_append, List.mapM_cons, hx]
        simp only [RRes.bind_ok]
        rw [ih ys hxs]
        rfl
      | err e => rw [hxs] at h1; simp at h1
      | panicked => rw [hxs] at h1; simp at h1
    | err e => rw [hx] at h1; simp at h1
    | panicked => rw [hx] at h1; simp at h1

theorem mapM_append_pres {α β : Type} (l1 l2 : List α) (g : α → PRes β)
    (r1 r2 : List β) (h1 : l1.mapM g = .ok r1) (h2 : l2.mapM g = .ok r2) :
    (l1 ++ l2).mapM g = .ok (r1 ++ r2) := by
  induction l1 generalizing r1 with
  | nil =>
    simp only [List.mapM_nil] at h1
    cases h1
    simpa using h2
  | cons x xs ih =>
    rw [List.mapM_cons] at h1
    cases hx : g x with
    | ok y =>
      rw [hx] at h1
      simp only [PRes.bind_okP] at h1
      cases hxs : xs.mapM g with
      | ok ys =>
        rw [hxs] at h1
        simp only [PRes.bind_okP, PRes.pure_eqP] at h1
        cases h1
        rw [List.cons_append, List.mapM_cons, hx]
        simp only [PRes.bind_okP]
        rw [ih ys hxs]
        rfl
      | panicked => rw [hxs] at h1; simp at h1
    | panicked => rw [hx] at h1; simp at h1

theorem mapM_flatten_rres {α β : Type} (chunks : List (List α))
    (g : α → RRes β) (res : List (List β))
    (h : List.Forall₂ (fun ch rs => ch.mapM g = .ok rs) chunks res) :
    chunks.flatten.mapM g = .ok res.flatten := by
  induction h with
  | nil => rfl
  | cons hq hrest ih =>
    rw [List.flatten_cons, List.flatten_cons]
    exact mapM_append_rres _ _ g _ _ hq ih

theorem mapM_flatten_pres {α β : Type} (chunks : List (List α))
    (g : α → PRes β) (res : List (List β))
    (h : List.Forall₂ (fun ch rs => ch.mapM g = .ok rs) chunks res) :
    chunks.flatten.mapM g = .ok res.flatten := by
  induction h with
  | nil => rfl
  | cons hq hrest ih =>
    rw [List.flatten_cons, List.flatten_cons]
    exact mapM_append_pres _ _ g _ _ hq ih

theorem length_flatten_const {α : Type} (chunks : List (List α)) (k : Nat)
    (h : ∀ ch ∈ chunks, ch.length = k) :
    chunks.flatten.length = chunks.length * k := by
  induction chunks with
  | nil => simp
  | cons ch rest ih =>
    rw [List.flatten_cons, List.length_append,
      h ch (List.mem_cons_self ch rest),
      ih (fun z hz => h z (List.mem_cons_of_mem ch hz))]
    simp only [List.length_cons]
    ring

theorem groupCells_flatten (f : List String) (hf : f ≠ [])
    (chunks : List (List MatVariable))
    (h : ∀ ch ∈ chunks, ch.length = f.length) :
    groupCells f chunks.flatten = .ok (chunks.map (fun ch =>
      .Structure ((f.zip ch).foldl (fun m p => indexMapInsert m p.1 p.2) []))) := by
  induction chunks with
  | nil =>
    simp only [List.flatten_nil, List.map_nil]
    rw [groupCells]
  | cons ch rest ih =>
    have hch := h ch (List.mem_cons_self ch rest)
    have hfpos : 0 < f.length := List.length_pos.mpr hf
    obtain ⟨x, ch', rfl⟩ : ∃ x ch', ch = x :: ch' := by
      cases ch with
      | nil => simp at hch; omega
      | cons a b => exact ⟨a, b, rfl⟩
    rw [List.flatten_cons, List.cons_append, groupCells]
    rw [if_neg (by omega)]
    rw [if_neg (by
      simp only [not_lt, List.length_cons, List.length_append]
      simp only [List.length_cons] at hch
      omega)]
    have hdrop : ((x :: ch') ++ rest.flatten).drop f.length = rest.flatten := by
      rw [← hch, List.drop_left]
    have htake : ((x :: ch') ++ rest.flatten).take f.length = x :: ch' := by
      rw [← hch, List.take_left]
    simp only [← List.cons_append]
    rw [hdrop, htake]
    rw [ih (fun z hz => h z (List.mem_cons_of_mem _ hz))]
    simp only [PRes.bind_okP]
    rfl

end Matrw

namespace Matrw

theorem forall2_mem_right {α β : Type} {Q : α → β → Prop}
    {l : List α} {l' : List β} (h : List.Forall₂ Q l l') :
    ∀ b ∈ l', ∃ a, a ∈ l ∧ Q a b := by
  induction h with
  | nil => intro b hb; exact absurd hb (List.not_mem_nil b)
  | cons hq hrest ih =>
    intro b hb
    rcases List.mem_cons.mp hb with rfl | hb2
    · exact ⟨_, List.mem_cons_self _ _, hq⟩
    · obtain ⟨a, ha, hqa⟩ := ih b hb2
      exact ⟨a, List.mem_cons_of_mem _ ha, hqa⟩

theorem mapM_length_pres {α β : Type} (l : List α) (g : α → PRes β)
    (r : List β) (h : l.mapM g = .ok r) : r.length = l.length := by
  induction l generalizing r with
  | nil => simp only [List.mapM_nil] at h; cases h; rfl
  | cons x xs ih =>
    rw [List.mapM_cons] at h
    cases hx : g x with
    | ok y =>
      rw [hx] at h
      simp only [PRes.bind_okP] at h
      cases hxs : xs.mapM g with
      | ok ys =>
        rw [hxs] at h
        simp only [PRes.bind_okP, PRes.pure_eqP] at h
        cases h
        simp [ih ys hxs]
      | panicked => rw [hxs] at h; simp at h
    | panicked => rw [hx] at h; simp at h

theorem mapM_length_rres {α β : Type} (l : List α) (g : α → RRes β)
    (r : List β) (h : l.mapM g = .ok r) : r.length = l.length := by
  induction l generalizing r with
  | nil => simp only [List.mapM_nil] at h; cases h; rfl
  | cons x xs ih =>
    rw [List.mapM_cons] at h
    cases hx : g x with
    | ok y =>
      rw [hx] at h
      simp only [RRes.bind_ok] at h
      cases hxs : xs.mapM g with
      | ok ys =>
        rw [hxs] at h
        simp only [RRes.bind_ok, RRes.pure_eq] at h
        cases h
        simp [ih ys hxs]
      | err e => rw [hxs] at h; simp at h
      | panicked => rw [hxs] at h; simp at h
    | err e => rw [hx] at h; simp at h
    | panicked => rw [hx] at h; simp at h

theorem foldl_insert_zip_comm (us : List MatVariable) (ks : List String)
    (acc : List (String × MatVariable)) :
    (us.zip ks).foldl (fun m p => indexMapInsert m p.2 p.1) acc
      = (ks.zip us).foldl (fun m p => indexMapInsert m p.1 p.2) acc := by
  have h1 : (us.zip ks).foldl (fun m p => indexMapInsert m p.2 p.1) acc
      = ((us.zip ks).map Prod.swap).foldl
        (fun m p => indexMapInsert m p.1 p.2) acc := by
    rw [List.foldl_map]
    rfl
  rw [h1, List.zip_swap]

theorem forall2_eq_map_left {α β : Type} (g : β → α) (l : List α)
    (l' : List β) (h : List.Forall₂ (fun a b => a = g b) l l') :
    l = l'.map g := by
  induction h with
  | nil => rfl
  | cons hq _ ih => rw [List.map_cons, ← ih, hq]

/-- The class of variables the save-then-load composition restores exactly
(well-formedness per spec section 3: consistent dimensions, nonempty
buffers, ASCII scalars where the writer would drop or reject others,
distinct field names, structure-array cells sharing one field order). -/
inductive Good : MatVariable → Prop where
  | num (a : NumericArray) : GoodNum a → Good (.NumericArray a)
  | sparse (s : SparseArray) : GoodSparse s → Good (.SparseArray s)
  | struct (m : List (String × MatVariable)) :
      (m.map Prod.fst).Nodup →
      (∀ p ∈ m, GoodFieldName p.1) →
      (∀ p ∈ m, Good p.2) → Good (.Structure m)
  | cellArr (d : List Nat) (vs : List MatVariable) :
      (∀ x ∈ d, x < 2 ^ 32) → d.prod = vs.length →
      (∀ v ∈ vs, Good v) → Good (.CellArray d vs)
  | structArr (d : List Nat) (f : List String) (vs : List MatVariable) :
      (∀ x ∈ d, x < 2 ^ 32) → d.prod = vs.length → f ≠ [] → f.Nodup →
      (∀ s ∈ f, GoodFieldName s) →
      (∀ v ∈ vs, ∃ m, v = .Structure m ∧ m.map Prod.fst = f) →
      (∀ v ∈ vs, Good v) → Good (.StructureArray d f vs)

end Matrw

namespace Matrw

set_option maxHeartbeats 1000000

/-- Per-variable save-then-load round trip for well-formed variables: the
write-side conversion succeeds, the wire record round trips through the
byte layer, and the read-side conversion restores the variable exactly —
both for the bare record and after naming it with any ASCII key. -/
theorem varRT (v : MatVariable) (hg : Good v) :
    ∃ w7, toMatVariable7 v = .ok w7 ∧
      (∃ r, wireRTVar w7 = .ok r ∧ fromMatVariable7 r = .ok v) ∧
      (∀ nm : String, (∀ c ∈ nm.data, c.toNat < 0x80) →
        ∃ w7' r', w7.set_name nm = .ok w7' ∧ wireRTVar w7' = .ok r' ∧
          r'.name7 = .ok nm ∧ fromMatVariable7 r' = .ok v) := by
  induction hg with
  | num a hga =>
    obtain ⟨x, hx, hxn, hrest⟩ := numericRT a hga
    refine ⟨.Numeric x, ?_, ?_, ?_⟩
    · rw [toMatVariable7, hx]
      rfl
    · obtain ⟨x', hw, _, hfrom⟩ := hrest x.name "" (by rw [hxn]; rfl)
      exact ⟨.Numeric x', hw, hfrom⟩
    · intro nm hnm
      obtain ⟨x', hw, hxn', hfrom⟩ := hrest (ArrayName.new nm) nm
        (ArrayName_roundtrip nm hnm)
      refine ⟨.Numeric { x with name := ArrayName.new nm }, .Numeric x',
        rfl, hw, ?_, hfrom⟩
      show x'.name.name = PRes.ok nm
      rw [hxn']
      exact ArrayName_roundtrip nm hnm
  | sparse s hgs =>
    obtain ⟨x, hx, hxn, hrest⟩ := sparseRT s hgs
    refine ⟨.Sparse x, ?_, ?_, ?_⟩
    · rw [toMatVariable7, hx]
      rfl
    · obtain ⟨x', hw, _, hfrom⟩ := hrest x.name "" (by rw [hxn]; rfl)
      exact ⟨.Sparse x', hw, hfrom⟩
    · intro nm hnm
      obtain ⟨x', hw, hxn', hfrom⟩ := hrest (ArrayName.new nm) nm
        (ArrayName_roundtrip nm hnm)
      refine ⟨.Sparse { x with name := ArrayName.new nm }, .Sparse x',
        rfl, hw, ?_, hfrom⟩
      show x'.name.name = PRes.ok nm
      rw [hxn']
      exact ArrayName_roundtrip nm hnm
  | struct m hnd hfn hkids ih =>
    have hpoint : ∀ p ∈ m, ∃ w, toMatVariable7 p.2 = .ok w ∧
        (∃ r, wireRTVar w = .ok r ∧ fromMatVariable7 r = .ok p.2) := by
      intro p hp
      obtain ⟨w, hw, hplain, _⟩ := ih p hp
      exact ⟨w, hw, hplain⟩
    obtain ⟨ws, hws, hf2⟩ := mapM_ok_pointwise_pres
      (fun p w => ∃ r, wireRTVar w = .ok r ∧ fromMatVariable7 r = .ok p.2)
      m (fun p => toMatVariable7 p.2) hpoint
    have hlen : ws.length = m.length := (List.Forall₂.length_eq hf2).symm
    have hto : toMatVariable7 (.Structure m)
        = .ok (.Structure (ArrayName.new "")
          (ArrayFieldNames.new (m.map Prod.fst)) ws) := by
      rw [toMatVariable7]
      rw [show m.attach.mapM (fun p => toMatVariable7 p.1.2)
          = m.mapM (fun p => toMatVariable7 p.2) from
          mapM_attach_pres m (fun p => toMatVariable7 p.2)]
      rw [hws]
      rfl
    have key : ∀ (na : ArrayName) (t : String), na.name = .ok t →
        ∃ r', wireRTVar (.Structure na (ArrayFieldNames.new (m.map Prod.fst)) ws)
          = .ok r' ∧ r'.name7 = .ok t ∧
          fromMatVariable7 r' = .ok (.Structure m) := by
      intro na t hna
      obtain ⟨rs, hrs, hf3⟩ := mapM_ok_forall2_rres
        (fun p w => ∃ r, wireRTVar w = .ok r ∧ fromMatVariable7 r = .ok p.2)
        (fun p r => fromMatVariable7 r = .ok p.2)
        m ws wireRTVar hf2 (fun p w hq => hq)
      refine ⟨.Structure na (ArrayFieldNames.new (m.map Prod.fst)) rs, ?_, hna, ?_⟩
      · rw [wireRTVar]
        rw [if_pos (by rw [AFN_field_number, hlen, List.length_map])]
        rw [show ws.attach.mapM (fun x => wireRTVar x.1)
            = ws.mapM wireRTVar from mapM_attach_rres ws wireRTVar]
        rw [hrs]
        rfl
      · rw [fromMatVariable7]
        rw [ArrayFieldNames_roundtrip (m.map Prod.fst) (by
          intro q hq
          obtain ⟨p, hp, rfl⟩ := List.mem_map.mp hq
          exact hfn p hp)]
        simp only [PRes.bind_okP]
        obtain ⟨us, hus, hf4⟩ := mapM_ok_forall2_pres
          (fun p r => fromMatVariable7 r = .ok p.2) (fun p u => u = p.2)
          m rs fromMatVariable7 hf3 (fun p r hr => ⟨p.2, hr, rfl⟩)
        rw [show rs.attach.mapM (fun x => fromMatVariable7 x.1)
            = rs.mapM fromMatVariable7 from mapM_attach_pres rs fromMatVariable7]
        rw [hus]
        simp only [PRes.bind_okP]
        rw [forall2_eq_map Prod.snd m us hf4]
        rw [foldl_insert_swapped (m.map Prod.snd) (m.map Prod.fst) (by simp) hnd]
        rw [zip_fst_snd]
        rfl
    refine ⟨_, hto, ?_, ?_⟩
    · obtain ⟨r', hw, _, hfrom⟩ := key (ArrayName.new "") "" (by rfl)
      exact ⟨r', hw, hfrom⟩
    · intro nm hnm
      obtain ⟨r', hw, hn7, hfrom⟩ := key (ArrayName.new nm) nm
        (ArrayName_roundtrip nm hnm)
      exact ⟨.Structure (ArrayName.new nm)
        (ArrayFieldNames.new (m.map Prod.fst)) ws, r', rfl, hw, hn7, hfrom⟩
  | cellArr d vs h32 hprod hkids ih =>
    have hpoint : ∀ v ∈ vs, ∃ w, toMatVariable7 v = .ok w ∧
        (∃ r, wireRTVar w = .ok r ∧ fromMatVariable7 r = .ok v) := by
      intro v hv
      obtain ⟨w, hw, hplain, _⟩ := ih v hv
      exact ⟨w, hw, hplain⟩
    obtain ⟨ws, hws, hf2⟩ := mapM_ok_pointwise_pres
      (fun v w => ∃ r, wireRTVar w = .ok r ∧ fromMatVariable7 r = .ok v)
      vs toMatVariable7 hpoint
    have hlen : ws.length = vs.length := (List.Forall₂.length_eq hf2).symm
    have hto : toMatVariable7 (.CellArray d vs)
        = .ok (.Cell (ArrayDimensions.new d) (ArrayName.new "") ws) := by
      rw [toMatVariable7]
      rw [show vs.attach.mapM (fun x => toMatVariable7 x.1)
          = vs.mapM toMatVariable7 from mapM_attach_pres vs toMatVariable7]
      rw [hws, dims_mod_id d h32]
      rfl
    have key : ∀ (na : ArrayName) (t : String), na.name = .ok t →
        ∃ r', wireRTVar (.Cell (ArrayDimensions.new d) na ws) = .ok r' ∧
          r'.name7 = .ok t ∧ fromMatVariable7 r' = .ok (.CellArray d vs) := by
      intro na t hna
      obtain ⟨rs, hrs, hf3⟩ := mapM_ok_forall2_rres
        (fun v w => ∃ r, wireRTVar w = .ok r ∧ fromMatVariable7 r = .ok v)
        (fun v r => fromMatVariable7 r = .ok v)
        vs ws wireRTVar hf2 (fun v w hq => hq)
      refine ⟨.Cell (ArrayDimensions.new d) na rs, ?_, hna, ?_⟩
      · rw [wireRTVar]
        rw [if_pos (by rw [ArrayDimensions_new_dim, hlen, hprod])]
        rw [show ws.attach.mapM (fun x => wireRTVar x.1)
            = ws.mapM wireRTVar from mapM_attach_rres ws wireRTVar]
        rw [hrs]
        rfl
      · rw [fromMatVariable7]
        obtain ⟨us, hus, hf4⟩ := mapM_ok_forall2_pres
          (fun v r => fromMatVariable7 r = .ok v) (fun v u => u = v)
          vs rs fromMatVariable7 hf3 (fun v r hr => ⟨v, hr, rfl⟩)
        rw [show rs.attach.mapM (fun x => fromMatVariable7 x.1)
            = rs.mapM fromMatVariable7 from mapM_attach_pres rs fromMatVariable7]
        rw [hus]
        simp only [PRes.bind_okP]
        rw [forall2_eq_right vs us hf4, ArrayDimensions_new_dim]
        rfl
    refine ⟨_, hto, ?_, ?_⟩
    · obtain ⟨r', hw, _, hfrom⟩ := key (ArrayName.new "") "" (by rfl)
      exact ⟨r', hw, hfrom⟩
    · intro nm hnm
      obtain ⟨r', hw, hn7, hfrom⟩ := key (ArrayName.new nm) nm
        (ArrayName_roundtrip nm hnm)
      exact ⟨.Cell (ArrayDimensions.new d) (ArrayName.new nm) ws, r',
        rfl, hw, hn7, hfrom⟩
  | structArr d f vs h32 hprod hfne hfnd hgf hshape hkids ih =>
    have hchild : ∀ v ∈ vs, ∃ mv ws_v rs_v us_v,
        v = .Structure mv ∧
        toMatVariable7 v = .ok (.Structure (ArrayName.new "")
          (ArrayFieldNames.new f) ws_v) ∧
        ws_v.length = f.length ∧
        ws_v.mapM wireRTVar = .ok rs_v ∧
        rs_v.mapM fromMatVariable7 = .ok us_v ∧
        (f.zip us_v).foldl (fun m p => indexMapInsert m p.1 p.2) [] = mv := by
      intro v hv
      obtain ⟨mv, rfl, hkeys⟩ := hshape v hv
      obtain ⟨w7, hw7, ⟨r, hr, hfrom⟩, _⟩ := ih _ hv
      rw [toMatVariable7] at hw7
      rw [show mv.attach.mapM (fun p => toMatVariable7 p.1.2)
          = mv.mapM (fun p => toMatVariable7 p.2) from
          mapM_attach_pres mv (fun p => toMatVariable7 p.2)] at hw7
      cases hmm : mv.mapM (fun p => toMatVariable7 p.2) with
      | panicked =>
        rw [hmm] at hw7
        simp only [PRes.bind_panickedP] at hw7
        exact PRes.noConfusion hw7
      | ok cvs =>
        rw [hmm] at hw7
        simp only [PRes.bind_okP, PRes.pure_eqP] at hw7
        injection hw7 with hw7eq
        subst hw7eq
        rw [wireRTVar] at hr
        by_cases hcnd : cvs.length
            = (ArrayFieldNames.new (mv.map Prod.fst)).field_number
        case neg =>
          rw [if_neg hcnd] at hr
          exact RRes.noConfusion hr
        rw [if_pos hcnd] at hr
        rw [show cvs.attach.mapM (fun x => wireRTVar x.1)
            = cvs.mapM wireRTVar from mapM_attach_rres cvs wireRTVar] at hr
        cases hmm2 : cvs.mapM wireRTVar with
        | err e =>
          rw [hmm2] at hr
          simp only [RRes.bind_err] at hr
          exact RRes.noConfusion hr
        | panicked =>
          rw [hmm2] at hr
          simp only [RRes.bind_panicked] at hr
          exact RRes.noConfusion hr
        | ok rs_v =>
          rw [hmm2] at hr
          simp only [RRes.bind_ok, RRes.pure_eq] at hr
          injection hr with hreq
          subst hreq
          rw [fromMatVariable7] at hfrom
          rw [ArrayFieldNames_roundtrip (mv.map Prod.fst)
            (by rw [hkeys]; exact hgf)] at hfrom
          simp only [PRes.bind_okP] at hfrom
          rw [show rs_v.attach.mapM (fun x => fromMatVariable7 x.1)
              = rs_v.mapM fromMatVariable7 from
              mapM_attach_pres rs_v fromMatVariable7] at hfrom
          cases hmm3 : rs_v.mapM fromMatVariable7 with
          | panicked =>
            rw [hmm3] at hfrom
            simp only [PRes.bind_panickedP] at hfrom
            exact PRes.noConfusion hfrom
          | ok us_v =>
            rw [hmm3] at hfrom
            simp only [PRes.bind_okP, PRes.pure_eqP] at hfrom
            injection hfrom with hfromeq
            have hfold : (us_v.zip (mv.map Prod.fst)).foldl
                (fun m p => indexMapInsert m p.2 p.1) [] = mv := by
              injection hfromeq
            refine ⟨mv, cvs, rs_v, us_v, rfl, ?_, ?_, hmm2, hmm3, ?_⟩
            · rw [toMatVariable7]
              rw [show mv.attach.mapM (fun p => toMatVariable7 p.1.2)
                  = mv.mapM (fun p => toMatVariable7 p.2) from
                  mapM_attach_pres mv (fun p => toMatVariable7 p.2)]
              rw [hmm, hkeys]
              rfl
            · rw [hcnd, AFN_field_number, hkeys]
            · rw [← hkeys]
              rw [← foldl_insert_zip_comm us_v (mv.map Prod.fst) []]
              exact hfold
    have main : ∀ (vsl : List MatVariable), (∀ v ∈ vsl, v ∈ vs) →
        ∃ chunks rss uss,
          vsl.mapM toMatVariable7 = .ok (chunks.map (fun ch =>
            MatVariable7.Structure (ArrayName.new "")
              (ArrayFieldNames.new f) ch)) ∧
          (∀ ch ∈ chunks, ch.length = f.length) ∧
          List.Forall₂ (fun ch rs => ch.mapM wireRTVar = RRes.ok rs) chunks rss ∧
          List.Forall₂ (fun rs us => rs.mapM fromMatVariable7 = PRes.ok us)
            rss uss ∧
          (∀ us ∈ uss, us.length = f.length) ∧
          List.Forall₂ (fun v us => v = MatVariable.Structure
            ((f.zip us).foldl (fun m p => indexMapInsert m p.1 p.2) []))
            vsl uss := by
      intro vsl
      induction vsl with
      | nil =>
        intro _
        exact ⟨[], [], [], rfl, by simp, .nil, .nil, by simp, .nil⟩
      | cons v t iht =>
        intro hsub
        obtain ⟨mv, ws_v, rs_v, us_v, hveq, hto_v, hlen_v, hwire_v, hfrom_v,
          hfold_v⟩ := hchild v (hsub v (List.mem_cons_self v t))
        obtain ⟨chunks, rss, uss, h1, h2, h3, h4, h5, h6⟩ :=
          iht (fun z hz => hsub z (List.mem_cons_of_mem v hz))
        refine ⟨ws_v :: chunks, rs_v :: rss, us_v :: uss, ?_, ?_,
          .cons hwire_v h3, .cons hfrom_v h4, ?_, .cons ?_ h6⟩
        · rw [List.mapM_cons, hto_v, h1]
          rfl
        · intro ch hch
          rcases List.mem_cons.mp hch with rfl | hch2
          · exact hlen_v
          · exact h2 ch hch2
        · intro us hus
          rcases List.mem_cons.mp hus with rfl | hus2
          · have l1 := mapM_length_pres rs_v fromMatVariable7 _ hfrom_v
            have l2 := mapM_length_rres ws_v wireRTVar rs_v hwire_v
            omega
          · exact h5 us hus2
        · rw [hveq, ← hfold_v]
    obtain ⟨chunks, rss, uss, h1, h2, h3, h4, h5, h6⟩ := main vs (fun v hv => hv)
    have hcnt : chunks.length = vs.length := by
      have := mapM_length_pres vs toMatVariable7 _ h1
      rw [List.length_map] at this
      omega
    have hto : toMatVariable7 (.StructureArray d f vs)
        = .ok (.StructureArray (ArrayDimensions.new d) (ArrayName.new "")
          (ArrayFieldNames.new f) chunks.flatten) := by
      rw [toMatVariable7]
      rw [show vs.attach.mapM (fun x => toMatVariable7 x.1)
          = vs.mapM toMatVariable7 from mapM_attach_pres vs toMatVariable7]
      rw [h1]
      simp only [PRes.bind_okP]
      rw [mapM_map_pres]
      rw [show chunks.mapM (fun ch =>
          match MatVariable7.Structure (ArrayName.new "")
            (ArrayFieldNames.new f) ch with
          | MatVariable7.Structure _ _ vals => (pure vals : PRes _)
          | _ => PRes.panicked) = PRes.ok chunks from
        mapM_ok_id_pres chunks _ (fun ch _ => rfl)]
      simp only [PRes.bind_okP]
      rw [dims_mod_id d h32]
      rfl
    have key : ∀ (na : ArrayName) (t : String), na.name = .ok t →
        ∃ r', wireRTVar (.StructureArray (ArrayDimensions.new d) na
            (ArrayFieldNames.new f) chunks.flatten) = .ok r' ∧
          r'.name7 = .ok t ∧
          fromMatVariable7 r' = .ok (.StructureArray d f vs) := by
      intro na t hna
      have hwflat : chunks.flatten.mapM wireRTVar = .ok rss.flatten :=
        mapM_flatten_rres chunks wireRTVar rss h3
      have hfflat : rss.flatten.mapM fromMatVariable7 = .ok uss.flatten :=
        mapM_flatten_pres rss fromMatVariable7 uss h4
      have e3 := List.Forall₂.length_eq h3
      have e4 := List.Forall₂.length_eq h4
      refine ⟨.StructureArray (ArrayDimensions.new d) na
        (ArrayFieldNames.new f) rss.flatten, ?_, hna, ?_⟩
      · rw [wireRTVar]
        rw [if_pos (by
          rw [ArrayDimensions_new_dim, AFN_field_number]
          rw [length_flatten_const chunks f.length h2, hcnt, hprod])]
        rw [show chunks.flatten.attach.mapM (fun x => wireRTVar x.1)
            = chunks.flatten.mapM wireRTVar from
            mapM_attach_rres chunks.flatten wireRTVar]
        rw [hwflat]
        rfl
      · rw [fromMatVariable7]
        rw [ArrayFieldNames_roundtrip f hgf]
        simp only [PRes.bind_okP]
        rw [show rss.flatten.attach.mapM (fun x => fromMatVariable7 x.1)
            = rss.flatten.mapM fromMatVariable7 from
            mapM_attach_pres rss.flatten fromMatVariable7]
        rw [hfflat]
        simp only [PRes.bind_okP]
        unfold StructureArray.newGrouped
        rw [ArrayDimensions_new_dim]
        rw [if_neg (by
          intro hcon
          apply hcon.2
          rw [length_flatten_const uss f.length h5]
          rw [show uss.length = d.prod from by omega])]
        rw [groupCells_flatten f hfne uss h5]
        simp only [PRes.lift_ok, RRes.bind_ok]
        rw [← forall2_eq_map_left (fun us => MatVariable.Structure
          ((f.zip us).foldl (fun m p => indexMapInsert m p.1 p.2) []))
          vs uss h6]
        rfl
    refine ⟨_, hto, ?_, ?_⟩
    · obtain ⟨r', hw, _, hfrom⟩ := key (ArrayName.new "") "" (by rfl)
      exact ⟨r', hw, hfrom⟩
    · intro nm hnm
      obtain ⟨r', hw, hn7, hfrom⟩ := key (ArrayName.new nm) nm
        (ArrayName_roundtrip nm hnm)
      exact ⟨.StructureArray (ArrayDimensions.new d) (ArrayName.new nm)
        (ArrayFieldNames.new f) chunks.flatten, r', rfl, hw, hn7, hfrom⟩

end Matrw

namespace Matrw

set_option maxHeartbeats 1000000

/-- C1: counterexample — the claim quantifies over all containers,
including empty arrays of any declared element kind, but the write-side
conversion (`From<NumericArray> for NumericArray7`, numeric_array.rs line
172) short-circuits every empty buffer to an empty `u8` record, so saving
and loading a container holding an empty `i32` array returns an empty
array whose element kind has changed to `u8`. -/
theorem C1_empty_array_kind_changed :
    saveLoadMatfile false
        [("a", MatVariable.NumericArray ⟨[0, 0], .I32 [], none⟩)]
      = .ok [("a", MatVariable.NumericArray ⟨[0, 0], .U8 [], none⟩)]
    ∧ (MatlabType.U8 []).kind ≠ (MatlabType.I32 []).kind := by
  constructor
  · have h1 : toMatVariable7 (.NumericArray ⟨[0, 0], .I32 [], none⟩)
        = .ok (.Numeric ⟨⟨.MxUINT8CLASS, false, false, false, 0⟩,
          .DataNormal 8 [0, 0], .Empty,
          .DataSmall .MiUINT8 0 (.U8 []), none⟩) := by
      rw [toMatVariable7]
      rfl
    have h2 : wireRTVar (.Numeric ⟨⟨.MxUINT8CLASS, false, false, false, 0⟩,
          .DataNormal 8 [0, 0], .Small 1 [97],
          .DataSmall .MiUINT8 0 (.U8 []), none⟩)
        = .ok (.Numeric ⟨⟨.MxUINT8CLASS, false, false, false, 0⟩,
          .DataNormal 8 [0, 0], .Small 1 [97],
          .DataNormal .MiUINT8 0 (.U8 []), none⟩) := by
      rw [wireRTVar]
      rfl
    have h3 : fromMatVariable7
          (.Numeric ⟨⟨.MxUINT8CLASS, false, false, false, 0⟩,
            .DataNormal 8 [0, 0], .Small 1 [97],
            .DataNormal .MiUINT8 0 (.U8 []), none⟩)
        = .ok (.NumericArray ⟨[0, 0], .U8 [], none⟩) := by
      rw [fromMatVariable7]
      rfl
    unfold saveLoadMatfile
    rw [if_neg (by simp)]
    dsimp only
    rw [List.mapM_cons]
    dsimp only
    rw [h1]
    simp only [PRes.lift_ok, RRes.bind_ok]
    rw [show MatVariable7.set_name (.Numeric ⟨⟨.MxUINT8CLASS, false, false,
        false, 0⟩, .DataNormal 8 [0, 0], .Empty,
        .DataSmall .MiUINT8 0 (.U8 []), none⟩) "a"
      = .ok (.Numeric ⟨⟨.MxUINT8CLASS, false, false, false, 0⟩,
        .DataNormal 8 [0, 0], .Small 1 [97],
        .DataSmall .MiUINT8 0 (.U8 []), none⟩) from rfl]
    simp only [PRes.lift_ok, RRes.bind_ok, List.mapM_nil, RRes.pure_eq]
    rw [List.mapM_cons, h2]
    simp only [RRes.bind_ok, List.mapM_nil, RRes.pure_eq]
    rw [List.mapM_cons]
    rw [show MatVariable7.name7 (.Numeric ⟨⟨.MxUINT8CLASS, false, false,
        false, 0⟩, .DataNormal 8 [0, 0], .Small 1 [97],
        .DataNormal .MiUINT8 0 (.U8 []), none⟩) = .ok "a" from rfl]
    simp only [PRes.lift_ok, RRes.bind_ok]
    rw [h3]
    simp only [PRes.lift_ok, RRes.bind_ok, List.mapM_nil, RRes.pure_eq]
    rfl
  · decide

/-- C1 (amended): save-then-load is the identity (key order, dimensions,
element kinds, complex status and element values all preserved, with or
without compression) exactly on the fragment the writer stores losslessly,
captured by `Good` over containers with distinct ASCII keys: numeric
arrays with a nonempty buffer, at least two u32-sized dimensions whose
product is the element count, and a buffer pair in `numPairOk` (a numeric
kind real or with a same-kind imaginary buffer, a real all-ASCII char
array, or a real bool array — UTF16 buffers and complex char/bool arrays
panic on write, and non-ASCII chars are silently filtered so the reloaded
count disagrees with the dimensions); sparse arrays per `GoodSparse`;
structures and structure arrays whose field names satisfy `GoodFieldName`
(distinct, NUL-free ASCII, at most 63 bytes — longer or NUL-bearing names
are mangled by the fixed 64-byte field-name rows); cells and structure
arrays with u32-sized dimensions matching the cell count, each
structure-array cell a structure sharing the nonempty field list. -/
theorem C1_save_load_round_trip (compress : Bool)
    (c : List (String × MatVariable))
    (hnd : (c.map Prod.fst).Nodup)
    (hg : ∀ p ∈ c, (∀ ch ∈ p.1.data, ch.toNat < 0x80) ∧ Good p.2) :
    saveLoadMatfile compress c = .ok c := by
  have hfalse : saveLoadMatfile false c = .ok c := by
    unfold saveLoadMatfile
    rw [if_neg (by simp)]
    dsimp only
    obtain ⟨vars7, hvars, hf1⟩ := mapM_ok_pointwise_rres
      (fun p w => ∃ r, wireRTVar w = .ok r ∧ r.name7 = .ok p.1 ∧
        fromMatVariable7 r = .ok p.2)
      c (fun p => do
        let v7 ← (toMatVariable7 p.2).lift
        (v7.set_name p.1).lift)
      (by
        intro p hp
        obtain ⟨w7, hto, _, hnamed⟩ := varRT p.2 (hg p hp).2
        obtain ⟨w7', r', hsn, hw, hn7, hfrom⟩ := hnamed p.1 (hg p hp).1
        refine ⟨w7', ?_, r', hw, hn7, hfrom⟩
        dsimp only
        rw [hto, PRes.lift_ok, RRes.bind_ok, hsn, PRes.lift_ok])
    obtain ⟨rs, hrs, hf2⟩ := mapM_ok_forall2_rres
      (fun p w => ∃ r, wireRTVar w = .ok r ∧ r.name7 = .ok p.1 ∧
        fromMatVariable7 r = .ok p.2)
      (fun p r => r.name7 = .ok p.1 ∧ fromMatVariable7 r = .ok p.2)
      c vars7 wireRTVar hf1
      (fun p w hq => by
        obtain ⟨r, hw, hn7, hfrom⟩ := hq
        exact ⟨r, hw, hn7, hfrom⟩)
    obtain ⟨pairs, hpairs, hf3⟩ := mapM_ok_forall2_rres
      (fun p r => r.name7 = .ok p.1 ∧ fromMatVariable7 r = .ok p.2)
      (fun p q => q = p)
      c rs (fun v7 => do
        let n ← (v7.name7).lift
        let w ← (fromMatVariable7 v7).lift
        pure (n, w))
      hf2
      (fun p r hq => ⟨(p.1, p.2), by
        dsimp only
        rw [hq.1, PRes.lift_ok, RRes.bind_ok, hq.2, PRes.lift_ok,
          RRes.bind_ok]
        rfl, rfl⟩)
    rw [hvars, RRes.bind_ok, hrs, RRes.bind_ok, hpairs, RRes.bind_ok]
    rw [forall2_eq_right c pairs hf3]
    rw [foldl_indexMapInsert_fresh c [] (by simp) hnd]
    rw [List.nil_append]
    rfl
  cases compress
  · exact hfalse
  · rw [saveLoad_wrap_transparent c]
    exact hfalse

/-- Witness for the amended C1 round trip: a container holding one `i32`
array of shape `[1, 2]`, saved with compression and loaded, comes back
unchanged. -/
theorem C1_save_load_round_trip_witness :
    saveLoadMatfile true
        [("a", MatVariable.NumericArray ⟨[1, 2], .I32 [5, 6], none⟩)]
      = .ok [("a", MatVariable.NumericArray ⟨[1, 2], .I32 [5, 6], none⟩)] :=
  C1_save_load_round_trip true
    [("a", MatVariable.NumericArray ⟨[1, 2], .I32 [5, 6], none⟩)]
    (by simp)
    (by
      intro p hp
      rw [List.mem_singleton] at hp
      subst hp
      exact ⟨by decide, Good.num _
        ⟨by decide, by decide, by decide, by decide, trivial⟩⟩)

end Matrw
